import Mathlib

/-!
# Excel processor: calculation and template-merge engine

A shallow embedding of `backend/internal/services/excel_service.go` together with
the parts of `backend/internal/models/models.go` it uses.

* Go `float64` is kept abstract: every definition and theorem is stated over an
  arbitrary carrier `F` with the operations the service uses (`GoFloat64 F`).  The
  carrier `Exact` further down is a small exact-arithmetic instance on which the
  embedding can be evaluated at concrete inputs.
* Go `interface{}` values are the inductive types `Value` (cells and results) and
  `Json` (decoded request payloads); Go `map[string]T` is an association list with
  unique keys (`GoMap`).
* The spreadsheet codec (`excelize`) is a boundary: an opened workbook is a record
  of the answers the codec gives (`excelize.File`), a workbook that is written to
  is a state `W` with a `SetCellValue` step (`Runtime`), and a merge returns the
  calls it made together with its result (`Run`).
* Go leaves the order of `range` over a map open; `CalculateColumns` takes that
  order as the parameter `visit`.
* A call that can panic returns an `Outcome`; the others return `Except`.
* Go `int` is `Int`; row numbers and indices stay far below the machine word.
-/

set_option autoImplicit false
set_option linter.unusedSectionVars false

/-! ## Go standard library: `strings` -/

namespace strings

/-- Go `unicode.IsSpace`: the code points `strings.TrimSpace` removes. -/
def isSpace (c : Char) : Bool :=
  let n := c.toNat
  n == 9 || n == 10 || n == 11 || n == 12 || n == 13 || n == 32 || n == 133 || n == 160
    || n == 5760 || (8192 ≤ n && n ≤ 8202) || n == 8232 || n == 8233 || n == 8239
    || n == 8287 || n == 12288

/-- Go `strings.TrimSpace`: drop leading and trailing white space. -/
def TrimSpace (s : String) : String :=
  String.mk ((s.toList.dropWhile isSpace).reverse.dropWhile isSpace).reverse

/-- Go `strings.ReplaceAll(s, ",", "")`: delete every comma. -/
def ReplaceAllCommas (s : String) : String :=
  String.mk (s.toList.filter (fun c => c != ','))

end strings

/-! ## The spreadsheet codec: column names -/

namespace excelize

/-- The largest column number of a worksheet (`XFD`). -/
def MaxColumns : Nat := 16384

/-- Value of one letter of a column name: `A`/`a` is 1, ..., `Z`/`z` is 26. -/
def letterValue (c : Char) : Option Nat :=
  let n := c.toNat
  if 65 ≤ n ∧ n ≤ 90 then some (n - 64)
  else if 97 ≤ n ∧ n ≤ 122 then some (n - 96)
  else none

/-- One step of reading a column name from the left. -/
def nameStep (acc : Option Nat) (c : Char) : Option Nat :=
  match acc, letterValue c with
  | some a, some v => some (a * 26 + v)
  | _, _ => none

/-- Modelled from the spec: `excelize.ColumnNameToNumber` is codec code that is not
part of the repository.  Column identifiers are 1-indexed letter codes, bijective
with the positive integers (A=1 ... Z=26, AA=27, ...).  As in the codec, letters
are accepted in either case, and the empty name, a name with any other character
and a number above `MaxColumns` are errors (`none`). -/
def ColumnNameToNumber (name : String) : Option Nat :=
  if name.toList = [] then none
  else
    match name.toList.foldl nameStep (some 0) with
    | some col => if col > MaxColumns then none else some col
    | none => none

/-- Letters of column number `n`, most significant first (`fuel` bounds the number
of letters; `fuel = n` is always enough). -/
def columnLetters : Nat → Nat → List Char
  | 0, _ => []
  | fuel + 1, n =>
    if n = 0 then []
    else columnLetters fuel ((n - 1) / 26) ++ [Char.ofNat ((n - 1) % 26 + 65)]

/-- Modelled from the spec: `excelize.ColumnNumberToName` is codec code that is not
part of the repository.  It is the inverse letter code (1=A ... 26=Z, 27=AA, ...);
as in the codec a number outside `1 .. MaxColumns` is an error (`none`). -/
def ColumnNumberToName (num : Int) : Option String :=
  if num < 1 ∨ num > (MaxColumns : Int) then none
  else some (String.mk (columnLetters num.toNat num.toNat))

end excelize

/-! ## Go values -/

/-- The operations on Go `float64` that the service uses.  The carrier is abstract:
nothing is assumed about rounding, and the only laws are the two order laws that
IEEE comparison satisfies for every value, NaN included. -/
class GoFloat64 (F : Type) where
  /-- The literal `0` / `0.0` and the zero value of a `float64` variable. -/
  zero : F
  /-- Go `x + y`. -/
  add : F → F → F
  /-- Go `x - y`. -/
  sub : F → F → F
  /-- Go `x * y`. -/
  mul : F → F → F
  /-- Go `x / y`. -/
  div : F → F → F
  /-- Go `x == y`. -/
  eq : F → F → Bool
  /-- Go `x < y` (and `y > x`). -/
  lt : F → F → Bool
  /-- Go conversion `float64(n)` of an `int`. -/
  ofInt : Int → F
  /-- Go conversion `int(x)`. -/
  toInt : F → Int
  /-- Go `strconv.ParseFloat(s, 64)`: the value when `err == nil`, else `none`. -/
  ParseFloat : String → Option F
  /-- Go `fmt.Sprintf("%v", x)`. -/
  format : F → String
  /-- Law: no value is below itself. -/
  lt_irrefl : ∀ x, lt x x = false
  /-- Law: `<` is transitive. -/
  lt_trans : ∀ x y z, lt x y = true → lt y z = true → lt x z = true

/-- The dynamic values (`interface{}`) the service stores in rows and results. -/
inductive Value (F : Type) where
  | str (s : String)
  | float (x : F)
  | int (n : Int)
  deriving DecidableEq, Repr

/-- Go `fmt.Sprintf("%v", v)`. -/
def Value.sprintV {F : Type} [GoFloat64 F] : Value F → String
  | .str s => s
  | .float x => GoFloat64.format x
  | .int n => toString n

/-- Go `map[string]V`: an association list in which every key occurs once. -/
def GoMap (V : Type) : Type := List (String × V)

namespace GoMap

variable {V : Type}

/-- Go `map[string]V{}`. -/
def empty : GoMap V := []

/-- Go `v, exists := m[k]`. -/
def get : GoMap V → String → Option V
  | [], _ => none
  | (k1, v) :: rest, k => if k1 = k then some v else get rest k

/-- Go `m[k] = v`. -/
def set : GoMap V → String → V → GoMap V
  | [], k, v => [(k, v)]
  | (k1, v1) :: rest, k, v => if k1 = k then (k, v) :: rest else (k1, v1) :: set rest k v

/-- The keys present in the map. -/
def keys (m : GoMap V) : List String := List.map Prod.fst m

/-- The entries of the map, as a list. -/
def entries (m : GoMap V) : List (String × V) := m

instance [DecidableEq V] : DecidableEq (GoMap V) :=
  inferInstanceAs (DecidableEq (List (String × V)))

end GoMap

/-- A materialized row: column identifier to cell value. -/
abbrev Row (F : Type) : Type := GoMap (Value F)

namespace excelize

/-- An opened workbook, as far as the service reads it. -/
structure File where
  /-- Go `f.GetRows(sheet)`: the raw text grid (ragged rows), or the codec error. -/
  GetRows : String → Except String (List (List String))
  /-- Go `f.GetSheetDimension(sheet)`: the string the codec reports (its error is
  discarded by the caller). -/
  GetSheetDimension : String → String

end excelize

/-- The files on disk, as `excelize.OpenFile` sees them. -/
abbrev Disk : Type := String → Except String excelize.File

/-! ## models.go -/

namespace models

/-- Go `models.ExcelFile` (the fields the service reads). -/
structure ExcelFile where
  ID : Nat
  FileName : String
  FilePath : String

/-- Go `models.CalculationRequest`. -/
structure CalculationRequest where
  FileID : Nat
  SheetName : String
  MainColumn : String
  TargetColumns : List String
  Operation : String
  StartRow : Option Int

/-- Go `models.CalculationResult`. -/
structure CalculationResult (F : Type) where
  MainColumn : String
  Results : List (GoMap (Value F))
  Summary : GoMap F

/-- Go `models.RowCalculationRequest`. -/
structure RowCalculationRequest where
  FileID : Nat
  SheetName : String
  SourceColumns : List String
  TargetColumn : String
  Operation : String
  StartRow : Int
  EndRow : Option Int

/-- Go `models.RowCalculationResult`. -/
structure RowCalculationResult (F : Type) where
  SourceColumns : List String
  TargetColumn : String
  Operation : String
  StartRow : Int
  EndRow : Int
  Results : List (GoMap (Value F))
  TotalRows : Int
  Formula : String

end models

/-! ## excel_service.go: reading a sheet -/

namespace ExcelService

open excelize models

variable {F : Type} [GoFloat64 F]

/-- The identifiers of columns `1 .. n` (`colName, _ := ColumnNumberToName(i)`). -/
def columnNames (n : Nat) : List String :=
  (List.range n).map (fun (k : Nat) => (ColumnNumberToName ((k : Int) + 1)).getD "")

/-- Go `getAllExcelColumns`: the column letters up to the used-column bound, or the
first 52 columns when that yields nothing. -/
def getAllExcelColumns (f : File) (sheetName : String) : List String :=
  let cols := f.GetSheetDimension sheetName
  let maxCol : Int :=
    match ColumnNameToNumber cols with
    | some n => (n : Int)
    | none => -1
  let columns := columnNames maxCol.toNat
  if columns.length = 0 then columnNames 52 else columns

/-- Go `parseNumberWithCommas`: `some` value when the returned error is nil. -/
def parseNumberWithCommas (str : String) : Option F :=
  if str = "" then none
  else GoFloat64.ParseFloat (strings.TrimSpace (strings.ReplaceAllCommas str))

/-- The value `GetSheetData` stores for column position `j` of a raw row. -/
def cellValue (row : List String) (j : Nat) : Value F :=
  match row[j]? with
  | some s =>
    if s ≠ "" then
      match (parseNumberWithCommas s : Option F) with
      | some numVal => .float numVal
      | none => .str s
    else .str ""
  | none => .str ""

/-- The inner loop of `GetSheetData`: `for j, colName := range allColumns`. -/
def fillRow (row : List String) : List String → Nat → Row F → Row F
  | [], _, rowData => rowData
  | colName :: rest, j, rowData =>
    fillRow row rest (j + 1) (rowData.set colName (cellValue row j))

/-- Go `GetSheetData`. -/
def GetSheetData (disk : Disk) (filePath sheetName : String) :
    Except String (List (Row F)) :=
  match disk filePath with
  | .error e => .error ("failed to open file: " ++ e)
  | .ok f =>
    match f.GetRows sheetName with
    | .error e => .error ("failed to read sheet " ++ sheetName ++ ": " ++ e)
    | .ok rows =>
      if rows.length = 0 then .ok []
      else
        let allColumns := getAllExcelColumns f sheetName
        .ok (rows.map (fun row => fillRow row allColumns 0 GoMap.empty))

/-! ## excel_service.go: aggregation -/

/-- The grouping loop of `CalculateColumns`: a row that has the main column is
appended to the group keyed by the text rendering of that cell. -/
def groupStep (mainColumn : String) (groups : GoMap (List (Row F))) (row : Row F) :
    GoMap (List (Row F)) :=
  match row.get mainColumn with
  | some mainVal =>
    let key := mainVal.sprintV
    groups.set key ((groups.get key).getD [] ++ [row])
  | none => groups

/-- The scan of one group for one target column: `sum` and `count` of the cells
that hold a `float64`. -/
def sumCountStep (targetCol : String) (acc : F × Int) (row : Row F) : F × Int :=
  match row.get targetCol with
  | some (.float numVal) => (GoFloat64.add acc.1 numVal, acc.2 + 1)
  | _ => acc

/-- The body of `for _, targetCol := range req.TargetColumns`, acting on the group
result under construction and on `result.Summary`. -/
def targetStep (operation : String) (groupData : List (Row F))
    (st : Row F × GoMap F) (targetCol : String) : Row F × GoMap F :=
  let sc := groupData.foldl (sumCountStep targetCol) ((GoFloat64.zero : F), (0 : Int))
  let sum := sc.1
  let count := sc.2
  let groupResult :=
    if operation = "sum" then st.1.set targetCol (.float sum)
    else if operation = "average" then
      if count > 0 then st.1.set targetCol (.float (GoFloat64.div sum (GoFloat64.ofInt count)))
      else st.1.set targetCol (.int 0)
    else if operation = "count" then st.1.set targetCol (.int count)
    else st.1
  let summary0 :=
    if (st.2.get targetCol).isNone then st.2.set targetCol GoFloat64.zero else st.2
  let summary := summary0.set targetCol (GoFloat64.add ((summary0.get targetCol).getD GoFloat64.zero) sum)
  (groupResult, summary)

/-- The body of `for groupKey, groupData := range groups`. -/
def groupResultStep (req : CalculationRequest) (st : List (Row F) × GoMap F)
    (g : String × List (Row F)) : List (Row F) × GoMap F :=
  let groupResult : Row F := GoMap.empty.set req.MainColumn (.str g.1)
  let r := req.TargetColumns.foldl (targetStep req.Operation g.2) (groupResult, st.2)
  (st.1 ++ [r.1], r.2)

/-- Go `CalculateColumns`, after the sheet has been read.  Go does not fix the order
in which `range` visits a map; `visit` is that order. -/
def calculateGroups (visit : List (String × List (Row F)) → List (String × List (Row F)))
    (data : List (Row F)) (req : CalculationRequest) : CalculationResult F :=
  let groups := data.foldl (groupStep req.MainColumn) GoMap.empty
  let r := (visit groups.entries).foldl (groupResultStep req) ([], GoMap.empty)
  { MainColumn := req.MainColumn, Results := r.1, Summary := r.2 }

/-- Go `CalculateColumns`. -/
def CalculateColumns (disk : Disk)
    (visit : List (String × List (Row F)) → List (String × List (Row F)))
    (filePath : String) (req : CalculationRequest) : Except String (CalculationResult F) :=
  match GetSheetData disk filePath req.SheetName with
  | .error e => .error e
  | .ok data => .ok (calculateGroups visit data req)

/-- The collection loop of `CalculateColumnWithFile`: a string cell contributes when
it parses, a `float64` cell contributes its value. -/
def collectStep (mainColumn : String) (values : List F) (row : Row F) : List F :=
  match row.get mainColumn with
  | some (.str strVal) =>
    match (parseNumberWithCommas strVal : Option F) with
    | some numVal => values ++ [numVal]
    | none => values
  | some (.float numVal) => values ++ [numVal]
  | _ => values

/-- The `switch req.Operation` of `CalculateColumnWithFile` on a non-empty value
list; `none` is the `default` branch. -/
def columnOperation (operation : String) (values : List F) : Option F :=
  if operation = "sum" then some (values.foldl GoFloat64.add GoFloat64.zero)
  else if operation = "average" then
    some (GoFloat64.div (values.foldl GoFloat64.add GoFloat64.zero) (GoFloat64.ofInt values.length))
  else if operation = "count" then some (GoFloat64.ofInt values.length)
  else if operation = "max" then
    some (values.foldl (fun result v => if GoFloat64.lt result v then v else result)
      (values.headD GoFloat64.zero))
  else if operation = "min" then
    some (values.foldl (fun result v => if GoFloat64.lt v result then v else result)
      (values.headD GoFloat64.zero))
  else none

/-- Go `CalculateColumnWithFile` from `// Extract column values` on, for the start
row that was determined. -/
def aggregateFrom (data : List (Row F)) (req : CalculationRequest) (startRow : Int) :
    Except String (CalculationResult F) :=
  let processedRows := data.drop startRow.toNat
  let values : List F := processedRows.foldl (collectStep req.MainColumn) []
  if values.length = 0 then
    .error ("no numeric values found in column " ++ req.MainColumn
      ++ " starting from row " ++ toString startRow)
  else
    match columnOperation req.Operation values with
    | none => .error ("unsupported operation: " ++ req.Operation)
    | some result =>
      .ok { MainColumn := req.MainColumn
            Summary := GoMap.empty.set req.Operation result
            Results := [((((((GoMap.empty.set "column" (.str req.MainColumn)).set
              "operation" (.str req.Operation)).set "result" (.float result)).set
              "count" (.int values.length)).set "total_rows" (.int processedRows.length)).set
              "start_row" (.int startRow)).set "data_length" (.int data.length)] }

/-- Go `CalculateColumnWithFile`, after the sheet has been read: the checks on the
data and on the start row (0 when the request has none). -/
def calculateColumnData (data : List (Row F)) (req : CalculationRequest) :
    Except String (CalculationResult F) :=
  if data.length = 0 then .error "no data found in sheet"
  else
    match req.StartRow with
    | some startRow =>
      if startRow < 0 ∨ startRow ≥ (data.length : Int) then
        .error ("invalid start row: " ++ toString startRow ++ " (data has "
          ++ toString data.length ++ " rows)")
      else aggregateFrom data req startRow
    | none => aggregateFrom data req 0

/-- Go `CalculateColumnWithFile`. -/
def CalculateColumnWithFile (disk : Disk) (file : ExcelFile) (req : CalculationRequest) :
    Except String (CalculationResult F) :=
  match GetSheetData disk file.FilePath req.SheetName with
  | .error e => .error ("failed to read sheet data: " ++ e)
  | .ok data => calculateColumnData data req

/-! ## excel_service.go: row-wise calculation -/

/-- How a Go call ends: a returned value, a returned error, or a run-time panic. -/
inductive Outcome (α : Type) where
  | ok (a : α)
  | error (msg : String)
  | panic (msg : String)

/-- The 0-based position of a column: `colIndex, err := ColumnNameToNumber(colName)`
followed by `colIndex--`; `none` when `err != nil`. -/
def columnIndex (colName : String) : Option Nat :=
  match ColumnNameToNumber colName with
  | some n => some (n - 1)
  | none => none

/-- The numeric value read at position `colIndex` of a raw row: 0 unless the cell
is present, non-empty and parses. -/
def sourceValue (row : List String) (colIndex : Nat) : F :=
  match row[colIndex]? with
  | some s =>
    if s ≠ "" then
      match (parseNumberWithCommas s : Option F) with
      | some val => val
      | none => GoFloat64.zero
    else GoFloat64.zero
  | none => GoFloat64.zero

/-- The body of `for _, colName := range req.SourceColumns`: a column whose name
does not convert is passed over (`continue`). -/
def valuesStep (row : List String) (values : List F) (colName : String) : List F :=
  match columnIndex colName with
  | none => values
  | some colIndex => values ++ [sourceValue row colIndex]

/-- One step of the `switch req.Operation` inside the fold over `values[1:]`. -/
def applyOperation (operation : String) (calculatedValue v : F) : F :=
  if operation = "add" then GoFloat64.add calculatedValue v
  else if operation = "subtract" then GoFloat64.sub calculatedValue v
  else if operation = "multiply" then GoFloat64.mul calculatedValue v
  else if operation = "divide" then
    if !(GoFloat64.eq v GoFloat64.zero) then GoFloat64.div calculatedValue v
    else calculatedValue
  else calculatedValue

/-- The computed value of a row: 0 for no values, else `values[0]` folded with
`values[1], values[2], ...`. -/
def calculate (operation : String) (values : List F) : F :=
  match values with
  | [] => GoFloat64.zero
  | first :: rest => rest.foldl (applyOperation operation) first

/-- The loop `for i, colName := range req.SourceColumns` that echoes the inputs:
the i-th column receives `values[i]` as long as `i < len(values)`. -/
def echoSources : List String → List F → Row F → Row F
  | colName :: cols, v :: vals, rowResult =>
    echoSources cols vals (rowResult.set colName (.float v))
  | _, _, rowResult => rowResult

/-- The map literal `{"row_number": ..., "calculated_value": v, req.TargetColumn: v}`. -/
def newRowResult (rowIndex : Nat) (targetColumn : String) (v : Value F) : Row F :=
  ((GoMap.empty.set "row_number" (.int ((rowIndex : Int) + 1))).set "calculated_value" v).set
    targetColumn v

/-- The result entry of one row for the `copy` operation; `none` is `continue`. -/
def copyRow (req : RowCalculationRequest) (rowIndex : Nat) (row : List String) :
    Option (Row F) :=
  let source := req.SourceColumns.headD ""
  match columnIndex source with
  | none => none
  | some colIndex =>
    let originalValue : Value F :=
      match row[colIndex]? with
      | some s => if s ≠ "" then .str s else .str ""
      | none => .str ""
    some ((newRowResult rowIndex req.TargetColumn originalValue).set source originalValue)

/-- The result entry of one row for the numeric operations. -/
def numericRow (req : RowCalculationRequest) (rowIndex : Nat) (row : List String) : Row F :=
  let values : List F := req.SourceColumns.foldl (valuesStep row) []
  let calculatedValue := calculate req.Operation values
  echoSources req.SourceColumns values
    (newRowResult rowIndex req.TargetColumn (.float calculatedValue))

/-- The loop `for rowIndex := req.StartRow; rowIndex <= endRow; rowIndex++` over the
listed indices; an index at or past `len(rows)` ends the loop (`break`). -/
def rowLoop (rows : List (List String)) (req : RowCalculationRequest) :
    List Nat → List (Row F) → List (Row F)
  | [], results => results
  | rowIndex :: more, results =>
    match rows[rowIndex]? with
    | none => results
    | some row =>
      if req.Operation = "copy" then
        match (copyRow req rowIndex row : Option (Row F)) with
        | none => rowLoop rows req more results
        | some rowResult => rowLoop rows req more (results ++ [rowResult])
      else rowLoop rows req more (results ++ [numericRow req rowIndex row])

/-- The end row after `// Determine end row` and `// Validate row range`. -/
def resolveEndRow (rowCount : Nat) (req : RowCalculationRequest) : Int :=
  let endRow : Int :=
    match req.EndRow with
    | some e => e
    | none => (rowCount : Int) - 1
  if endRow < req.StartRow ∨ endRow ≥ (rowCount : Int) then (rowCount : Int) - 1 else endRow

/-- The display formula of an arithmetic operation: the first source column, then
each further one after the separator. -/
def joinColumns (sep : String) (first : String) (rest : List String) : String :=
  rest.foldl (fun formula c => formula ++ sep ++ c) first

/-- The `switch req.Operation` that builds the formula; `none` is the index panic of
`req.SourceColumns[0]` on an empty list. -/
def buildFormula (operation : String) (sourceColumns : List String) : Option String :=
  let sep : Option String :=
    if operation = "add" then some " + "
    else if operation = "subtract" then some " - "
    else if operation = "multiply" then some " × "
    else if operation = "divide" then some " ÷ "
    else none
  match sep with
  | some sp =>
    match sourceColumns with
    | [] => none
    | first :: rest => some (joinColumns sp first rest)
  | none =>
    if operation = "copy" then
      match sourceColumns with
      | [] => none
      | first :: _ => some ("Copy from " ++ first)
    else some ""

/-- Go `CalculateRowWise`. -/
def CalculateRowWise (disk : Disk) (filePath : String) (req : RowCalculationRequest) :
    Outcome (RowCalculationResult F) :=
  match disk filePath with
  | .error e => .error ("failed to open file: " ++ e)
  | .ok f =>
    match f.GetRows req.SheetName with
    | .error e => .error ("failed to read sheet " ++ req.SheetName ++ ": " ++ e)
    | .ok rows =>
      if req.StartRow < 0 ∨ req.StartRow ≥ (rows.length : Int) then
        .error ("invalid start row: " ++ toString req.StartRow ++ " (sheet has "
          ++ toString rows.length ++ " rows)")
      else
        let endRow := resolveEndRow rows.length req
        match buildFormula req.Operation req.SourceColumns with
        | none => .panic "index out of range [0] with length 0"
        | some formula =>
          let indices := List.range' req.StartRow.toNat (endRow + 1 - req.StartRow).toNat
          let results : List (Row F) := rowLoop rows req indices []
          .ok { SourceColumns := req.SourceColumns
                TargetColumn := req.TargetColumn
                Operation := req.Operation
                StartRow := req.StartRow + 1
                EndRow := endRow + 1
                Results := results
                TotalRows := results.length
                Formula := formula }

end ExcelService

/-! ## excel_service.go: merging into a template -/

/-- A decoded JSON value: what `interface{}` holds after `ShouldBindJSON`. -/
inductive Json (F : Type) where
  | null
  | bool (b : Bool)
  | num (x : F)
  | str (s : String)
  | arr (items : List (Json F))
  | obj (fields : List (String × Json F))

/-- The calls a merge makes that act on the workbook in memory or on the disk. -/
inductive Call (F W : Type) where
  | SetCellValue (sheet cell : String) (value : Json F)
  | MkdirAll (path : String)
  | SaveAs (w : W) (path : String)

/-- What the merge functions call outside the service.  `W` is the state of a
workbook held in memory. -/
structure Runtime (F W : Type) where
  /-- Go `excelize.OpenFile(path)` of a template. -/
  OpenFile : String → Except String W
  /-- Go `f.GetSheetList()`. -/
  GetSheetList : W → List String
  /-- Go `f.SetCellValue(sheet, cell, value)`: the workbook after the write, or the
  codec error. -/
  SetCellValue : W → String → String → Json F → Except String W
  /-- Go `os.MkdirAll(path, 0755)`. -/
  MkdirAll : String → Except String Unit
  /-- Go `f.SaveAs(path)`. -/
  SaveAs : W → String → Except String Unit
  /-- Go `time.Now().Unix()` at the call. -/
  Unix : Int

/-- A finished call of a merge function: the calls it made, in order, and what it
returned. -/
structure Run (F W : Type) where
  calls : List (Call F W)
  ret : Except String String

namespace ExcelService

variable {F W : Type} [GoFloat64 F]

/-- The write `err = f.SetCellValue(templateSheet, cellRef, ...)` with its two
branches on the dynamic type of the value. -/
def writeValue (rt : Runtime F W) (w : W) (templateSheet cellRef : String) (value : Json F) :
    Except String W :=
  match value with
  | .num numVal => rt.SetCellValue w templateSheet cellRef (.num numVal)
  | other => rt.SetCellValue w templateSheet cellRef other

/-- The loop `for i, data := range calculatedData` of `MergeDataToTemplate`.  The
result is the list of calls made so far and either the workbook or the error
returned from inside the loop. -/
def mergeLoop (rt : Runtime F W) (templateSheet targetColumn : String) (startRow : F) :
    List (Json F) → Nat → W → List (Call F W) → List (Call F W) × Except String W
  | [], _, w, calls => (calls, .ok w)
  | data :: rest, i, w, calls =>
    match data with
    | .obj dataMap =>
      match GoMap.get dataMap "value" with
      | some value =>
        let cellRef := targetColumn ++ toString (GoFloat64.toInt startRow + (i : Int))
        match writeValue rt w templateSheet cellRef value with
        | .error e =>
          (calls ++ [.SetCellValue templateSheet cellRef value],
            .error ("failed to set cell " ++ cellRef ++ ": " ++ e))
        | .ok w2 =>
          mergeLoop rt templateSheet targetColumn startRow rest (i + 1) w2
            (calls ++ [.SetCellValue templateSheet cellRef value])
      | none => mergeLoop rt templateSheet targetColumn startRow rest (i + 1) w calls
    | _ => mergeLoop rt templateSheet targetColumn startRow rest (i + 1) w calls

/-- The tail of both merge functions: create `exports`, save, return the path. -/
def saveMerged (rt : Runtime F W) (w : W) (calls : List (Call F W)) (outputPath : String) :
    Run F W :=
  match rt.MkdirAll "exports" with
  | .error e =>
    { calls := calls ++ [.MkdirAll "exports"]
      ret := .error ("failed to create exports directory: " ++ e) }
  | .ok _ =>
    match rt.SaveAs w outputPath with
    | .error e =>
      { calls := calls ++ [.MkdirAll "exports", .SaveAs w outputPath]
        ret := .error ("failed to save merged file: " ++ e) }
    | .ok _ =>
      { calls := calls ++ [.MkdirAll "exports", .SaveAs w outputPath]
        ret := .ok outputPath }

/-- Go `MergeDataToTemplate`. -/
def MergeDataToTemplate (rt : Runtime F W) (templatePath : String)
    (mergeData : GoMap (Json F)) : Run F W :=
  match rt.OpenFile templatePath with
  | .error e => { calls := [], ret := .error ("failed to open template file: " ++ e) }
  | .ok f =>
    match mergeData.get "targetColumn" with
    | some (.str targetColumn) =>
      match mergeData.get "startRow" with
      | some (.num startRow) =>
        match mergeData.get "templateSheet" with
        | some (.str templateSheet) =>
          match mergeData.get "calculatedData" with
          | some (.arr calculatedData) =>
            match mergeLoop rt templateSheet targetColumn startRow calculatedData 0 f [] with
            | (calls, .error e) => { calls := calls, ret := .error e }
            | (calls, .ok w) =>
              saveMerged rt w calls ("exports/merged_" ++ toString rt.Unix ++ ".xlsx")
          | _ => { calls := [], ret := .error "calculated data not found" }
        | _ => { calls := [], ret := .error "template sheet not specified" }
      | _ => { calls := [], ret := .error "start row not specified" }
    | _ => { calls := [], ret := .error "target column not specified" }

/-- The loop `for i, data := range calculatedData` of
`MergeMultipleColumnsToTemplate`: every entry that carries a value must carry a
numeric `targetRow`. -/
def multiLoop (rt : Runtime F W) (templateSheet targetColumn : String) :
    List (Json F) → Nat → W → List (Call F W) → List (Call F W) × Except String W
  | [], _, w, calls => (calls, .ok w)
  | data :: rest, i, w, calls =>
    match data with
    | .obj dataMap =>
      match GoMap.get dataMap "value" with
      | some value =>
        match GoMap.get dataMap "targetRow" with
        | some (.num targetRow) =>
          let cellRef := targetColumn ++ toString (GoFloat64.toInt targetRow)
          match writeValue rt w templateSheet cellRef value with
          | .error e =>
            (calls ++ [.SetCellValue templateSheet cellRef value],
              .error ("failed to set cell " ++ cellRef ++ ": " ++ e))
          | .ok w2 =>
            multiLoop rt templateSheet targetColumn rest (i + 1) w2
              (calls ++ [.SetCellValue templateSheet cellRef value])
        | _ => (calls, .error ("targetRow not found in calculated data for row " ++ toString i))
      | none => multiLoop rt templateSheet targetColumn rest (i + 1) w calls
    | _ => multiLoop rt templateSheet targetColumn rest (i + 1) w calls

/-- The loop `for _, columnData := range mergeDataArray`: a column mapping without a
string `targetColumn` or without an array `calculatedData` is passed over. -/
def columnLoop (rt : Runtime F W) (templateSheet : String) :
    List (Json F) → W → List (Call F W) → List (Call F W) × Except String W
  | [], w, calls => (calls, .ok w)
  | columnData :: rest, w, calls =>
    match columnData with
    | .obj columnMap =>
      match GoMap.get columnMap "targetColumn" with
      | some (.str targetColumn) =>
        match GoMap.get columnMap "calculatedData" with
        | some (.arr calculatedData) =>
          match multiLoop rt templateSheet targetColumn calculatedData 0 w calls with
          | (calls2, .error e) => (calls2, .error e)
          | (calls2, .ok w2) => columnLoop rt templateSheet rest w2 calls2
        | _ => columnLoop rt templateSheet rest w calls
      | _ => columnLoop rt templateSheet rest w calls
    | _ => columnLoop rt templateSheet rest w calls

/-- Go `MergeMultipleColumnsToTemplate`. -/
def MergeMultipleColumnsToTemplate (rt : Runtime F W) (templatePath : String)
    (mergeData : GoMap (Json F)) : Run F W :=
  match rt.OpenFile templatePath with
  | .error e => { calls := [], ret := .error ("failed to open template file: " ++ e) }
  | .ok f =>
    match mergeData.get "templateSheet" with
    | some (.str templateSheet) =>
      match mergeData.get "mergeData" with
      | some (.arr mergeDataArray) =>
        match columnLoop rt templateSheet mergeDataArray f [] with
        | (calls, .error e) => { calls := calls, ret := .error e }
        | (calls, .ok w) =>
          saveMerged rt w calls ("exports/merged_multi_" ++ toString rt.Unix ++ ".xlsx")
      | _ => MergeDataToTemplate rt templatePath mergeData
    | _ => { calls := [], ret := .error "template sheet not specified" }

end ExcelService

/-! ## excel_service.go: exporting a row calculation -/

namespace ExcelService

open models

variable {F W : Type} [GoFloat64 F]

/-- Go `encoding/json`: a value of a result entry after the result has been sent as
JSON and bound again by `ShouldBindJSON` (handler `ExportToTemplate`).  Every
number, `int` or `float64`, comes back as a `float64`; a string comes back as a
string.  (A NaN or an infinity has no JSON form; the model lets it through.) -/
def jsonRoundTrip : Value F → Value F
  | .str s => .str s
  | .float x => .float x
  | .int n => .float (GoFloat64.ofInt n)

/-- A result entry after the JSON round trip: the same keys, each value decoded. -/
def decodeEntry (rowResult : Row F) : Row F :=
  List.map (fun kv => (kv.1, jsonRoundTrip kv.2)) rowResult.entries

/-- A `RowCalculationResult` after the JSON round trip. -/
def decodeResult (res : RowCalculationResult F) : RowCalculationResult F :=
  { res with Results := res.Results.map decodeEntry }

/-- The dynamic type Go names in the message of a failed type assertion. -/
def dynamicType : Option (Value F) → String
  | none => "nil"
  | some (.str _) => "string"
  | some (.float _) => "float64"
  | some (.int _) => "int"

/-- The run-time panic of a failed assertion `x.(float64)`. -/
def assertionPanic (v : Option (Value F)) : String :=
  "interface conversion: interface \x7b\x7d is " ++ dynamicType v ++ ", not float64"

/-- The loop `for _, rowResult := range calculationResult.Results` of
`ExportRowCalculationToTemplate`: the two type assertions, then the write.  The
result is the list of calls made so far and the workbook, the returned error, or
the panic. -/
def exportLoop (rt : Runtime F W) (sheetName targetColumn : String) :
    List (Row F) → W → List (Call F W) → List (Call F W) × Outcome W
  | [], w, calls => (calls, .ok w)
  | rowResult :: rest, w, calls =>
    match rowResult.get "row_number" with
    | some (.float rowNumber) =>
      match rowResult.get "calculated_value" with
      | some (.float calculatedValue) =>
        let cellAddress := targetColumn ++ toString (GoFloat64.toInt rowNumber)
        match rt.SetCellValue w sheetName cellAddress (.num calculatedValue) with
        | .error e =>
          (calls ++ [.SetCellValue sheetName cellAddress (.num calculatedValue)],
            .error ("failed to write to cell " ++ cellAddress ++ ": " ++ e))
        | .ok w2 =>
          exportLoop rt sheetName targetColumn rest w2
            (calls ++ [.SetCellValue sheetName cellAddress (.num calculatedValue)])
      | other => (calls, .panic (assertionPanic other))
    | other => (calls, .panic (assertionPanic other))

/-- Go `ExportRowCalculationToTemplate`: the calls it makes, in order, and how it
ends. -/
def ExportRowCalculationToTemplate (rt : Runtime F W)
    (calculationResult : RowCalculationResult F) (templatePath : String) :
    List (Call F W) × Outcome String :=
  let templatePath :=
    if templatePath = "" then "templates/FileMauImportThuNhap.xlsx" else templatePath
  match rt.OpenFile templatePath with
  | .error e => ([], .error ("failed to open template file " ++ templatePath ++ ": " ++ e))
  | .ok f =>
    match rt.GetSheetList f with
    | [] => ([], .error "template file has no sheets")
    | sheetName :: _ =>
      match exportLoop rt sheetName calculationResult.TargetColumn
          calculationResult.Results f [] with
      | (calls, .error e) => (calls, .error e)
      | (calls, .panic e) => (calls, .panic e)
      | (calls, .ok w) =>
        match rt.MkdirAll "exports" with
        | .error e =>
          (calls ++ [.MkdirAll "exports"],
            .error ("failed to create exports directory: " ++ e))
        | .ok _ =>
          let outputPath := "exports/calculated_template_" ++ toString rt.Unix ++ ".xlsx"
          match rt.SaveAs w outputPath with
          | .error e =>
            (calls ++ [.MkdirAll "exports", .SaveAs w outputPath],
              .error ("failed to save template file: " ++ e))
          | .ok _ => (calls ++ [.MkdirAll "exports", .SaveAs w outputPath], .ok outputPath)

end ExcelService

/-! ## An exact-arithmetic carrier

`Exact` interprets the `float64` interface with exact fractions and the three IEEE
special values, and reads plain decimal literals and the special literals.  It serves to evaluate the
embedding at concrete inputs; the general theorems hold for every carrier. -/

/-- A fraction `num / (denPred + 1)` in lowest terms, or an IEEE special value. -/
inductive Exact where
  | fin (num : Int) (denPred : Nat)
  | posInf
  | negInf
  | nan
  deriving DecidableEq, Repr

namespace Exact

/-- The fraction `n / d` (for `d > 0`) in lowest terms. -/
def mk (n : Int) (d : Nat) : Exact :=
  let g := Nat.gcd n.natAbs d
  .fin (n / (g : Int)) (d / g - 1)

/-- The sign of a value: -1, 0 or 1 (0 for NaN). -/
def sign : Exact → Int
  | .fin a _ => Int.sign a
  | .posInf => 1
  | .negInf => -1
  | .nan => 0

/-- The infinity with the given sign, NaN for sign 0. -/
def ofSign (s : Int) : Exact :=
  if s = 0 then .nan else if 0 < s then .posInf else .negInf

/-- Negation. -/
def neg : Exact → Exact
  | .fin a b => .fin (-a) b
  | .posInf => .negInf
  | .negInf => .posInf
  | .nan => .nan

/-- Addition. -/
def add : Exact → Exact → Exact
  | .fin a b, .fin c d => mk (a * ((d : Int) + 1) + c * ((b : Int) + 1)) ((b + 1) * (d + 1))
  | .nan, _ => .nan
  | _, .nan => .nan
  | .posInf, .negInf => .nan
  | .negInf, .posInf => .nan
  | .posInf, _ => .posInf
  | _, .posInf => .posInf
  | .negInf, _ => .negInf
  | _, .negInf => .negInf

/-- Multiplication. -/
def mul : Exact → Exact → Exact
  | .fin a b, .fin c d => mk (a * c) ((b + 1) * (d + 1))
  | x, y => ofSign (sign x * sign y)

/-- Division; a non-zero value divided by zero is an infinity, `0 / 0` is NaN. -/
def div : Exact → Exact → Exact
  | .fin a b, .fin c d =>
    if c = 0 then ofSign (Int.sign a)
    else mk (a * ((d : Int) + 1) * Int.sign c) ((b + 1) * c.natAbs)
  | .fin _ _, .posInf => .fin 0 0
  | .fin _ _, .negInf => .fin 0 0
  | .posInf, .fin c _ => if c < 0 then .negInf else .posInf
  | .negInf, .fin c _ => if c < 0 then .posInf else .negInf
  | _, _ => .nan

/-- Comparison `==`: NaN differs from everything. -/
def eq : Exact → Exact → Bool
  | .fin a b, .fin c d => a == c && b == d
  | .posInf, .posInf => true
  | .negInf, .negInf => true
  | _, _ => false

/-- Comparison `<`: false whenever NaN is involved. -/
def lt : Exact → Exact → Bool
  | .fin a b, .fin c d => decide (a * ((d : Int) + 1) < c * ((b : Int) + 1))
  | .negInf, .fin _ _ => true
  | .negInf, .posInf => true
  | .fin _ _, .posInf => true
  | _, _ => false

/-- Truncation to an integer. -/
def toInt : Exact → Int
  | .fin a b => Int.tdiv a ((b : Int) + 1)
  | _ => -9223372036854775808

/-- Rendering: integers in decimal, other fractions as `num/den`. -/
def format : Exact → String
  | .fin a 0 => toString a
  | .fin a (b + 1) => toString a ++ "/" ++ toString (b + 2)
  | .posInf => "+Inf"
  | .negInf => "-Inf"
  | .nan => "NaN"

/-- The number written by a non-empty list of decimal digits. -/
def digits (cs : List Char) : Option Nat :=
  if cs = [] then none
  else
    cs.foldl (fun acc c =>
      match acc with
      | some a => if 48 ≤ c.toNat ∧ c.toNat ≤ 57 then some (a * 10 + (c.toNat - 48)) else none
      | none => none) (some 0)

/-- An unsigned decimal literal `ddd` or `ddd.ddd`. -/
def unsigned (cs : List Char) : Option Exact :=
  let whole := cs.takeWhile (fun c => c != '.')
  match cs.dropWhile (fun c => c != '.') with
  | [] => (digits whole).map (fun (n : Nat) => .fin (n : Int) 0)
  | _ :: fraction =>
    match digits whole, digits fraction with
    | some n, some m =>
      some (mk ((n * 10 ^ fraction.length + m : Nat) : Int) (10 ^ fraction.length))
    | _, _ => none

/-- The special literals of `strconv.ParseFloat`, read without regard to case: `nan`,
and `inf` or `infinity` with an optional sign. -/
def special (s : String) : Option Exact :=
  let cs := s.toList.map Char.toLower
  if cs = "nan".toList then some .nan
  else if cs = "inf".toList ∨ cs = "+inf".toList ∨ cs = "infinity".toList
      ∨ cs = "+infinity".toList then some .posInf
  else if cs = "-inf".toList ∨ cs = "-infinity".toList then some .negInf
  else none

/-- A special literal, or a decimal literal with an optional sign; anything else is
rejected. -/
def parse (s : String) : Option Exact :=
  match special s with
  | some x => some x
  | none =>
    match s.toList with
    | '-' :: cs => (unsigned cs).map neg
    | '+' :: cs => unsigned cs
    | cs => unsigned cs

end Exact

instance : GoFloat64 Exact where
  zero := .fin 0 0
  add := Exact.add
  sub := fun x y => Exact.add x (Exact.neg y)
  mul := Exact.mul
  div := Exact.div
  eq := Exact.eq
  lt := Exact.lt
  ofInt := fun n => .fin n 0
  toInt := Exact.toInt
  ParseFloat := Exact.parse
  format := Exact.format
  lt_irrefl := by
    intro x
    cases x <;> simp [Exact.lt]
  lt_trans := by
    intro x y z hxy hyz
    cases x <;> cases y <;> cases z <;> simp_all [Exact.lt]
    rename_i a b c d e f
    have hb : (0 : Int) < (b : Int) + 1 := by omega
    have hd : (0 : Int) < (d : Int) + 1 := by omega
    have hf : (0 : Int) < (f : Int) + 1 := by omega
    have h1 : a * ((d : Int) + 1) * ((f : Int) + 1) < c * ((b : Int) + 1) * ((f : Int) + 1) :=
      mul_lt_mul_of_pos_right hxy hf
    have h2 : c * ((f : Int) + 1) * ((b : Int) + 1) < e * ((d : Int) + 1) * ((b : Int) + 1) :=
      mul_lt_mul_of_pos_right hyz hb
    have h3 : a * ((f : Int) + 1) * ((d : Int) + 1) < e * ((b : Int) + 1) * ((d : Int) + 1) := by
      nlinarith [h1, h2]
    exact lt_of_mul_lt_mul_right h3 (le_of_lt hd)

/-! ## Sample inputs -/

/-- A workbook whose only sheet, `Sheet1`, has the given raw rows and reported
dimension. -/
def sampleFile (rows : List (List String)) (dimension : String) : excelize.File where
  GetRows := fun sheet => if sheet = "Sheet1" then .ok rows else .error "sheet does not exist"
  GetSheetDimension := fun _ => dimension

/-- A disk holding that workbook as `book.xlsx` and nothing else. -/
def sampleDisk (rows : List (List String)) (dimension : String) : Disk :=
  fun path => if path = "book.xlsx" then .ok (sampleFile rows dimension) else .error "no such file"

/-- The request of the row-wise scenarios: the given source columns and operation on
`Sheet1`, written to `targetColumn`, from 0-based `startRow` to the last row. -/
def sampleRowRequest (sourceColumns : List String) (targetColumn operation : String)
    (startRow : Int) : models.RowCalculationRequest where
  FileID := 1
  SheetName := "Sheet1"
  SourceColumns := sourceColumns
  TargetColumn := targetColumn
  Operation := operation
  StartRow := startRow
  EndRow := none

/-- The sheet of the end-to-end row-wise scenario: ten empty rows, then rows 10-12
with I = 1, 2, 3 and K = 4, 5, 6. -/
def scenarioRows : List (List String) :=
  List.replicate 10 [] ++
    [["", "", "", "", "", "", "", "", "1", "", "4"],
     ["", "", "", "", "", "", "", "", "2", "", "5"],
     ["", "", "", "", "", "", "", "", "3", "", "6"]]

/-- An aggregation request on `Sheet1`. -/
def sampleRequest (mainColumn : String) (targetColumns : List String) (operation : String)
    (startRow : Option Int) : models.CalculationRequest where
  FileID := 1
  SheetName := "Sheet1"
  MainColumn := mainColumn
  TargetColumns := targetColumns
  Operation := operation
  StartRow := startRow

/-- The sheet of the end-to-end aggregation scenario: Region in column A, Sales in
column B. -/
def salesRows : List (List String) := [["N", "10"], ["N", "20"], ["S", "5"]]

/-- A one-column sheet whose numeric cells are all negative; one cell is text and
one is blank. -/
def negativeRows : List (List String) := [["-3"], ["-1"], ["x"], [""], ["-2"]]

/-- The file record of `book.xlsx`. -/
def sampleExcelFile : models.ExcelFile where
  ID := 1
  FileName := "book.xlsx"
  FilePath := "book.xlsx"

/-- A workbook in memory for the merge scenarios: the content of each written cell,
keyed by sheet and cell address. -/
abbrev SampleBook : Type := List ((String × String) × String)

/-- How the scenarios record a written value. -/
def renderJson : Json Exact → String
  | .num x => Exact.format x
  | .str s => s
  | .bool b => toString b
  | .null => ""
  | .arr _ => "array"
  | .obj _ => "object"

/-- The content of a cell of a `SampleBook`. -/
def readCell (w : SampleBook) (sheet cell : String) : Option String :=
  (w.find? (fun e => decide (e.1 = (sheet, cell)))).map (fun e => e.2)

/-- The template of the merge scenarios: a header above, a label beside and a total
below the cells L11..L13. -/
def templateBook : SampleBook :=
  [(("Sheet1", "L10"), "Income"), (("Sheet1", "K11"), "unit"), (("Sheet1", "L14"), "total")]

/-- A runtime for the merge scenarios: `template.xlsx` holds `templateBook`, a write
succeeds on `Sheet1` and fails on any other sheet, directories and saves
succeed. -/
def sampleRuntime : Runtime Exact SampleBook where
  OpenFile := fun path =>
    if path = "template.xlsx" then .ok templateBook else .error "no such file"
  GetSheetList := fun _ => ["Sheet1"]
  SetCellValue := fun w sheet cell value =>
    if sheet = "Sheet1" then
      .ok (((sheet, cell), renderJson value) :: w.filter (fun e => decide (e.1 ≠ (sheet, cell))))
    else .error "sheet does not exist"
  MkdirAll := fun _ => .ok ()
  SaveAs := fun _ _ => .ok ()
  Unix := 1700000000

/-- The payload of the single-target merge scenario: values 7, 9, 11 for column L
from row 11 of `Sheet1`. -/
def singleMergeData : GoMap (Json Exact) :=
  [("targetColumn", .str "L"), ("startRow", .num (.fin 11 0)), ("templateSheet", .str "Sheet1"),
   ("calculatedData", .arr [.obj [("value", .num (.fin 7 0))], .obj [("value", .num (.fin 9 0))],
      .obj [("value", .num (.fin 11 0))]])]

/-- The payload of the multi-target scenario: column L of `Sheet1` receives 7 at row
11, and a second entry that carries the value 9 but no `targetRow`. -/
def multiMergeData : GoMap (Json Exact) :=
  [("templateSheet", .str "Sheet1"),
   ("mergeData", .arr [.obj [("targetColumn", .str "L"),
      ("calculatedData", .arr [.obj [("value", .num (.fin 7 0)), ("targetRow", .num (.fin 11 0))],
        .obj [("value", .num (.fin 9 0))]])]])]

/-- A runtime like `sampleRuntime` whose cell L12 of `Sheet1` cannot be written. -/
def lockedRuntime : Runtime Exact SampleBook where
  OpenFile := sampleRuntime.OpenFile
  GetSheetList := sampleRuntime.GetSheetList
  SetCellValue := fun w sheet cell value =>
    if cell = "L12" then .error "cell is locked" else sampleRuntime.SetCellValue w sheet cell value
  MkdirAll := sampleRuntime.MkdirAll
  SaveAs := sampleRuntime.SaveAs
  Unix := sampleRuntime.Unix

/-- A multi-target payload with explicit addressing: column L of `Sheet1` receives 7
at row 11, 9 at row 12 and 11 at row 13; column M receives 5 at row 20. -/
def explicitMergeData : GoMap (Json Exact) :=
  [("templateSheet", .str "Sheet1"),
   ("mergeData", .arr [
      .obj [("targetColumn", .str "L"),
        ("calculatedData", .arr [
          .obj [("value", .num (.fin 7 0)), ("targetRow", .num (.fin 11 0))],
          .obj [("value", .num (.fin 9 0)), ("targetRow", .num (.fin 12 0))],
          .obj [("value", .num (.fin 11 0)), ("targetRow", .num (.fin 13 0))]])],
      .obj [("targetColumn", .str "M"),
        ("calculatedData", .arr [
          .obj [("value", .num (.fin 5 0)), ("targetRow", .num (.fin 20 0))]])]])]

/-- A multi-target payload whose one target uses implicit addressing: a start row
and values 7, 9 that carry no `targetRow`. -/
def implicitMultiData : GoMap (Json Exact) :=
  [("templateSheet", .str "Sheet1"),
   ("mergeData", .arr [
      .obj [("targetColumn", .str "L"), ("startRow", .num (.fin 11 0)),
        ("calculatedData", .arr [
          .obj [("value", .num (.fin 7 0))],
          .obj [("value", .num (.fin 9 0))]])]])]

/-- The result of the row-wise addition of columns A and B into C on the one-row
sheet A = 1, B = 2. -/
def sampleAddResult : models.RowCalculationResult Exact where
  SourceColumns := ["A", "B"]
  TargetColumn := "C"
  Operation := "add"
  StartRow := 1
  EndRow := 1
  Results := [[("row_number", .int 1), ("calculated_value", .float (.fin 3 0)),
    ("C", .float (.fin 3 0)), ("A", .float (.fin 1 0)), ("B", .float (.fin 2 0))]]
  TotalRows := 1
  Formula := "A + B"

/-- The result of copying column A into C on the one-row sheet A = abc, B = 7. -/
def sampleCopyResult : models.RowCalculationResult Exact where
  SourceColumns := ["A"]
  TargetColumn := "C"
  Operation := "copy"
  StartRow := 1
  EndRow := 1
  Results := [[("row_number", .int 1), ("calculated_value", .str "abc"),
    ("C", .str "abc"), ("A", .str "abc")]]
  TotalRows := 1
  Formula := "Copy from A"

/-! ## Specification-side definitions -/

namespace ExcelService

variable {F : Type} [GoFloat64 F]

/-- What a source column contributes to a row according to the specification: the
number parsed from its cell, and 0 when the cell is absent, blank or not numeric. -/
def contribution (row : List String) (colName : String) : F :=
  match columnIndex colName with
  | none => GoFloat64.zero
  | some idx =>
    match row[idx]? with
    | none => GoFloat64.zero
    | some s =>
      if s = "" then GoFloat64.zero
      else
        match (parseNumberWithCommas s : Option F) with
        | some x => x
        | none => GoFloat64.zero

/-- The numeric values of a column over a list of materialized rows, in row order:
cells that hold text or are Empty are passed over. -/
def numericValues (col : String) (rows : List (Row F)) : List F :=
  rows.filterMap (fun row =>
    match row.get col with
    | some (.float x) => some x
    | _ => none)

/-- The rows of a materialized sheet whose group-by cell renders as `key`. -/
def groupRowsOf (mainColumn key : String) (data : List (Row F)) : List (Row F) :=
  data.filter (fun row => decide ((row.get mainColumn).map Value.sprintV = some key))

/-- The value carried by an entry of `calculatedData`: the `value` field of an
object, nothing for any other entry. -/
def entryValue : Json F → Option (Json F)
  | .obj fields => GoMap.get fields "value"
  | _ => none

/-- The cell writes of a single-target merge according to the specification: the
entry at sequence index `i`, when it carries a value, goes to cell
`<targetColumn><startRow + i>` of the template sheet. -/
def singleTargetWrites (templateSheet targetColumn : String) (startRow : Int) :
    List (Json F) → Nat → List (String × String × Json F)
  | [], _ => []
  | e :: rest, i =>
    match entryValue e with
    | some v =>
      (templateSheet, targetColumn ++ toString (startRow + (i : Int)), v)
        :: singleTargetWrites templateSheet targetColumn startRow rest (i + 1)
    | none => singleTargetWrites templateSheet targetColumn startRow rest (i + 1)

/-- The workbook after a list of cell writes, or the error of the first write that
fails. -/
def applyWrites {W : Type} (rt : Runtime F W) : W → List (String × String × Json F) → Except String W
  | w, [] => .ok w
  | w, (sheet, cell, v) :: rest =>
    match rt.SetCellValue w sheet cell v with
    | .ok w2 => applyWrites rt w2 rest
    | .error e => .error e

/-- The call that performs a cell write. -/
def writeCall {W : Type} (x : String × String × Json F) : Call F W :=
  .SetCellValue x.1 x.2.1 x.2.2

/-- The destination row carried by an entry of `calculatedData`: the `targetRow`
field of an object when it is a number. -/
def entryTargetRow : Json F → Option F
  | .obj fields =>
    match GoMap.get fields "targetRow" with
    | some (.num x) => some x
    | _ => none
  | _ => none

/-- An entry that carries a value but lacks its destination row. -/
def lacksTargetRow (e : Json F) : Bool :=
  (entryValue e).isSome && (entryTargetRow e).isNone

/-- A merge target: an object with a string `targetColumn` and an array
`calculatedData`; its column and its entries. -/
def targetOf : Json F → Option (String × List (Json F))
  | .obj columnMap =>
    match GoMap.get columnMap "targetColumn" with
    | some (.str targetColumn) =>
      match GoMap.get columnMap "calculatedData" with
      | some (.arr calculatedData) => some (targetColumn, calculatedData)
      | _ => none
    | _ => none
  | _ => none

/-- The group keys in the order in which the loop `for groupKey, groupData := range
groups` of `CalculateColumns` visits them. -/
def groupOrder (visit : List (String × List (Row F)) → List (String × List (Row F)))
    (data : List (Row F)) (mainColumn : String) : List String :=
  (visit (data.foldl (groupStep mainColumn) GoMap.empty).entries).map Prod.fst

/-- The writes an explicitly addressed target asks for, in entry order: each entry
that carries a value and a destination row sends the value to cell
`<targetColumn><targetRow>` of the template sheet. -/
def explicitWrites (templateSheet targetColumn : String) :
    List (Json F) → List (String × String × Json F)
  | [] => []
  | e :: rest =>
    match entryValue e, entryTargetRow e with
    | some v, some targetRow =>
      (templateSheet, targetColumn ++ toString (GoFloat64.toInt targetRow), v)
        :: explicitWrites templateSheet targetColumn rest
    | _, _ => explicitWrites templateSheet targetColumn rest

/-- The writes a list of merge targets asks for, target after target. -/
def multiTargetWrites (templateSheet : String) :
    List (Json F) → List (String × String × Json F)
  | [] => []
  | t :: rest =>
    match targetOf t with
    | some target =>
      explicitWrites templateSheet target.1 target.2 ++ multiTargetWrites templateSheet rest
    | none => multiTargetWrites templateSheet rest

/-- The writes an export asks for, entry after entry: the `calculated_value` of an
entry goes to cell `<targetColumn><row_number>` of the sheet. -/
def exportWrites (sheetName targetColumn : String) :
    List (Row F) → List (String × String × Json F)
  | [] => []
  | e :: rest =>
    match e.get "row_number", e.get "calculated_value" with
    | some (.float rowNumber), some (.float calculatedValue) =>
      (sheetName, targetColumn ++ toString (GoFloat64.toInt rowNumber), .num calculatedValue)
        :: exportWrites sheetName targetColumn rest
    | _, _ => exportWrites sheetName targetColumn rest

end ExcelService

/-! ## Association lists -/

namespace GoMap

variable {V : Type}

theorem get_set_self (m : GoMap V) (k : String) (v : V) : (m.set k v).get k = some v := by
  induction m with
  | nil => simp [set, get]
  | cons p rest ih =>
    obtain ⟨k1, v1⟩ := p
    by_cases h : k1 = k
    · simp [set, get, h]
    · simp [set, get, h, ih]

theorem get_set_other (m : GoMap V) (k k2 : String) (v : V) (hne : k2 ≠ k) :
    (m.set k v).get k2 = m.get k2 := by
  induction m with
  | nil =>
    have : ¬ k = k2 := fun h => hne h.symm
    simp [set, get, this]
  | cons p rest ih =>
    obtain ⟨k1, v1⟩ := p
    by_cases h : k1 = k
    · have : ¬ k = k2 := fun h2 => hne h2.symm
      have h3 : ¬ k1 = k2 := by rw [h]; exact this
      simp [set, get, h, this, h3]
    · by_cases h2 : k1 = k2
      · subst h2
        simp [set, get, h]
      · simp [set, get, h, h2, ih]

theorem get_none_of_not_mem (m : GoMap V) (k : String) (h : k ∉ m.keys) : m.get k = none := by
  induction m with
  | nil => rfl
  | cons p rest ih =>
    obtain ⟨k1, v1⟩ := p
    simp only [keys, List.map_cons, List.mem_cons, not_or] at h
    have h1 : ¬ k1 = k := fun e => h.1 e.symm
    simp only [get, h1, if_false]
    exact ih h.2

theorem mem_keys_of_get (m : GoMap V) (k : String) (v : V) (h : m.get k = some v) :
    k ∈ m.keys := by
  by_contra hk
  rw [get_none_of_not_mem m k hk] at h
  cases h

theorem keys_set_new (m : GoMap V) (k : String) (v : V) (h : k ∉ m.keys) :
    (m.set k v).keys = m.keys ++ [k] := by
  induction m with
  | nil => rfl
  | cons p rest ih =>
    obtain ⟨k1, v1⟩ := p
    simp only [keys, List.map_cons, List.mem_cons, not_or] at h
    have h1 : ¬ k1 = k := fun e => h.1 e.symm
    simp only [set, h1, if_false, keys, List.map_cons, List.cons_append]
    congr 1
    exact ih h.2

theorem keys_set_old (m : GoMap V) (k : String) (v : V) (h : k ∈ m.keys) :
    (m.set k v).keys = m.keys := by
  induction m with
  | nil => cases h
  | cons p rest ih =>
    obtain ⟨k1, v1⟩ := p
    by_cases h1 : k1 = k
    · simp [set, keys, h1]
    · simp only [keys, List.map_cons, List.mem_cons] at h
      have h2 : k ∈ keys rest := by
        rcases h with h | h
        · exact absurd h.symm h1
        · exact h
      simp only [set, h1, if_false, keys, List.map_cons]
      congr 1
      exact ih h2

theorem mem_keys_set (m : GoMap V) (k k2 : String) (v : V) :
    k2 ∈ (m.set k v).keys ↔ k2 = k ∨ k2 ∈ m.keys := by
  by_cases h : k ∈ m.keys
  · rw [keys_set_old m k v h]
    constructor
    · exact fun h2 => Or.inr h2
    · rintro (h2 | h2)
      · rw [h2]; exact h
      · exact h2
  · rw [keys_set_new m k v h]
    simp only [List.mem_append, List.mem_singleton]
    tauto

theorem nodup_keys_set (m : GoMap V) (k : String) (v : V) (h : m.keys.Nodup) :
    (m.set k v).keys.Nodup := by
  by_cases hk : k ∈ m.keys
  · rw [keys_set_old m k v hk]; exact h
  · rw [keys_set_new m k v hk]
    exact List.Nodup.append h (List.nodup_singleton k) (by
      intro a ha hb
      rw [List.mem_singleton] at hb
      exact hk (hb ▸ ha))

theorem get_of_mem (m : GoMap V) (h : m.keys.Nodup) (k : String) (v : V)
    (hm : (k, v) ∈ m.entries) : m.get k = some v := by
  induction m with
  | nil => cases hm
  | cons p rest ih =>
    obtain ⟨k1, v1⟩ := p
    simp only [keys, List.map_cons, List.nodup_cons] at h
    simp only [entries, List.mem_cons] at hm
    rcases hm with hm | hm
    · cases hm
      simp [get]
    · have hk : k ∈ keys rest := List.mem_map.mpr ⟨(k, v), hm, rfl⟩
      have h1 : ¬ k1 = k := fun e => h.1 (e ▸ hk)
      simp only [get, h1, if_false]
      exact ih h.2 hm

theorem mem_of_get (m : GoMap V) (k : String) (v : V) (h : m.get k = some v) :
    (k, v) ∈ m.entries := by
  induction m with
  | nil => cases h
  | cons p rest ih =>
    obtain ⟨k1, v1⟩ := p
    by_cases h1 : k1 = k
    · simp only [get, h1, if_true, Option.some.injEq] at h
      simp [entries, h1, h]
    · simp only [get, h1, if_false] at h
      exact List.mem_cons_of_mem _ (ih h)

end GoMap

/-! ## Column names -/

namespace ExcelService

open excelize models

variable {F : Type} [GoFloat64 F]

theorem letterValue_upper :
    ∀ k, k < 26 → letterValue (Char.ofNat (k + 65)) = some (k + 1) := by
  decide

theorem columnLetters_foldl (fuel : Nat) :
    ∀ n, n ≤ fuel → (columnLetters fuel n).foldl nameStep (some 0) = some n := by
  induction fuel with
  | zero =>
    intro n h
    have h0 : n = 0 := by omega
    subst h0
    rfl
  | succ fuel ih =>
    intro n h
    unfold columnLetters
    by_cases h0 : n = 0
    · simp [h0]
    · simp only [h0, if_false, List.foldl_append, List.foldl_cons, List.foldl_nil]
      rw [ih ((n - 1) / 26) (by omega)]
      have hk : (n - 1) % 26 < 26 := Nat.mod_lt _ (by decide)
      simp only [nameStep, letterValue_upper _ hk]
      congr 1
      omega

theorem columnLetters_ne_nil (fuel n : Nat) (hn : 0 < n) (hf : 0 < fuel) :
    columnLetters fuel n ≠ [] := by
  cases fuel with
  | zero => omega
  | succ fuel =>
    unfold columnLetters
    have h0 : n ≠ 0 := by omega
    simp [h0]

/-- Number to letters to number is the identity on `1 .. MaxColumns`. -/
theorem name_of_number (n : Nat) (h1 : 1 ≤ n) (h2 : n ≤ MaxColumns) :
    ∃ name, ColumnNumberToName (n : Int) = some name ∧ ColumnNameToNumber name = some n := by
  refine ⟨String.mk (columnLetters n n), ?_, ?_⟩
  · unfold ColumnNumberToName
    have hr : ¬ ((n : Int) < 1 ∨ (n : Int) > (MaxColumns : Int)) := by omega
    rw [if_neg hr]
    simp
  · unfold ColumnNameToNumber
    have hne : columnLetters n n ≠ [] := columnLetters_ne_nil n n (by omega) (by omega)
    have hto : (String.mk (columnLetters n n)).toList = columnLetters n n := rfl
    rw [hto]
    simp only [hne, if_false, columnLetters_foldl n n (le_refl n)]
    have hr : ¬ n > MaxColumns := by omega
    simp [hr]

theorem ColumnNameToNumber_le (name : String) (n : Nat)
    (h : ColumnNameToNumber name = some n) : n ≤ MaxColumns := by
  unfold ColumnNameToNumber at h
  split at h
  · cases h
  · split at h
    · split at h
      · cases h
      · cases h
        omega
    · cases h

theorem columnNames_length (m : Nat) : (columnNames m).length = m := by
  simp [columnNames]

theorem columnNames_get (m i : Nat) (colName : String)
    (h : (columnNames m)[i]? = some colName) :
    i < m ∧ colName = (ColumnNumberToName ((i : Int) + 1)).getD "" := by
  unfold columnNames at h
  rw [List.getElem?_map] at h
  cases hr : (List.range m)[i]? with
  | none => rw [hr] at h; cases h
  | some k =>
    rw [hr] at h
    have hlt : i < (List.range m).length := by
      by_contra hge
      rw [List.getElem?_eq_none (by omega)] at hr
      cases hr
    rw [List.getElem?_eq_getElem hlt, List.getElem_range] at hr
    cases hr
    simp only [Option.map_some', Option.some.injEq] at h
    rw [List.length_range] at hlt
    exact ⟨hlt, h.symm⟩

/-- The column at 0-based position `i` of a generated column list converts back to
position `i`. -/
theorem columnIndex_columnNames (m i : Nat) (colName : String) (hm : m ≤ MaxColumns)
    (h : (columnNames m)[i]? = some colName) : columnIndex colName = some i := by
  obtain ⟨hi, hc⟩ := columnNames_get m i colName h
  obtain ⟨name, h1, h2⟩ := name_of_number (i + 1) (by omega) (by omega)
  have hcast : ((i + 1 : Nat) : Int) = (i : Int) + 1 := by push_cast; rfl
  rw [hcast] at h1
  rw [h1] at hc
  simp only [Option.getD_some] at hc
  subst hc
  simp [columnIndex, h2]

theorem getAllExcelColumns_eq (f : File) (sheetName : String) :
    ∃ m, 1 ≤ m ∧ m ≤ MaxColumns ∧ getAllExcelColumns f sheetName = columnNames m := by
  unfold getAllExcelColumns
  simp only [columnNames_length]
  cases hc : ColumnNameToNumber (f.GetSheetDimension sheetName) with
  | none =>
    refine ⟨52, by decide, by decide, ?_⟩
    simp
  | some n =>
    have hle := ColumnNameToNumber_le _ n hc
    by_cases h0 : n = 0
    · refine ⟨52, by decide, by decide, ?_⟩
      simp [h0]
    · refine ⟨n, by omega, hle, ?_⟩
      simp [h0]

theorem getAllExcelColumns_index (f : File) (sheetName : String) (i : Nat) (colName : String)
    (h : (getAllExcelColumns f sheetName)[i]? = some colName) : columnIndex colName = some i := by
  obtain ⟨m, _, hm, he⟩ := getAllExcelColumns_eq f sheetName
  rw [he] at h
  exact columnIndex_columnNames m i colName hm h

theorem getAllExcelColumns_nodup (f : File) (sheetName : String) :
    (getAllExcelColumns f sheetName).Nodup := by
  rw [List.nodup_iff_getElem?_ne_getElem?]
  intro i j hij hj heq
  have hi : i < (getAllExcelColumns f sheetName).length := by omega
  have h1 := getAllExcelColumns_index f sheetName i _ (List.getElem?_eq_getElem hi)
  have h2 := getAllExcelColumns_index f sheetName j _ (List.getElem?_eq_getElem hj)
  rw [List.getElem?_eq_getElem hi, List.getElem?_eq_getElem hj] at heq
  simp only [Option.some.injEq] at heq
  rw [heq, h2] at h1
  simp only [Option.some.injEq] at h1
  omega

/-- C8: column letters and numbers are exact inverses on columns 1..702: for every
n in [1, 702] the letter code of n converts back to n (A=1, Z=26, AA=27, ZZ=702), so
converting that number to letters again gives the same letter code; consequently
the 0-based index that `CalculateRowWise` computes for a column identifier of the
column set built by `getAllExcelColumns` is the position of that identifier in the
set. -/
theorem column_letters_round_trip (n : Nat) (h1 : 1 ≤ n) (h2 : n ≤ 702) :
    (∃ name, ColumnNumberToName (n : Int) = some name ∧ ColumnNameToNumber name = some n
      ∧ (ColumnNameToNumber name).bind (fun (m : Nat) => ColumnNumberToName (m : Int)) = some name)
    ∧ (ColumnNumberToName 1 = some "A" ∧ ColumnNumberToName 26 = some "Z"
      ∧ ColumnNumberToName 27 = some "AA" ∧ ColumnNumberToName 702 = some "ZZ")
    ∧ (ColumnNameToNumber "A" = some 1 ∧ ColumnNameToNumber "Z" = some 26
      ∧ ColumnNameToNumber "AA" = some 27 ∧ ColumnNameToNumber "ZZ" = some 702)
    ∧ ∀ (f : File) (sheetName : String) (i : Nat) (colName : String),
        (getAllExcelColumns f sheetName)[i]? = some colName → columnIndex colName = some i := by
  refine ⟨?_, by decide, by decide, ?_⟩
  · have hmax : n ≤ MaxColumns := by
      have : (702 : Nat) ≤ MaxColumns := by decide
      omega
    obtain ⟨name, hn, hb⟩ := name_of_number n h1 hmax
    exact ⟨name, hn, hb, by rw [hb]; exact hn⟩
  · intro f sheetName i colName h
    exact getAllExcelColumns_index f sheetName i colName h

theorem column_letters_round_trip_witness :
    1 ≤ 28 ∧ 28 ≤ 702 ∧ ColumnNumberToName 28 = some "AB" ∧ ColumnNameToNumber "AB" = some 28
      ∧ columnIndex "C" = some 2 := by
  obtain ⟨⟨name, hn, hb, _⟩, _, _, hidx⟩ := column_letters_round_trip 28 (by decide) (by decide)
  have hname : name = "AB" := by
    have h28 : ColumnNumberToName ((28 : Nat) : Int) = some "AB" := by decide
    rw [h28] at hn
    exact (Option.some.inj hn).symm
  subst hname
  exact ⟨by decide, by decide, hn, hb,
    hidx (sampleFile [] "E") "Sheet1" 2 "C" (by decide)⟩

/-! ## Reading a sheet -/

theorem fillRow_spec (row : List String) :
    ∀ (cols : List String) (j : Nat) (m : Row F), cols.Nodup → (∀ c ∈ cols, c ∉ m.keys) →
      (fillRow row cols j m).keys = m.keys ++ cols
      ∧ (∀ i c, cols[i]? = some c → (fillRow row cols j m).get c = some (cellValue row (j + i)))
      ∧ (∀ c, c ∉ cols → (fillRow row cols j m).get c = m.get c) := by
  intro cols
  induction cols with
  | nil =>
    intro j m _ _
    refine ⟨by simp [fillRow], ?_, fun c _ => rfl⟩
    intro i c h
    simp at h
  | cons c0 rest ih =>
    intro j m hnd hfresh
    rw [List.nodup_cons] at hnd
    have hc0 : c0 ∉ m.keys := hfresh c0 (List.mem_cons_self _ _)
    have hfresh2 : ∀ c ∈ rest, c ∉ (m.set c0 (cellValue row j)).keys := by
      intro c hc hmem
      rw [GoMap.mem_keys_set] at hmem
      rcases hmem with hmem | hmem
      · exact hnd.1 (hmem ▸ hc)
      · exact hfresh c (List.mem_cons_of_mem _ hc) hmem
    obtain ⟨hk, hg, ho⟩ := ih (j + 1) (m.set c0 (cellValue row j)) hnd.2 hfresh2
    simp only [fillRow]
    refine ⟨?_, ?_, ?_⟩
    · rw [hk, GoMap.keys_set_new m c0 _ hc0]
      simp
    · intro i c h
      cases i with
      | zero =>
        simp only [List.getElem?_cons_zero, Option.some.injEq] at h
        subst h
        rw [ho c0 hnd.1, GoMap.get_set_self]
        rfl
      | succ i =>
        simp only [List.getElem?_cons_succ] at h
        rw [hg i c h]
        congr 2
        omega
    · intro c hc
      simp only [List.mem_cons, not_or] at hc
      rw [ho c hc.2, GoMap.get_set_other m c0 c _ hc.1]

theorem GetSheetData_ok (disk : Disk) (filePath sheetName : String) (f : File)
    (rows : List (List String)) (hopen : disk filePath = .ok f)
    (hrows : f.GetRows sheetName = .ok rows) :
    (GetSheetData disk filePath sheetName : Except String (List (Row F)))
      = .ok (rows.map (fun row => fillRow row (getAllExcelColumns f sheetName) 0 GoMap.empty)) := by
  unfold GetSheetData
  simp only [hopen, hrows]
  by_cases h0 : rows.length = 0
  · have hnil : rows = [] := List.length_eq_zero.mp h0
    subst hnil
    simp
  · simp [h0]

/-- What `GetSheetData` returns for each physical row: the keys are the column set,
in order, and the column at position `j` holds `cellValue row j`. -/
theorem GetSheetData_row (disk : Disk) (filePath sheetName : String) (f : File)
    (rows : List (List String)) (hopen : disk filePath = .ok f)
    (hrows : f.GetRows sheetName = .ok rows) :
    ∃ data : List (Row F), GetSheetData disk filePath sheetName = .ok data
      ∧ data.length = rows.length
      ∧ ∀ (i : Nat) (row : List String), rows[i]? = some row →
          ∃ r, data[i]? = some r ∧ r.keys = getAllExcelColumns f sheetName
            ∧ ∀ j colName, (getAllExcelColumns f sheetName)[j]? = some colName →
                r.get colName = some (cellValue row j) := by
  refine ⟨_, GetSheetData_ok disk filePath sheetName f rows hopen hrows, by simp, ?_⟩
  intro i row hrow
  refine ⟨fillRow row (getAllExcelColumns f sheetName) 0 GoMap.empty, ?_, ?_, ?_⟩
  · rw [List.getElem?_map, hrow]
    rfl
  · have h := (fillRow_spec (F := F) row (getAllExcelColumns f sheetName) 0 GoMap.empty
      (getAllExcelColumns_nodup f sheetName) (by intro c _ hc; cases hc)).1
    rw [h]
    rfl
  · intro j colName hcol
    have h := (fillRow_spec (F := F) row (getAllExcelColumns f sheetName) 0 GoMap.empty
      (getAllExcelColumns_nodup f sheetName) (by intro c _ hc; cases hc)).2.1 j colName hcol
    rw [h]
    congr 2
    omega

theorem cellValue_of_cell (row : List String) (j : Nat) (s : String) (hcell : row[j]? = some s) :
    (s = "" → (cellValue row j : Value F) = .str "")
    ∧ (∀ x : F, s ≠ "" →
        GoFloat64.ParseFloat (strings.TrimSpace (strings.ReplaceAllCommas s)) = some x →
        cellValue row j = Value.float x)
    ∧ (s ≠ "" →
        (GoFloat64.ParseFloat (strings.TrimSpace (strings.ReplaceAllCommas s)) : Option F) = none →
        (cellValue row j : Value F) = .str s) := by
  refine ⟨?_, ?_, ?_⟩
  · intro h
    simp [cellValue, hcell, h]
  · intro x h hp
    simp [cellValue, hcell, h, parseNumberWithCommas, hp]
  · intro h hp
    simp [cellValue, hcell, h, parseNumberWithCommas, hp]

theorem cellValue_absent (row : List String) (j : Nat) (h : row.length ≤ j ∨ row[j]? = some "") :
    (cellValue row j : Value F) = .str "" := by
  rcases h with h | h
  · simp [cellValue, List.getElem?_eq_none h]
  · simp [cellValue, h]

/-- C9: cell typing in `GetSheetData`, for every raw cell text s: an empty s gives
Empty (the empty string value); otherwise, when s with all commas removed and the
surrounding white space trimmed parses as a number, the cell is that number;
otherwise the cell is the text s unmodified.  In particular "1,234.5" is typed as
the number parsed from "1234.5", "" as Empty and "abc" as the text "abc". -/
theorem GetSheetData_cell_typing (disk : Disk) (filePath sheetName : String) (f : File)
    (rows : List (List String)) (hopen : disk filePath = .ok f)
    (hrows : f.GetRows sheetName = .ok rows) (i j : Nat) (row : List String)
    (colName s : String) (hrow : rows[i]? = some row)
    (hcol : (getAllExcelColumns f sheetName)[j]? = some colName) (hcell : row[j]? = some s) :
    (∃ (data : List (Row F)) (r : Row F),
        GetSheetData disk filePath sheetName = .ok data ∧ data[i]? = some r
        ∧ (s = "" → r.get colName = some (.str ""))
        ∧ (∀ x : F, s ≠ "" →
            GoFloat64.ParseFloat (strings.TrimSpace (strings.ReplaceAllCommas s)) = some x →
            r.get colName = some (.float x))
        ∧ (s ≠ "" →
            (GoFloat64.ParseFloat (strings.TrimSpace (strings.ReplaceAllCommas s)) : Option F)
              = none →
            r.get colName = some (.str s)))
    ∧ (∀ x : F, GoFloat64.ParseFloat "1234.5" = some x →
        cellValue ["1,234.5"] 0 = Value.float x)
    ∧ (cellValue [""] 0 : Value F) = .str ""
    ∧ ((GoFloat64.ParseFloat "abc" : Option F) = none →
        (cellValue ["abc"] 0 : Value F) = .str "abc") := by
  obtain ⟨data, hdata, _, hall⟩ := GetSheetData_row (F := F) disk filePath sheetName f rows hopen hrows
  obtain ⟨r, hr, _, hget⟩ := hall i row hrow
  have hv := hget j colName hcol
  obtain ⟨h1, h2, h3⟩ := cellValue_of_cell (F := F) row j s hcell
  refine ⟨⟨data, r, hdata, hr, ?_, ?_, ?_⟩, ?_, ?_, ?_⟩
  · intro h
    rw [hv, h1 h]
  · intro x h hp
    rw [hv, h2 x h hp]
  · intro h hp
    rw [hv, h3 h hp]
  · intro x hp
    have hclean : strings.TrimSpace (strings.ReplaceAllCommas "1,234.5") = "1234.5" := by decide
    have hne : ("1,234.5" : String) ≠ "" := by decide
    exact (cellValue_of_cell (F := F) ["1,234.5"] 0 "1,234.5" rfl).2.1 x hne (by rw [hclean]; exact hp)
  · exact (cellValue_of_cell (F := F) [""] 0 "" rfl).1 rfl
  · intro hp
    have hclean : strings.TrimSpace (strings.ReplaceAllCommas "abc") = "abc" := by decide
    have hne : ("abc" : String) ≠ "" := by decide
    exact (cellValue_of_cell (F := F) ["abc"] 0 "abc" rfl).2.2 hne (by rw [hclean]; exact hp)

theorem GetSheetData_cell_typing_witness :
    sampleDisk [["1,234.5", "", "abc"]] "C" "book.xlsx"
        = .ok (sampleFile [["1,234.5", "", "abc"]] "C")
    ∧ (sampleFile [["1,234.5", "", "abc"]] "C").GetRows "Sheet1" = .ok [["1,234.5", "", "abc"]]
    ∧ [["1,234.5", "", "abc"]][0]? = some ["1,234.5", "", "abc"]
    ∧ (getAllExcelColumns (sampleFile [["1,234.5", "", "abc"]] "C") "Sheet1")[0]? = some "A"
    ∧ ["1,234.5", "", "abc"][0]? = some "1,234.5"
    ∧ ∃ (data : List (Row Exact)) (r : Row Exact),
        GetSheetData (sampleDisk [["1,234.5", "", "abc"]] "C") "book.xlsx" "Sheet1" = .ok data
        ∧ data[0]? = some r ∧ r.get "A" = some (.float (.fin 2469 1)) := by
  refine ⟨rfl, rfl, rfl, by decide, rfl, ?_⟩
  obtain ⟨⟨data, r, hdata, hr, _, hnum, _⟩, _⟩ :=
    GetSheetData_cell_typing (F := Exact) (sampleDisk [["1,234.5", "", "abc"]] "C") "book.xlsx"
      "Sheet1" (sampleFile [["1,234.5", "", "abc"]] "C") [["1,234.5", "", "abc"]] rfl rfl 0 0
      ["1,234.5", "", "abc"] "A" "1,234.5" rfl (by decide) rfl
  exact ⟨data, r, hdata, hr, hnum (.fin 2469 1) (by decide) (by decide)⟩

/-- C10: `GetSheetData` returns exactly one materialized row per physical row, in
physical order with none skipped (entry i is built from physical row i), and every
materialized row has the same keys, namely the column set of the sheet, however
few cells the row physically contains; a column beyond the physical cells of the
row, or a blank cell, is Empty. -/
theorem GetSheetData_rows_and_columns (disk : Disk) (filePath sheetName : String) (f : File)
    (rows : List (List String)) (hopen : disk filePath = .ok f)
    (hrows : f.GetRows sheetName = .ok rows) :
    ∃ data : List (Row F), GetSheetData disk filePath sheetName = .ok data
      ∧ data.length = rows.length
      ∧ ∀ (i : Nat) (row : List String), rows[i]? = some row →
          ∃ r, data[i]? = some r ∧ r.keys = getAllExcelColumns f sheetName
            ∧ (∀ j colName, (getAllExcelColumns f sheetName)[j]? = some colName →
                r.get colName = some (cellValue row j))
            ∧ (∀ j colName, (getAllExcelColumns f sheetName)[j]? = some colName →
                (row.length ≤ j ∨ row[j]? = some "") → r.get colName = some (.str "")) := by
  obtain ⟨data, hdata, hlen, hall⟩ := GetSheetData_row (F := F) disk filePath sheetName f rows hopen hrows
  refine ⟨data, hdata, hlen, ?_⟩
  intro i row hrow
  obtain ⟨r, hr, hkeys, hget⟩ := hall i row hrow
  refine ⟨r, hr, hkeys, hget, ?_⟩
  intro j colName hcol habs
  rw [hget j colName hcol, cellValue_absent row j habs]

theorem GetSheetData_rows_and_columns_witness :
    sampleDisk [["a", "b", "c", "d", "e"], ["x", "7"]] "E" "book.xlsx"
        = .ok (sampleFile [["a", "b", "c", "d", "e"], ["x", "7"]] "E")
    ∧ (sampleFile [["a", "b", "c", "d", "e"], ["x", "7"]] "E").GetRows "Sheet1"
        = .ok [["a", "b", "c", "d", "e"], ["x", "7"]]
    ∧ ∃ (data : List (Row Exact)) (r : Row Exact),
        GetSheetData (sampleDisk [["a", "b", "c", "d", "e"], ["x", "7"]] "E") "book.xlsx" "Sheet1"
          = .ok data
        ∧ data.length = 2 ∧ data[1]? = some r ∧ r.keys = ["A", "B", "C", "D", "E"]
        ∧ r.get "A" = some (.str "x") ∧ r.get "B" = some (.float (.fin 7 0))
        ∧ r.get "C" = some (.str "") ∧ r.get "D" = some (.str "") ∧ r.get "E" = some (.str "") := by
  refine ⟨rfl, rfl, ?_⟩
  obtain ⟨data, hdata, hlen, hall⟩ :=
    GetSheetData_rows_and_columns (F := Exact)
      (sampleDisk [["a", "b", "c", "d", "e"], ["x", "7"]] "E") "book.xlsx" "Sheet1"
      (sampleFile [["a", "b", "c", "d", "e"], ["x", "7"]] "E")
      [["a", "b", "c", "d", "e"], ["x", "7"]] rfl rfl
  obtain ⟨r, hr, hkeys, hget, hempty⟩ := hall 1 ["x", "7"] rfl
  have hcols : getAllExcelColumns (sampleFile [["a", "b", "c", "d", "e"], ["x", "7"]] "E") "Sheet1"
      = ["A", "B", "C", "D", "E"] := by decide
  rw [hcols] at hkeys hget hempty
  refine ⟨data, r, hdata, hlen, hr, hkeys, ?_, ?_, ?_, ?_, ?_⟩
  · rw [hget 0 "A" rfl]; decide
  · rw [hget 1 "B" rfl]; decide
  · exact hempty 2 "C" rfl (Or.inl (by decide))
  · exact hempty 3 "D" rfl (Or.inl (by decide))
  · exact hempty 4 "E" rfl (Or.inl (by decide))

/-! ## Row-wise calculation -/

theorem contribution_eq_sourceValue (row : List String) (colName : String) (idx : Nat)
    (h : columnIndex colName = some idx) :
    (contribution row colName : F) = sourceValue row idx := by
  unfold contribution sourceValue
  simp only [h]
  cases hr : row[idx]? with
  | none => rfl
  | some s =>
    by_cases hs : s = ""
    · simp [hs]
    · simp [hs]

theorem foldl_valuesStep (row : List String) :
    ∀ (cols : List String) (acc : List F), (∀ c ∈ cols, columnIndex c ≠ none) →
      cols.foldl (valuesStep row) acc = acc ++ cols.map (contribution row) := by
  intro cols
  induction cols with
  | nil => intro acc _; simp
  | cons c rest ih =>
    intro acc hvalid
    have hc : columnIndex c ≠ none := hvalid c (List.mem_cons_self _ _)
    obtain ⟨idx, hidx⟩ := Option.ne_none_iff_exists'.mp hc
    simp only [List.foldl_cons, List.map_cons]
    rw [ih _ (fun c2 h2 => hvalid c2 (List.mem_cons_of_mem _ h2))]
    simp [valuesStep, hidx, contribution_eq_sourceValue row c idx hidx]

theorem echoSources_get_other :
    ∀ (cols : List String) (vals : List F) (m : Row F) (k : String), k ∉ cols →
      (echoSources cols vals m).get k = m.get k := by
  intro cols
  induction cols with
  | nil => intro vals m k _; simp [echoSources]
  | cons c rest ih =>
    intro vals m k hk
    simp only [List.mem_cons, not_or] at hk
    cases vals with
    | nil => simp [echoSources]
    | cons v vs =>
      simp only [echoSources]
      rw [ih vs _ k hk.2, GoMap.get_set_other _ _ _ _ hk.1]

theorem newRowResult_calculated (rowIndex : Nat) (targetColumn : String) (v : Value F) :
    (newRowResult rowIndex targetColumn v).get "calculated_value" = some v := by
  unfold newRowResult
  by_cases h : "calculated_value" = targetColumn
  · rw [← h, GoMap.get_set_self]
  · rw [GoMap.get_set_other _ _ _ _ h, GoMap.get_set_self]

theorem newRowResult_row_number (rowIndex : Nat) (targetColumn : String) (v : Value F)
    (h : targetColumn ≠ "row_number") :
    (newRowResult rowIndex targetColumn v).get "row_number"
      = some (.int ((rowIndex : Int) + 1)) := by
  unfold newRowResult
  rw [GoMap.get_set_other _ _ _ _ (Ne.symm h), GoMap.get_set_other _ _ _ _ (by decide),
    GoMap.get_set_self]

theorem reserved_not_source (cols : List String) (hvalid : ∀ c ∈ cols, columnIndex c ≠ none) :
    "row_number" ∉ cols ∧ "calculated_value" ∉ cols := by
  constructor
  · intro h
    exact hvalid _ h (by decide)
  · intro h
    exact hvalid _ h (by decide)

/-- The entry of a row for a numeric operation over valid source columns. -/
theorem numericRow_spec (req : RowCalculationRequest) (rowIndex : Nat) (row : List String)
    (hvalid : ∀ c ∈ req.SourceColumns, columnIndex c ≠ none) :
    (numericRow req rowIndex row : Row F).get "calculated_value"
        = some (.float (calculate req.Operation (req.SourceColumns.map (contribution row))))
    ∧ (req.TargetColumn ≠ "row_number" →
        (numericRow req rowIndex row : Row F).get "row_number"
          = some (.int ((rowIndex : Int) + 1))) := by
  obtain ⟨h1, h2⟩ := reserved_not_source req.SourceColumns hvalid
  unfold numericRow
  simp only []
  rw [foldl_valuesStep row req.SourceColumns [] hvalid]
  simp only [List.nil_append]
  constructor
  · rw [echoSources_get_other _ _ _ _ h2, newRowResult_calculated]
  · intro ht
    rw [echoSources_get_other _ _ _ _ h1, newRowResult_row_number _ _ _ ht]

theorem rowLoop_numeric (rows : List (List String)) (req : RowCalculationRequest)
    (hop : req.Operation ≠ "copy") :
    ∀ (indices : List Nat) (results : List (Row F)), (∀ i ∈ indices, i < rows.length) →
      rowLoop rows req indices results
        = results ++ indices.map (fun i => numericRow req i (rows.getD i [])) := by
  intro indices
  induction indices with
  | nil => intro results _; simp [rowLoop]
  | cons i rest ih =>
    intro results hall
    have hi : i < rows.length := hall i (List.mem_cons_self _ _)
    have hget : rows[i]? = some (rows.getD i []) := by
      rw [List.getElem?_eq_getElem hi, List.getD_eq_getElem _ _ hi]
    simp only [rowLoop, hget, hop, if_false, List.map_cons]
    rw [ih _ (fun j hj => hall j (List.mem_cons_of_mem _ hj))]
    simp

theorem resolveEndRow_bounds (rowCount : Nat) (req : RowCalculationRequest)
    (h1 : req.StartRow < (rowCount : Int)) :
    req.StartRow ≤ resolveEndRow rowCount req ∧ resolveEndRow rowCount req < (rowCount : Int) := by
  unfold resolveEndRow
  simp only []
  split
  · omega
  · omega

theorem buildFormula_some (operation : String) (first : String) (rest : List String) :
    ∃ formula, buildFormula operation (first :: rest) = some formula := by
  unfold buildFormula
  simp only []
  split
  · exact ⟨_, rfl⟩
  · split
    · exact ⟨_, rfl⟩
    · exact ⟨_, rfl⟩

/-- The result of a numeric row-wise call on a readable sheet with a valid start row
and valid, non-empty source columns: one entry per row of the resolved range. -/
theorem CalculateRowWise_numeric (disk : Disk) (filePath : String) (req : RowCalculationRequest)
    (f : File) (rows : List (List String)) (hopen : disk filePath = .ok f)
    (hrows : f.GetRows req.SheetName = .ok rows)
    (h0 : 0 ≤ req.StartRow) (h1 : req.StartRow < (rows.length : Int))
    (hop : req.Operation ≠ "copy") (hsrc : req.SourceColumns ≠ [])
    (hvalid : ∀ c ∈ req.SourceColumns, columnIndex c ≠ none) :
    ∃ res : RowCalculationResult F, CalculateRowWise disk filePath req = .ok res
      ∧ (res.Results.length : Int) = resolveEndRow rows.length req - req.StartRow + 1
      ∧ ∀ (k : Nat) (row : List String),
          req.StartRow + (k : Int) ≤ resolveEndRow rows.length req →
          rows[req.StartRow.toNat + k]? = some row →
          ∃ entry, res.Results[k]? = some entry
            ∧ entry.get "calculated_value"
                = some (.float (calculate req.Operation (req.SourceColumns.map (contribution row))))
            ∧ (req.TargetColumn ≠ "row_number" →
                entry.get "row_number" = some (.int (req.StartRow + (k : Int) + 1))) := by
  obtain ⟨hlo, hhi⟩ := resolveEndRow_bounds rows.length req h1
  obtain ⟨first, rest, hcols⟩ := List.exists_cons_of_ne_nil hsrc
  obtain ⟨formula, hform⟩ := buildFormula_some req.Operation first rest
  rw [← hcols] at hform
  have hrange : ¬ (req.StartRow < 0 ∨ req.StartRow ≥ (rows.length : Int)) := by omega
  have hidx : ∀ i ∈ List.range' req.StartRow.toNat
      (resolveEndRow rows.length req + 1 - req.StartRow).toNat, i < rows.length := by
    intro i hi
    rw [List.mem_range'_1] at hi
    omega
  have hloop := rowLoop_numeric (F := F) rows req hop _ [] hidx
  obtain ⟨res, hcall, hres⟩ : ∃ res : RowCalculationResult F,
      CalculateRowWise disk filePath req = .ok res
      ∧ res.Results = List.map (fun i => numericRow req i (rows.getD i []))
          (List.range' req.StartRow.toNat
            (resolveEndRow rows.length req + 1 - req.StartRow).toNat) := by
    unfold CalculateRowWise
    simp only [hopen, hrows, if_neg hrange, hform, hloop, List.nil_append]
    exact ⟨_, rfl, rfl⟩
  refine ⟨res, hcall, ?_, ?_⟩
  · rw [hres]
    simp only [List.length_map, List.length_range']
    omega
  · intro k row hk hrow
    have hklt : k < (resolveEndRow rows.length req + 1 - req.StartRow).toNat := by omega
    refine ⟨numericRow req (req.StartRow.toNat + k) row, ?_, ?_, ?_⟩
    · rw [hres]
      simp only [List.getElem?_map]
      rw [List.getElem?_range' _ _ hklt]
      simp only [Option.map_some', one_mul, Option.some.injEq]
      have hlt : req.StartRow.toNat + k < rows.length := by omega
      rw [List.getD_eq_getElem _ _ hlt]
      rw [List.getElem?_eq_getElem hlt] at hrow
      rw [Option.some.inj hrow]
    · exact (numericRow_spec req _ row hvalid).1
    · intro ht
      rw [(numericRow_spec (F := F) req (req.StartRow.toNat + k) row hvalid).2 ht]
      congr 2
      omega

theorem applyOperation_add : (applyOperation "add" : F → F → F) = GoFloat64.add := by
  funext acc v
  simp [applyOperation]

theorem applyOperation_subtract : (applyOperation "subtract" : F → F → F) = GoFloat64.sub := by
  funext acc v
  have h1 : ("subtract" : String) ≠ "add" := by decide
  simp [applyOperation, h1]

theorem applyOperation_multiply : (applyOperation "multiply" : F → F → F) = GoFloat64.mul := by
  funext acc v
  have h1 : ("multiply" : String) ≠ "add" := by decide
  have h2 : ("multiply" : String) ≠ "subtract" := by decide
  simp [applyOperation, h1, h2]

theorem applyOperation_divide :
    (applyOperation "divide" : F → F → F)
      = fun acc v => if GoFloat64.eq v GoFloat64.zero then acc else GoFloat64.div acc v := by
  funext acc v
  have h1 : ("divide" : String) ≠ "add" := by decide
  have h2 : ("divide" : String) ≠ "subtract" := by decide
  have h3 : ("divide" : String) ≠ "multiply" := by decide
  cases hz : GoFloat64.eq v (GoFloat64.zero : F) <;> simp [applyOperation, h1, h2, h3, hz]

theorem foldl_divide_skips_zero (vs : List F) :
    ∀ acc : F, vs.foldl (applyOperation "divide") acc
      = (vs.filter (fun x => !(GoFloat64.eq x GoFloat64.zero))).foldl GoFloat64.div acc := by
  induction vs with
  | nil => intro acc; rfl
  | cons v rest ih =>
    intro acc
    rw [List.foldl_cons, ih, applyOperation_divide]
    cases hz : GoFloat64.eq v (GoFloat64.zero : F) <;> simp [List.filter, hz]

/-- C1 (amended): for every sheet, every operation in add, subtract, multiply,
divide, every non-empty list of valid source column identifiers, every target
column other than the key `row_number`, and every row index r with
startRow <= r <= resolved endRow, `CalculateRowWise` produces, in ascending row
order, exactly one result entry with row_number = r+1 whose calculated_value is the
left-to-right fold over the source values of the row in list order, starting from
the first, where a cell that is absent, blank or non-numeric contributes 0; the
fold step is the operation itself, except that a divide step whose right operand
equals 0 keeps the running value. -/
theorem CalculateRowWise_fold (disk : Disk) (filePath : String) (req : RowCalculationRequest)
    (f : File) (rows : List (List String)) (hopen : disk filePath = .ok f)
    (hrows : f.GetRows req.SheetName = .ok rows)
    (h0 : 0 ≤ req.StartRow) (h1 : req.StartRow < (rows.length : Int))
    (hop : req.Operation = "add" ∨ req.Operation = "subtract" ∨ req.Operation = "multiply"
      ∨ req.Operation = "divide")
    (first : String) (rest : List String) (hsrc : req.SourceColumns = first :: rest)
    (hvalid : ∀ c ∈ req.SourceColumns, columnIndex c ≠ none)
    (htarget : req.TargetColumn ≠ "row_number") :
    ∃ res : RowCalculationResult F, CalculateRowWise disk filePath req = .ok res
      ∧ (res.Results.length : Int) = resolveEndRow rows.length req - req.StartRow + 1
      ∧ ∀ (k : Nat) (row : List String),
          req.StartRow + (k : Int) ≤ resolveEndRow rows.length req →
          rows[req.StartRow.toNat + k]? = some row →
          ∃ (entry : Row F) (v : F), res.Results[k]? = some entry
            ∧ entry.get "row_number" = some (.int (req.StartRow + (k : Int) + 1))
            ∧ entry.get "calculated_value" = some (.float v)
            ∧ (req.Operation = "add" →
                v = (rest.map (contribution row)).foldl GoFloat64.add (contribution row first))
            ∧ (req.Operation = "subtract" →
                v = (rest.map (contribution row)).foldl GoFloat64.sub (contribution row first))
            ∧ (req.Operation = "multiply" →
                v = (rest.map (contribution row)).foldl GoFloat64.mul (contribution row first))
            ∧ (req.Operation = "divide" →
                v = (rest.map (contribution row)).foldl
                  (fun acc x => if GoFloat64.eq x GoFloat64.zero then acc else GoFloat64.div acc x)
                  (contribution row first)) := by
  have hcopy : req.Operation ≠ "copy" := by
    rcases hop with h | h | h | h <;> rw [h] <;> decide
  have hne : req.SourceColumns ≠ [] := by rw [hsrc]; exact List.cons_ne_nil _ _
  obtain ⟨res, hcall, hlen, hall⟩ :=
    CalculateRowWise_numeric (F := F) disk filePath req f rows hopen hrows h0 h1 hcopy hne hvalid
  refine ⟨res, hcall, hlen, ?_⟩
  intro k row hk hrow
  obtain ⟨entry, he, hcv, hrn⟩ := hall k row hk hrow
  refine ⟨entry, _, he, hrn htarget, hcv, ?_, ?_, ?_, ?_⟩
  · intro h
    rw [h, hsrc]
    simp only [List.map_cons, calculate, applyOperation_add]
  · intro h
    rw [h, hsrc]
    simp only [List.map_cons, calculate, applyOperation_subtract]
  · intro h
    rw [h, hsrc]
    simp only [List.map_cons, calculate, applyOperation_multiply]
  · intro h
    rw [h, hsrc]
    simp only [List.map_cons, calculate, applyOperation_divide]

theorem CalculateRowWise_fold_witness :
    sampleDisk scenarioRows "K" "book.xlsx" = .ok (sampleFile scenarioRows "K")
    ∧ (sampleFile scenarioRows "K").GetRows "Sheet1" = .ok scenarioRows
    ∧ (10 : Int) < (scenarioRows.length : Int)
    ∧ (∀ c ∈ ["I", "K"], columnIndex c ≠ none)
    ∧ ∃ (res : RowCalculationResult Exact) (e0 e1 e2 : Row Exact),
        CalculateRowWise (sampleDisk scenarioRows "K") "book.xlsx"
          (sampleRowRequest ["I", "K"] "L" "add" 10) = .ok res
        ∧ (res.Results.length : Int) = 3
        ∧ res.Results[0]? = some e0 ∧ e0.get "row_number" = some (.int 11)
        ∧ e0.get "calculated_value" = some (.float (.fin 5 0))
        ∧ res.Results[1]? = some e1 ∧ e1.get "row_number" = some (.int 12)
        ∧ e1.get "calculated_value" = some (.float (.fin 7 0))
        ∧ res.Results[2]? = some e2 ∧ e2.get "row_number" = some (.int 13)
        ∧ e2.get "calculated_value" = some (.float (.fin 9 0)) := by
  refine ⟨rfl, rfl, by decide, by decide, ?_⟩
  obtain ⟨res, hcall, hlen, hall⟩ :=
    CalculateRowWise_fold (F := Exact) (sampleDisk scenarioRows "K") "book.xlsx"
      (sampleRowRequest ["I", "K"] "L" "add" 10) (sampleFile scenarioRows "K") scenarioRows
      rfl rfl (by decide) (by decide) (Or.inl rfl) "I" ["K"] rfl (by decide) (by decide)
  obtain ⟨e0, v0, h0, hr0, hc0, ha0, _⟩ :=
    hall 0 ["", "", "", "", "", "", "", "", "1", "", "4"] (by decide) (by decide)
  obtain ⟨e1, v1, h1, hr1, hc1, ha1, _⟩ :=
    hall 1 ["", "", "", "", "", "", "", "", "2", "", "5"] (by decide) (by decide)
  obtain ⟨e2, v2, h2, hr2, hc2, ha2, _⟩ :=
    hall 2 ["", "", "", "", "", "", "", "", "3", "", "6"] (by decide) (by decide)
  have hv0 : v0 = .fin 5 0 := by rw [ha0 rfl]; decide
  have hv1 : v1 = .fin 7 0 := by rw [ha1 rfl]; decide
  have hv2 : v2 = .fin 9 0 := by rw [ha2 rfl]; decide
  subst hv0 hv1 hv2
  exact ⟨res, e0, e1, e2, hcall, by rw [hlen]; decide, h0, hr0, hc0, h1, hr1, hc1, h2, hr2, hc2⟩

/-- C1 (as stated) fails at its own witness and for divide.  In the end-to-end
scenario (source columns I, K, add, startRow 10, rows 10-12 with I = 1, 2, 3 and
K = 4, 5, 6) `CalculateRowWise` reports 5, 7, 9 for rows 11, 12, 13, not 7, 9, 11.
With source columns A, B, divide, and a row holding A = 10, B = 0, the plain
left-to-right fold of the division is 10 / 0, an infinity, while
`CalculateRowWise` reports 10. -/
theorem CalculateRowWise_fold_counterexample :
    (∃ (res : RowCalculationResult Exact) (e0 e1 e2 : Row Exact),
      CalculateRowWise (sampleDisk scenarioRows "K") "book.xlsx"
        (sampleRowRequest ["I", "K"] "L" "add" 10) = .ok res
      ∧ res.Results = [e0, e1, e2]
      ∧ e0.get "row_number" = some (.int 11)
      ∧ e0.get "calculated_value" = some (.float (.fin 5 0))
      ∧ e0.get "calculated_value" ≠ some (.float (.fin 7 0))
      ∧ e1.get "row_number" = some (.int 12)
      ∧ e1.get "calculated_value" = some (.float (.fin 7 0))
      ∧ e1.get "calculated_value" ≠ some (.float (.fin 9 0))
      ∧ e2.get "row_number" = some (.int 13)
      ∧ e2.get "calculated_value" = some (.float (.fin 9 0))
      ∧ e2.get "calculated_value" ≠ some (.float (.fin 11 0)))
    ∧ ∃ (res : RowCalculationResult Exact) (entry : Row Exact),
      CalculateRowWise (sampleDisk [["10", "0"]] "B") "book.xlsx"
        (sampleRowRequest ["A", "B"] "C" "divide" 0) = .ok res
      ∧ res.Results = [entry]
      ∧ entry.get "calculated_value" = some (.float (.fin 10 0))
      ∧ List.foldl GoFloat64.div (contribution ["10", "0"] "A") [contribution ["10", "0"] "B"]
          = Exact.posInf
      ∧ entry.get "calculated_value"
          ≠ some (.float (List.foldl GoFloat64.div (contribution ["10", "0"] "A")
              [contribution ["10", "0"] "B"])) := by
  constructor
  · refine ⟨_, _, _, _, rfl, rfl, ?_⟩
    decide
  · refine ⟨_, _, rfl, rfl, ?_⟩
    decide

/-- C5: for the row-wise divide operation a step whose right operand is exactly 0
leaves the running value unchanged; the call returns a result, not an error, and
the computed value is the first value divided by the non-zero operands only, so
the skipped step contributes no infinity or NaN.  In particular a row whose
operands after the first are all 0 yields the first value (A = 10, B = 0 gives
10). -/
theorem CalculateRowWise_divide_by_zero (disk : Disk) (filePath : String)
    (req : RowCalculationRequest) (f : File) (rows : List (List String))
    (hopen : disk filePath = .ok f) (hrows : f.GetRows req.SheetName = .ok rows)
    (h0 : 0 ≤ req.StartRow) (h1 : req.StartRow < (rows.length : Int))
    (hop : req.Operation = "divide")
    (first : String) (rest : List String) (hsrc : req.SourceColumns = first :: rest)
    (hvalid : ∀ c ∈ req.SourceColumns, columnIndex c ≠ none) :
    (∀ acc v : F, GoFloat64.eq v GoFloat64.zero = true → applyOperation "divide" acc v = acc)
    ∧ ∃ res : RowCalculationResult F, CalculateRowWise disk filePath req = .ok res
      ∧ ∀ (k : Nat) (row : List String),
          req.StartRow + (k : Int) ≤ resolveEndRow rows.length req →
          rows[req.StartRow.toNat + k]? = some row →
          ∃ entry : Row F, res.Results[k]? = some entry
            ∧ entry.get "calculated_value"
                = some (.float (((rest.map (contribution row)).filter
                    (fun x => !(GoFloat64.eq x GoFloat64.zero))).foldl GoFloat64.div
                    (contribution row first)))
            ∧ ((∀ x ∈ rest.map (contribution row), GoFloat64.eq x (GoFloat64.zero : F) = true) →
                entry.get "calculated_value" = some (.float (contribution row first))) := by
  constructor
  · intro acc v hz
    rw [applyOperation_divide]
    simp [hz]
  · have hcopy : req.Operation ≠ "copy" := by rw [hop]; decide
    have hne : req.SourceColumns ≠ [] := by rw [hsrc]; exact List.cons_ne_nil _ _
    obtain ⟨res, hcall, _, hall⟩ :=
      CalculateRowWise_numeric (F := F) disk filePath req f rows hopen hrows h0 h1 hcopy hne hvalid
    refine ⟨res, hcall, ?_⟩
    intro k row hk hrow
    obtain ⟨entry, he, hcv, _⟩ := hall k row hk hrow
    have hval : entry.get "calculated_value"
        = some (.float (((rest.map (contribution row)).filter
            (fun x => !(GoFloat64.eq x GoFloat64.zero))).foldl GoFloat64.div
            (contribution row first))) := by
      rw [hcv, hop, hsrc]
      simp only [List.map_cons, calculate, foldl_divide_skips_zero]
    refine ⟨entry, he, hval, ?_⟩
    intro hzero
    rw [hval]
    have hfil : (rest.map (contribution row)).filter
        (fun x => !(GoFloat64.eq x (GoFloat64.zero : F))) = [] := by
      rw [List.filter_eq_nil_iff]
      intro x hx
      simp [hzero x hx]
    rw [hfil]
    rfl

theorem CalculateRowWise_divide_by_zero_witness :
    sampleDisk [["10", "0"]] "B" "book.xlsx" = .ok (sampleFile [["10", "0"]] "B")
    ∧ (sampleFile [["10", "0"]] "B").GetRows "Sheet1" = .ok [["10", "0"]]
    ∧ (∀ c ∈ ["A", "B"], columnIndex c ≠ none)
    ∧ (∀ x ∈ ["B"].map (contribution ["10", "0"]), GoFloat64.eq x (GoFloat64.zero : Exact) = true)
    ∧ ∃ (res : RowCalculationResult Exact) (entry : Row Exact),
        CalculateRowWise (sampleDisk [["10", "0"]] "B") "book.xlsx"
          (sampleRowRequest ["A", "B"] "C" "divide" 0) = .ok res
        ∧ res.Results[0]? = some entry
        ∧ entry.get "calculated_value" = some (.float (.fin 10 0)) := by
  refine ⟨rfl, rfl, by decide, by decide, ?_⟩
  obtain ⟨_, res, hcall, hall⟩ :=
    CalculateRowWise_divide_by_zero (F := Exact) (sampleDisk [["10", "0"]] "B") "book.xlsx"
      (sampleRowRequest ["A", "B"] "C" "divide" 0) (sampleFile [["10", "0"]] "B") [["10", "0"]]
      rfl rfl (by decide) (by decide) rfl "A" ["B"] rfl (by decide)
  obtain ⟨entry, he, _, hz⟩ := hall 0 ["10", "0"] (by decide) (by decide)
  refine ⟨res, entry, hcall, he, ?_⟩
  rw [hz (by decide)]
  decide

/-! ## Aggregation by group -/

theorem groupStep_keys_nodup (mainColumn : String) (data : List (Row F)) :
    ∀ groups : GoMap (List (Row F)), groups.keys.Nodup →
      (data.foldl (groupStep mainColumn) groups).keys.Nodup := by
  induction data with
  | nil => intro groups h; exact h
  | cons row rest ih =>
    intro groups h
    rw [List.foldl_cons]
    apply ih
    unfold groupStep
    cases row.get mainColumn with
    | none => exact h
    | some v => exact GoMap.nodup_keys_set _ _ _ h

/-- The group stored under `key` after the grouping loop: the rows already there
followed by the rows of the data that render as `key`. -/
theorem groupStep_get (mainColumn key : String) (data : List (Row F)) :
    ∀ groups : GoMap (List (Row F)),
      (data.foldl (groupStep mainColumn) groups).get key
        = if (groupRowsOf mainColumn key data).isEmpty then groups.get key
          else some ((groups.get key).getD [] ++ groupRowsOf mainColumn key data) := by
  induction data with
  | nil => intro groups; simp [groupRowsOf]
  | cons row rest ih =>
    intro groups
    rw [List.foldl_cons, ih]
    cases hv : row.get mainColumn with
    | none =>
      have hrest : groupRowsOf mainColumn key (row :: rest) = groupRowsOf mainColumn key rest := by
        simp [groupRowsOf, List.filter, hv]
      rw [hrest]
      simp [groupStep, hv]
    | some v =>
      by_cases hk : v.sprintV = key
      · have hrest : groupRowsOf mainColumn key (row :: rest)
            = row :: groupRowsOf mainColumn key rest := by
          simp [groupRowsOf, List.filter, hv, hk]
        rw [hrest]
        simp only [groupStep, hv, hk, GoMap.get_set_self, Option.getD_some]
        cases hnil : (groupRowsOf mainColumn key rest).isEmpty with
        | true =>
          rw [List.isEmpty_iff] at hnil
          simp [hnil]
        | false => simp
      · have hrest : groupRowsOf mainColumn key (row :: rest)
            = groupRowsOf mainColumn key rest := by
          simp [groupRowsOf, List.filter, hv, hk]
        rw [hrest]
        have hne : key ≠ v.sprintV := fun e => hk e.symm
        simp only [groupStep, hv, GoMap.get_set_other _ _ _ _ hne]

theorem sumCountStep_foldl (targetCol : String) (rows : List (Row F)) :
    ∀ acc : F × Int, rows.foldl (sumCountStep targetCol) acc
      = ((numericValues targetCol rows).foldl GoFloat64.add acc.1,
          acc.2 + ((numericValues targetCol rows).length : Int)) := by
  induction rows with
  | nil => intro acc; simp [numericValues]
  | cons row rest ih =>
    intro acc
    rw [List.foldl_cons, ih]
    unfold sumCountStep numericValues
    cases hv : row.get targetCol with
    | none => simp [List.filterMap_cons, hv]
    | some v =>
      cases v with
      | str s => simp [List.filterMap_cons, hv]
      | int n => simp [List.filterMap_cons, hv]
      | float x =>
        simp only [List.filterMap_cons, hv, List.foldl_cons, List.length_cons]
        congr 1
        push_cast
        omega

theorem targetStep_fst_summary (operation : String) (groupData : List (Row F)) :
    ∀ (targets : List String) (r : Row F) (s1 s2 : GoMap F),
      (targets.foldl (targetStep operation groupData) (r, s1)).1
        = (targets.foldl (targetStep operation groupData) (r, s2)).1 := by
  intro targets
  induction targets with
  | nil => intro r s1 s2; rfl
  | cons t rest ih =>
    intro r s1 s2
    simp only [List.foldl_cons]
    have h : ∀ s : GoMap F, targetStep operation groupData (r, s) t
        = ((targetStep operation groupData (r, s) t).1, (targetStep operation groupData (r, s) t).2) :=
      fun s => rfl
    rw [h s1, h s2]
    have hfst : (targetStep operation groupData (r, s1) t).1
        = (targetStep operation groupData (r, s2) t).1 := rfl
    rw [hfst]
    exact ih _ _ _

theorem targetStep_entry (operation : String) (groupData : List (Row F)) (r : Row F)
    (s : GoMap F) (t : String) :
    (operation = "sum" →
      (targetStep operation groupData (r, s) t).1
        = r.set t (.float ((numericValues t groupData).foldl GoFloat64.add GoFloat64.zero)))
    ∧ (operation = "average" →
        (targetStep operation groupData (r, s) t).1
          = r.set t (if 0 < (numericValues t groupData).length then
              .float (GoFloat64.div
                ((numericValues t groupData).foldl GoFloat64.add GoFloat64.zero)
                (GoFloat64.ofInt ((numericValues t groupData).length : Int)))
            else .int 0))
    ∧ (operation = "count" →
        (targetStep operation groupData (r, s) t).1
          = r.set t (.int ((numericValues t groupData).length : Int))) := by
  have hsc := sumCountStep_foldl (F := F) t groupData (GoFloat64.zero, 0)
  refine ⟨?_, ?_, ?_⟩
  · intro h
    simp only [targetStep, hsc, h, if_true]
  · intro h
    have h1 : ("average" : String) ≠ "sum" := by decide
    simp only [targetStep, hsc, h, h1, if_true, if_false, zero_add]
    by_cases hpos : 0 < (numericValues t groupData).length
    · have hpos2 : ((numericValues t groupData).length : Int) > 0 := by omega
      simp only [hpos, hpos2, if_true]
    · have hpos2 : ¬ ((numericValues t groupData).length : Int) > 0 := by omega
      simp only [hpos, hpos2, if_false]
  · intro h
    have h1 : ("count" : String) ≠ "sum" := by decide
    have h2 : ("count" : String) ≠ "average" := by decide
    simp only [targetStep, hsc, h, h1, h2, if_true, if_false, zero_add]

/-- A loop over target columns whose every step stores `val t` under `t` leaves
`val t` under each visited target and does not touch the other keys. -/
theorem targets_fold_get (operation : String) (groupData : List (Row F))
    (val : String → Value F)
    (hstep : ∀ (r : Row F) (s : GoMap F) (t : String),
      (targetStep operation groupData (r, s) t).1 = r.set t (val t)) :
    ∀ (targets : List String) (r : Row F) (s : GoMap F),
      (∀ t ∈ targets,
        ((targets.foldl (targetStep operation groupData) (r, s)).1).get t = some (val t))
      ∧ (∀ k, k ∉ targets →
        ((targets.foldl (targetStep operation groupData) (r, s)).1).get k = r.get k) := by
  intro targets
  induction targets with
  | nil =>
    intro r s
    exact ⟨fun t ht => absurd ht (List.not_mem_nil t), fun k _ => rfl⟩
  | cons t0 rest ih =>
    intro r s
    simp only [List.foldl_cons]
    have hsplit : targetStep operation groupData (r, s) t0
        = (r.set t0 (val t0), (targetStep operation groupData (r, s) t0).2) := by
      rw [← hstep r s t0]
    rw [hsplit]
    obtain ⟨hin, hout⟩ := ih (r.set t0 (val t0)) (targetStep operation groupData (r, s) t0).2
    constructor
    · intro t ht
      by_cases hmem : t ∈ rest
      · exact hin t hmem
      · have ht0 : t = t0 := by
          rcases List.mem_cons.mp ht with h | h
          · exact h
          · exact absurd h hmem
        rw [hout t hmem, ht0, GoMap.get_set_self]
    · intro k hk
      simp only [List.mem_cons, not_or] at hk
      rw [hout k hk.2, GoMap.get_set_other _ _ _ _ hk.1]

/-- The result list of the loop over the groups: one entry per visited group, in
visiting order. -/
theorem groupResultStep_results (req : CalculationRequest) :
    ∀ (gs : List (String × List (Row F))) (R : List (Row F)) (S : GoMap F),
      (gs.foldl (groupResultStep req) (R, S)).1
        = R ++ gs.map (fun g =>
            (req.TargetColumns.foldl (targetStep req.Operation g.2)
              (GoMap.empty.set req.MainColumn (.str g.1), (GoMap.empty : GoMap F))).1) := by
  intro gs
  induction gs with
  | nil => intro R S; simp
  | cons g rest ih =>
    intro R S
    simp only [List.foldl_cons, List.map_cons]
    have hstep : groupResultStep req (R, S) g
        = (R ++ [(req.TargetColumns.foldl (targetStep req.Operation g.2)
              (GoMap.empty.set req.MainColumn (.str g.1), S)).1],
            (req.TargetColumns.foldl (targetStep req.Operation g.2)
              (GoMap.empty.set req.MainColumn (.str g.1), S)).2) := rfl
    rw [hstep, ih, targetStep_fst_summary req.Operation g.2 req.TargetColumns _ S GoMap.empty]
    simp

/-- Every observed group has an entry in the results, computed from exactly the
rows of that group. -/
theorem calculateGroups_entry
    (visit : List (String × List (Row F)) → List (String × List (Row F)))
    (hvisit : ∀ l, List.Perm (visit l) l) (data : List (Row F)) (req : CalculationRequest)
    (key : String) (hkey : groupRowsOf req.MainColumn key data ≠ []) :
    (req.TargetColumns.foldl (targetStep req.Operation (groupRowsOf req.MainColumn key data))
        (GoMap.empty.set req.MainColumn (.str key), (GoMap.empty : GoMap F))).1
      ∈ (calculateGroups visit data req).Results := by
  unfold calculateGroups
  simp only []
  rw [groupResultStep_results req _ [] GoMap.empty, List.nil_append, List.mem_map]
  refine ⟨(key, groupRowsOf req.MainColumn key data), ?_, rfl⟩
  rw [(hvisit _).mem_iff]
  apply GoMap.mem_of_get
  rw [groupStep_get]
  have hne : (groupRowsOf req.MainColumn key data).isEmpty = false := by
    cases h : (groupRowsOf req.MainColumn key data).isEmpty with
    | true => exact absurd (List.isEmpty_iff.mp h) hkey
    | false => rfl
  rw [hne]
  simp [GoMap.empty, GoMap.get]

theorem targetStep_get_other (operation : String) (groupData : List (Row F)) (r : Row F)
    (s : GoMap F) (t k : String) (hk : k ≠ t) :
    ((targetStep operation groupData (r, s) t).1).get k = r.get k := by
  simp only [targetStep]
  split
  · exact GoMap.get_set_other _ _ _ _ hk
  · split
    · split
      · exact GoMap.get_set_other _ _ _ _ hk
      · exact GoMap.get_set_other _ _ _ _ hk
    · split
      · exact GoMap.get_set_other _ _ _ _ hk
      · rfl

theorem targets_fold_get_other (operation : String) (groupData : List (Row F)) :
    ∀ (targets : List String) (r : Row F) (s : GoMap F) (k : String), k ∉ targets →
      ((targets.foldl (targetStep operation groupData) (r, s)).1).get k = r.get k := by
  intro targets
  induction targets with
  | nil => intro r s k _; rfl
  | cons t0 rest ih =>
    intro r s k hk
    simp only [List.mem_cons, not_or] at hk
    simp only [List.foldl_cons]
    have hsplit : targetStep operation groupData (r, s) t0
        = ((targetStep operation groupData (r, s) t0).1,
            (targetStep operation groupData (r, s) t0).2) := rfl
    rw [hsplit, ih _ _ k hk.2, targetStep_get_other operation groupData r s t0 k hk.1]

/-- C2: for every materialized sheet, group-by column and target columns,
`CalculateColumns` reports for each group (each observed text rendering `key` of the
group-by cell) an entry that holds, per target column: with operation sum, the sum
of the numeric values of that column over the rows of the group; with operation
average, that sum divided by the count of numeric values, or 0 when the group has
no numeric value in the column; with operation count, the count of numeric
values.  Text and Empty cells are not among the numeric values. -/
theorem CalculateColumns_group_values (disk : Disk)
    (visit : List (String × List (Row F)) → List (String × List (Row F)))
    (hvisit : ∀ l, List.Perm (visit l) l) (filePath : String) (req : CalculationRequest)
    (data : List (Row F)) (hdata : GetSheetData disk filePath req.SheetName = .ok data)
    (key : String) (hkey : groupRowsOf req.MainColumn key data ≠ []) :
    ∃ res : CalculationResult F, CalculateColumns disk visit filePath req = .ok res
      ∧ ∃ entry ∈ res.Results,
          (req.MainColumn ∉ req.TargetColumns → entry.get req.MainColumn = some (.str key))
          ∧ ∀ t ∈ req.TargetColumns,
              (req.Operation = "sum" →
                entry.get t = some (.float
                  ((numericValues t (groupRowsOf req.MainColumn key data)).foldl
                    GoFloat64.add GoFloat64.zero)))
              ∧ (req.Operation = "average" →
                  numericValues t (groupRowsOf req.MainColumn key data) ≠ [] →
                  entry.get t = some (.float (GoFloat64.div
                    ((numericValues t (groupRowsOf req.MainColumn key data)).foldl
                      GoFloat64.add GoFloat64.zero)
                    (GoFloat64.ofInt
                      ((numericValues t (groupRowsOf req.MainColumn key data)).length : Int)))))
              ∧ (req.Operation = "average" →
                  numericValues t (groupRowsOf req.MainColumn key data) = [] →
                  entry.get t = some (.int 0))
              ∧ (req.Operation = "count" →
                  entry.get t = some (.int
                    ((numericValues t (groupRowsOf req.MainColumn key data)).length : Int))) := by
  refine ⟨calculateGroups visit data req, by simp [CalculateColumns, hdata], _,
    calculateGroups_entry visit hvisit data req key hkey, ?_, ?_⟩
  · intro hmain
    rw [targets_fold_get_other _ _ _ _ _ _ hmain, GoMap.get_set_self]
  · intro t ht
    refine ⟨?_, ?_, ?_, ?_⟩
    · intro hop
      exact (targets_fold_get req.Operation _ _
        (fun r s t2 => (targetStep_entry req.Operation _ r s t2).1 hop) req.TargetColumns _ _).1 t ht
    · intro hop hne
      have h := (targets_fold_get (F := F) req.Operation
        (groupRowsOf req.MainColumn key data) _
        (fun r s t2 => (targetStep_entry req.Operation _ r s t2).2.1 hop)
        req.TargetColumns (GoMap.empty.set req.MainColumn (.str key)) GoMap.empty).1 t ht
      rw [h, if_pos (List.length_pos.mpr hne)]
    · intro hop hnil
      have h := (targets_fold_get (F := F) req.Operation
        (groupRowsOf req.MainColumn key data) _
        (fun r s t2 => (targetStep_entry req.Operation _ r s t2).2.1 hop)
        req.TargetColumns (GoMap.empty.set req.MainColumn (.str key)) GoMap.empty).1 t ht
      rw [h, hnil]
      rfl
    · intro hop
      exact (targets_fold_get req.Operation _ _
        (fun r s t2 => (targetStep_entry req.Operation _ r s t2).2.2 hop) req.TargetColumns _ _).1 t ht

theorem CalculateColumns_group_values_witness :
    (∀ l : List (String × List (Row Exact)), List.Perm ((fun x => x) l) l)
    ∧ ∃ (res : CalculationResult Exact) (north south : Row Exact),
        CalculateColumns (sampleDisk salesRows "B") (fun x => x) "book.xlsx"
          (sampleRequest "A" ["B"] "sum" none) = .ok res
        ∧ north ∈ res.Results ∧ north.get "A" = some (.str "N")
        ∧ north.get "B" = some (.float (.fin 30 0))
        ∧ south ∈ res.Results ∧ south.get "A" = some (.str "S")
        ∧ south.get "B" = some (.float (.fin 5 0)) := by
  refine ⟨fun l => List.Perm.refl l, ?_⟩
  obtain ⟨res, hres, north, hn, hnk, hnv⟩ :=
    CalculateColumns_group_values (F := Exact) (sampleDisk salesRows "B") (fun x => x)
      (fun l => List.Perm.refl l) "book.xlsx" (sampleRequest "A" ["B"] "sum" none) _ rfl
      "N" (by decide)
  obtain ⟨res2, hres2, south, hs, hsk, hsv⟩ :=
    CalculateColumns_group_values (F := Exact) (sampleDisk salesRows "B") (fun x => x)
      (fun l => List.Perm.refl l) "book.xlsx" (sampleRequest "A" ["B"] "sum" none) _ rfl
      "S" (by decide)
  have hsame : res2 = res := by
    rw [hres] at hres2
    exact (Except.ok.inj hres2).symm
  subst hsame
  refine ⟨res2, north, south, hres, hn, hnk (by decide), ?_, hs, hsk (by decide), ?_⟩
  · rw [(hnv "B" (by decide)).1 rfl]; decide
  · rw [(hsv "B" (by decide)).1 rfl]; decide

/-! ## Aggregation of one column -/

theorem cellValue_str (row : List String) (j : Nat) (s : String)
    (h : (cellValue row j : Value F) = .str s) : (parseNumberWithCommas s : Option F) = none := by
  unfold cellValue at h
  cases hc : row[j]? with
  | none =>
    rw [hc] at h
    simp only [Value.str.injEq] at h
    subst h
    simp [parseNumberWithCommas]
  | some c =>
    rw [hc] at h
    by_cases hne : c = ""
    · simp only [hne, ne_eq, not_true_eq_false, if_false, Value.str.injEq] at h
      subst h
      simp [parseNumberWithCommas]
    · simp only [ne_eq, hne, not_false_eq_true, if_true] at h
      cases hp : (parseNumberWithCommas c : Option F) with
      | none =>
        rw [hp] at h
        simp only [Value.str.injEq] at h
        subst h
        exact hp
      | some x =>
        rw [hp] at h
        cases h

/-- In a materialized sheet no text cell parses as a number. -/
theorem GetSheetData_text_cells (disk : Disk) (filePath sheetName : String)
    (data : List (Row F)) (hdata : GetSheetData disk filePath sheetName = .ok data) :
    ∀ r ∈ data, ∀ (c s : String), r.get c = some (.str s) →
      (parseNumberWithCommas s : Option F) = none := by
  cases hopen : disk filePath with
  | error e => simp [GetSheetData, hopen] at hdata
  | ok f =>
    cases hrows : f.GetRows sheetName with
    | error e => simp [GetSheetData, hopen, hrows] at hdata
    | ok rows =>
      obtain ⟨data2, hdata2, hlen2, hall⟩ :=
        GetSheetData_row (F := F) disk filePath sheetName f rows hopen hrows
      have hsame : data2 = data := by
        rw [hdata] at hdata2
        exact (Except.ok.inj hdata2).symm
      subst hsame
      intro r hr c s hget
      obtain ⟨i, hi, hir⟩ := List.getElem_of_mem hr
      have hlen : i < rows.length := by omega
      obtain ⟨r2, hr2, hkeys, hcells⟩ := hall i rows[i] (List.getElem?_eq_getElem hlen)
      rw [List.getElem?_eq_getElem hi, hir] at hr2
      have hrr : r2 = r := (Option.some.inj hr2).symm
      subst hrr
      have hmem : c ∈ r2.keys := GoMap.mem_keys_of_get _ _ _ hget
      rw [hkeys] at hmem
      obtain ⟨j, hj, hjc⟩ := List.getElem_of_mem hmem
      have hcell := hcells j c (by rw [List.getElem?_eq_getElem hj, hjc])
      rw [hget] at hcell
      exact cellValue_str rows[i] j s (Option.some.inj hcell).symm

theorem collectStep_foldl (col : String) (rows : List (Row F)) :
    ∀ acc : List F,
      (∀ r ∈ rows, ∀ s : String, r.get col = some (.str s) →
        (parseNumberWithCommas s : Option F) = none) →
      rows.foldl (collectStep col) acc = acc ++ numericValues col rows := by
  induction rows with
  | nil => intro acc _; simp [numericValues]
  | cons row rest ih =>
    intro acc hmat
    rw [List.foldl_cons, ih _ (fun r hr => hmat r (List.mem_cons_of_mem _ hr))]
    unfold collectStep numericValues
    cases hv : row.get col with
    | none => simp [List.filterMap_cons, hv]
    | some v =>
      cases v with
      | str s =>
        have hp := hmat row (List.mem_cons_self _ _) s hv
        simp [List.filterMap_cons, hv, hp]
      | int n => simp [List.filterMap_cons, hv]
      | float x => simp [List.filterMap_cons, hv]

/-- The running extreme of a list under a strict order: it is the seed or a later
element above the seed, and nothing seen is above it. -/
theorem foldl_extreme (rel : F → F → Bool) (hirr : ∀ x, rel x x = false)
    (htrans : ∀ x y z, rel x y = true → rel y z = true → rel x z = true) (vs : List F) :
    ∀ init : F,
      (vs.foldl (fun result v => if rel result v then v else result) init = init
        ∨ (vs.foldl (fun result v => if rel result v then v else result) init ∈ vs
          ∧ rel init (vs.foldl (fun result v => if rel result v then v else result) init) = true))
      ∧ rel (vs.foldl (fun result v => if rel result v then v else result) init) init = false
      ∧ ∀ x ∈ vs,
          rel (vs.foldl (fun result v => if rel result v then v else result) init) x = false := by
  induction vs with
  | nil =>
    intro init
    exact ⟨Or.inl rfl, hirr init, fun x hx => absurd hx (List.not_mem_nil x)⟩
  | cons v rest ih =>
    intro init
    simp only [List.foldl_cons]
    cases hiv : rel init v with
    | true =>
      simp only [if_true]
      obtain ⟨hm, hmi, hall⟩ := ih v
      refine ⟨Or.inr ?_, ?_, ?_⟩
      · rcases hm with hm | ⟨hm, hvm⟩
        · rw [hm]
          exact ⟨List.mem_cons_self _ _, hiv⟩
        · exact ⟨List.mem_cons_of_mem _ hm, htrans _ _ _ hiv hvm⟩
      · cases hc : rel (rest.foldl (fun result v => if rel result v then v else result) v) init with
        | false => rfl
        | true =>
          have h1 := htrans _ _ _ hc hiv
          rw [hmi] at h1
          cases h1
      · intro x hx
        rcases List.mem_cons.mp hx with hx | hx
        · rw [hx]; exact hmi
        · exact hall x hx
    | false =>
      simp only [Bool.false_eq_true, if_false]
      obtain ⟨hm, hmi, hall⟩ := ih init
      refine ⟨?_, hmi, ?_⟩
      · rcases hm with hm | ⟨hm, him⟩
        · exact Or.inl hm
        · exact Or.inr ⟨List.mem_cons_of_mem _ hm, him⟩
      · intro x hx
        rcases List.mem_cons.mp hx with hx | hx
        · rw [hx]
          rcases hm with hm | ⟨_, him⟩
          · rw [hm]; exact hiv
          · cases hc : rel (rest.foldl (fun result v => if rel result v then v else result) init) v with
            | false => rfl
            | true =>
              have h1 := htrans _ _ _ him hc
              rw [hiv] at h1
              cases h1
        · exact hall x hx

theorem columnOperation_none (operation : String) (values : List F) :
    columnOperation operation values = none
      ↔ ¬ (operation = "sum" ∨ operation = "average" ∨ operation = "count"
          ∨ operation = "max" ∨ operation = "min") := by
  unfold columnOperation
  constructor
  · intro h
    rintro (h1 | h1 | h1 | h1 | h1) <;> subst h1 <;> simp at h
  · intro h
    simp only [not_or] at h
    simp [h.1, h.2.1, h.2.2.1, h.2.2.2.1, h.2.2.2.2]

/-- The outcome of `aggregateFrom` on a materialized sheet: an error when the column has no numeric
value from the start row on or the operation is unknown, otherwise the result that
carries the value of the operation on those numeric values. -/
theorem aggregateFrom_spec (data : List (Row F)) (req : CalculationRequest) (startRow : Int)
    (hmat : ∀ r ∈ data, ∀ s : String, r.get req.MainColumn = some (.str s) →
      (parseNumberWithCommas s : Option F) = none) :
    ((numericValues req.MainColumn (data.drop startRow.toNat) = []
        ∨ columnOperation req.Operation
            (numericValues req.MainColumn (data.drop startRow.toNat)) = none) →
      ∃ e, aggregateFrom data req startRow = .error e)
    ∧ (numericValues req.MainColumn (data.drop startRow.toNat) ≠ [] →
        ∀ x, columnOperation req.Operation
            (numericValues req.MainColumn (data.drop startRow.toNat)) = some x →
        ∃ res : CalculationResult F, aggregateFrom data req startRow = .ok res
          ∧ res.Summary = GoMap.empty.set req.Operation x
          ∧ ∃ entry, res.Results = [entry] ∧ entry.get "result" = some (.float x)) := by
  have hV : (data.drop startRow.toNat).foldl (collectStep req.MainColumn) []
      = numericValues req.MainColumn (data.drop startRow.toNat) := by
    rw [collectStep_foldl req.MainColumn _ []
      (fun r hr => hmat r (List.mem_of_mem_drop hr)), List.nil_append]
  unfold aggregateFrom
  simp only [hV]
  by_cases hnil : numericValues req.MainColumn (data.drop startRow.toNat) = []
  · simp [hnil]
  · have hlen : (numericValues req.MainColumn (data.drop startRow.toNat)).length ≠ 0 := by
      intro h
      exact hnil (List.length_eq_zero.mp h)
    simp only [hlen, if_false, hnil, false_or, ne_eq, not_false_eq_true, true_implies]
    constructor
    · intro hop
      rw [hop]
      exact ⟨_, rfl⟩
    · intro x hop
      rw [hop]
      refine ⟨_, rfl, rfl, _, rfl, ?_⟩
      rw [GoMap.get_set_other _ _ _ _ (by decide), GoMap.get_set_other _ _ _ _ (by decide),
        GoMap.get_set_other _ _ _ _ (by decide), GoMap.get_set_other _ _ _ _ (by decide),
        GoMap.get_set_self]

theorem calculateColumnData_empty (data : List (Row F)) (req : CalculationRequest)
    (h : data.length = 0) : ∃ e, calculateColumnData data req = .error e := by
  unfold calculateColumnData
  rw [if_pos h]
  exact ⟨_, rfl⟩

theorem calculateColumnData_bad_start (data : List (Row F)) (req : CalculationRequest)
    (s : Int) (hs : req.StartRow = some s) (hbad : s < 0 ∨ s ≥ (data.length : Int)) :
    ∃ e, calculateColumnData data req = .error e := by
  unfold calculateColumnData
  by_cases h : data.length = 0
  · rw [if_pos h]
    exact ⟨_, rfl⟩
  · rw [if_neg h, hs]
    simp only [if_pos hbad]
    exact ⟨_, rfl⟩

theorem calculateColumnData_valid (data : List (Row F)) (req : CalculationRequest)
    (hlen : data.length ≠ 0)
    (hstart : ∀ s, req.StartRow = some s → ¬ (s < 0 ∨ s ≥ (data.length : Int))) :
    calculateColumnData data req = aggregateFrom data req (req.StartRow.getD 0) := by
  unfold calculateColumnData
  rw [if_neg hlen]
  cases hs : req.StartRow with
  | none => rfl
  | some s =>
    simp only [if_neg (hstart s hs), Option.getD_some]

theorem columnOperation_values (operation : String) (v0 : F) (rest : List F) (x : F)
    (h : columnOperation operation (v0 :: rest) = some x) :
    (operation = "sum" → x = (v0 :: rest).foldl GoFloat64.add GoFloat64.zero)
    ∧ (operation = "average" →
        x = GoFloat64.div ((v0 :: rest).foldl GoFloat64.add GoFloat64.zero)
          (GoFloat64.ofInt (((v0 :: rest).length : Nat) : Int)))
    ∧ (operation = "count" → x = GoFloat64.ofInt (((v0 :: rest).length : Nat) : Int))
    ∧ (operation = "max" → x ∈ v0 :: rest ∧ ∀ v ∈ v0 :: rest, GoFloat64.lt x v = false)
    ∧ (operation = "min" → x ∈ v0 :: rest ∧ ∀ v ∈ v0 :: rest, GoFloat64.lt v x = false) := by
  refine ⟨?_, ?_, ?_, ?_, ?_⟩
  · intro hop
    subst hop
    simp only [columnOperation, if_true, Option.some.injEq] at h
    exact h.symm
  · intro hop
    subst hop
    have h1 : ("average" : String) ≠ "sum" := by decide
    simp only [columnOperation, h1, if_true, if_false, Option.some.injEq] at h
    exact h.symm
  · intro hop
    subst hop
    have h1 : ("count" : String) ≠ "sum" := by decide
    have h2 : ("count" : String) ≠ "average" := by decide
    simp only [columnOperation, h1, h2, if_true, if_false, Option.some.injEq] at h
    exact h.symm
  · intro hop
    subst hop
    have h1 : ("max" : String) ≠ "sum" := by decide
    have h2 : ("max" : String) ≠ "average" := by decide
    have h3 : ("max" : String) ≠ "count" := by decide
    simp only [columnOperation, h1, h2, h3, if_true, if_false, Option.some.injEq,
      List.headD_cons] at h
    obtain ⟨hm, _, hall⟩ := foldl_extreme (F := F) GoFloat64.lt GoFloat64.lt_irrefl
      GoFloat64.lt_trans (v0 :: rest) v0
    rw [h] at hm hall
    refine ⟨?_, hall⟩
    rcases hm with hm | ⟨hm, _⟩
    · rw [hm]; exact List.mem_cons_self _ _
    · exact hm
  · intro hop
    subst hop
    have h1 : ("min" : String) ≠ "sum" := by decide
    have h2 : ("min" : String) ≠ "average" := by decide
    have h3 : ("min" : String) ≠ "count" := by decide
    have h4 : ("min" : String) ≠ "max" := by decide
    simp only [columnOperation, h1, h2, h3, h4, if_true, if_false, Option.some.injEq,
      List.headD_cons] at h
    obtain ⟨hm, _, hall⟩ := foldl_extreme (F := F) (fun a b => GoFloat64.lt b a)
      (fun a => GoFloat64.lt_irrefl a)
      (fun a b c hab hbc => GoFloat64.lt_trans c b a hbc hab) (v0 :: rest) v0
    rw [h] at hm hall
    refine ⟨?_, hall⟩
    rcases hm with hm | ⟨hm, _⟩
    · rw [hm]; exact List.mem_cons_self _ _
    · exact hm

/-- C6 (amended): whenever `CalculateColumnWithFile` succeeds, with V the list of
numeric values of the chosen column in the rows at or after startRow (text and
Empty cells skipped): sum returns the sum of V, average returns sum(V) / |V| (so
average is sum divided by count), count returns |V|, and, when every two values of
V are comparable (one is below the other or they are equal, which holds when none
is NaN), max returns the greatest element of V and min the least element of V,
whatever the signs of the values.  In every case the result of max is an element
of V that no element of V exceeds, and the result of min an element of V that
exceeds no element of V. -/
theorem CalculateColumnWithFile_values (disk : Disk) (file : ExcelFile)
    (req : CalculationRequest) (data : List (Row F)) (res : CalculationResult F)
    (hdata : GetSheetData disk file.FilePath req.SheetName = .ok data)
    (hres : CalculateColumnWithFile disk file req = .ok res) :
    ∃ x : F, res.Summary.get req.Operation = some x
      ∧ (∃ entry, res.Results = [entry] ∧ entry.get "result" = some (.float x))
      ∧ (req.Operation = "sum" →
          x = (numericValues req.MainColumn (data.drop (req.StartRow.getD 0).toNat)).foldl
            GoFloat64.add GoFloat64.zero)
      ∧ (req.Operation = "average" →
          x = GoFloat64.div
            ((numericValues req.MainColumn (data.drop (req.StartRow.getD 0).toNat)).foldl
              GoFloat64.add GoFloat64.zero)
            (GoFloat64.ofInt
              ((numericValues req.MainColumn
                (data.drop (req.StartRow.getD 0).toNat)).length : Int)))
      ∧ (req.Operation = "count" →
          x = GoFloat64.ofInt
            ((numericValues req.MainColumn (data.drop (req.StartRow.getD 0).toNat)).length : Int))
      ∧ (req.Operation = "max" →
          x ∈ numericValues req.MainColumn (data.drop (req.StartRow.getD 0).toNat)
          ∧ (∀ v ∈ numericValues req.MainColumn (data.drop (req.StartRow.getD 0).toNat),
              GoFloat64.lt x v = false)
          ∧ ((∀ a ∈ numericValues req.MainColumn (data.drop (req.StartRow.getD 0).toNat),
                ∀ b ∈ numericValues req.MainColumn (data.drop (req.StartRow.getD 0).toNat),
                  GoFloat64.lt a b = true ∨ GoFloat64.eq a b = true
                    ∨ GoFloat64.lt b a = true) →
              ∀ v ∈ numericValues req.MainColumn (data.drop (req.StartRow.getD 0).toNat),
                GoFloat64.lt v x = true ∨ GoFloat64.eq v x = true))
      ∧ (req.Operation = "min" →
          x ∈ numericValues req.MainColumn (data.drop (req.StartRow.getD 0).toNat)
          ∧ (∀ v ∈ numericValues req.MainColumn (data.drop (req.StartRow.getD 0).toNat),
              GoFloat64.lt v x = false)
          ∧ ((∀ a ∈ numericValues req.MainColumn (data.drop (req.StartRow.getD 0).toNat),
                ∀ b ∈ numericValues req.MainColumn (data.drop (req.StartRow.getD 0).toNat),
                  GoFloat64.lt a b = true ∨ GoFloat64.eq a b = true
                    ∨ GoFloat64.lt b a = true) →
              ∀ v ∈ numericValues req.MainColumn (data.drop (req.StartRow.getD 0).toNat),
                GoFloat64.lt x v = true ∨ GoFloat64.eq x v = true)) := by
  have hmat : ∀ r ∈ data, ∀ s : String, r.get req.MainColumn = some (.str s) →
      (parseNumberWithCommas s : Option F) = none :=
    fun r hr s hs => GetSheetData_text_cells disk file.FilePath req.SheetName data hdata r hr _ s hs
  unfold CalculateColumnWithFile at hres
  rw [hdata] at hres
  simp only [] at hres
  have hlen : data.length ≠ 0 := by
    intro h
    obtain ⟨e, he⟩ := calculateColumnData_empty data req h
    rw [he] at hres
    cases hres
  have hstart : ∀ s, req.StartRow = some s → ¬ (s < 0 ∨ s ≥ (data.length : Int)) := by
    intro s hs hbad
    obtain ⟨e, he⟩ := calculateColumnData_bad_start data req s hs hbad
    rw [he] at hres
    cases hres
  rw [calculateColumnData_valid data req hlen hstart] at hres
  obtain ⟨herr, hok⟩ := aggregateFrom_spec data req (req.StartRow.getD 0) hmat
  have hne : numericValues req.MainColumn (data.drop (req.StartRow.getD 0).toNat) ≠ [] := by
    intro h
    obtain ⟨e, he⟩ := herr (Or.inl h)
    rw [he] at hres
    cases hres
  cases hop : columnOperation req.Operation
      (numericValues req.MainColumn (data.drop (req.StartRow.getD 0).toNat)) with
  | none =>
    obtain ⟨e, he⟩ := herr (Or.inr hop)
    rw [he] at hres
    cases hres
  | some x =>
    obtain ⟨res2, hres2, hsum, hentry⟩ := hok hne x hop
    rw [hres] at hres2
    have hsame : res2 = res := (Except.ok.inj hres2).symm
    subst hsame
    obtain ⟨v0, rest, hV⟩ := List.exists_cons_of_ne_nil hne
    rw [hV] at hop ⊢
    obtain ⟨h1, h2, h3, h4, h5⟩ := columnOperation_values req.Operation v0 rest x hop
    refine ⟨x, by rw [hsum, GoMap.get_set_self], hentry, h1, h2, h3, ?_, ?_⟩
    · intro hmax
      obtain ⟨hmem, hall⟩ := h4 hmax
      refine ⟨hmem, hall, ?_⟩
      intro hcomp v hv
      rcases hcomp v hv x hmem with h | h | h
      · exact Or.inl h
      · exact Or.inr h
      · rw [hall v hv] at h
        cases h
    · intro hmin
      obtain ⟨hmem, hall⟩ := h5 hmin
      refine ⟨hmem, hall, ?_⟩
      intro hcomp v hv
      rcases hcomp x hmem v hv with h | h | h
      · exact Or.inl h
      · exact Or.inr h
      · rw [hall v hv] at h
        cases h

theorem CalculateColumnWithFile_values_witness :
    ∃ (data : List (Row Exact)) (res : CalculationResult Exact),
      GetSheetData (sampleDisk negativeRows "A") "book.xlsx" "Sheet1" = .ok data
      ∧ CalculateColumnWithFile (sampleDisk negativeRows "A") sampleExcelFile
          (sampleRequest "A" [] "max" none) = .ok res
      ∧ numericValues "A" data = [.fin (-3) 0, .fin (-1) 0, .fin (-2) 0]
      ∧ res.Summary.get "max" = some (.fin (-1) 0)
      ∧ ∀ v ∈ numericValues "A" data,
          GoFloat64.lt v (Exact.fin (-1) 0) = true ∨ GoFloat64.eq v (Exact.fin (-1) 0) = true := by
  obtain ⟨res, hres⟩ : ∃ res : CalculationResult Exact,
      CalculateColumnWithFile (sampleDisk negativeRows "A") sampleExcelFile
        (sampleRequest "A" [] "max" none) = .ok res := ⟨_, rfl⟩
  obtain ⟨x, hx, _, _, _, _, hmax, _⟩ :=
    CalculateColumnWithFile_values (F := Exact) (sampleDisk negativeRows "A") sampleExcelFile
      (sampleRequest "A" [] "max" none) _ res rfl hres
  obtain ⟨hmem, hall, hgreatest⟩ := hmax rfl
  have key : ∀ V : List Exact, V = [.fin (-3) 0, .fin (-1) 0, .fin (-2) 0] → x ∈ V →
      (∀ v ∈ V, GoFloat64.lt x v = false) → x = .fin (-1) 0 := by
    intro V hV hm ha
    subst hV
    simp only [List.mem_cons, List.mem_singleton, List.not_mem_nil, or_false] at hm
    rcases hm with h | h | h
    · subst h
      exact absurd (ha (.fin (-1) 0) (by decide)) (by decide)
    · exact h
    · subst h
      exact absurd (ha (.fin (-1) 0) (by decide)) (by decide)
  have hval : x = .fin (-1) 0 := key _ (by decide) hmem hall
  subst hval
  exact ⟨_, res, rfl, hres, by decide, hx, hgreatest (by decide)⟩

/-- C6 (as stated) fails on a column that holds NaN: on the cells NaN, 5 the list V
is NaN, 5 and both max and min return NaN, which is neither the greatest nor the
least element of V (5 is not below NaN, not above it and not equal to it). -/
theorem CalculateColumnWithFile_values_counterexample :
    (GoFloat64.ParseFloat "NaN" : Option Exact) = some .nan
    ∧ ∃ (data : List (Row Exact)) (high low : CalculationResult Exact),
      GetSheetData (sampleDisk [["NaN"], ["5"]] "A") "book.xlsx" "Sheet1" = .ok data
      ∧ numericValues "A" data = [.nan, .fin 5 0]
      ∧ CalculateColumnWithFile (sampleDisk [["NaN"], ["5"]] "A") sampleExcelFile
          (sampleRequest "A" [] "max" none) = .ok high
      ∧ high.Summary.get "max" = some .nan
      ∧ CalculateColumnWithFile (sampleDisk [["NaN"], ["5"]] "A") sampleExcelFile
          (sampleRequest "A" [] "min" none) = .ok low
      ∧ low.Summary.get "min" = some .nan
      ∧ GoFloat64.lt (Exact.fin 5 0) Exact.nan = false
      ∧ GoFloat64.eq (Exact.fin 5 0) Exact.nan = false
      ∧ GoFloat64.lt Exact.nan (Exact.fin 5 0) = false
      ∧ GoFloat64.eq Exact.nan (Exact.fin 5 0) = false := by
  refine ⟨by decide, _, _, _, rfl, by decide, rfl, by decide, rfl, by decide, ?_⟩
  decide

/-- C7: on a readable sheet `CalculateColumnWithFile` returns an error if and only
if the sheet has no rows, or a supplied startRow is negative or at least the row
count, or no numeric value occurs in the column at or after startRow, or the
operation is not one of sum, average, count, max, min; in every other case it
returns a numeric result. -/
theorem CalculateColumnWithFile_error_iff (disk : Disk) (file : ExcelFile)
    (req : CalculationRequest) (f : File) (rows : List (List String))
    (hopen : disk file.FilePath = .ok f) (hrows : f.GetRows req.SheetName = .ok rows) :
    ∃ data : List (Row F), GetSheetData disk file.FilePath req.SheetName = .ok data
      ∧ data.length = rows.length
      ∧ ((∃ e, (CalculateColumnWithFile disk file req : Except String (CalculationResult F))
            = .error e)
          ↔ (rows.length = 0
            ∨ (∃ s, req.StartRow = some s ∧ (s < 0 ∨ s ≥ (rows.length : Int)))
            ∨ numericValues req.MainColumn (data.drop (req.StartRow.getD 0).toNat) = []
            ∨ ¬ (req.Operation = "sum" ∨ req.Operation = "average" ∨ req.Operation = "count"
                ∨ req.Operation = "max" ∨ req.Operation = "min")))
      ∧ ((¬ ∃ e, (CalculateColumnWithFile disk file req : Except String (CalculationResult F))
            = .error e) →
          ∃ (res : CalculationResult F) (x : F), CalculateColumnWithFile disk file req = .ok res
            ∧ res.Summary.get req.Operation = some x
            ∧ ∃ entry, res.Results = [entry] ∧ entry.get "result" = some (.float x)) := by
  obtain ⟨data, hdata, hlen, _⟩ :=
    GetSheetData_row (F := F) disk file.FilePath req.SheetName f rows hopen hrows
  have hmat : ∀ r ∈ data, ∀ s : String, r.get req.MainColumn = some (.str s) →
      (parseNumberWithCommas s : Option F) = none :=
    fun r hr s hs => GetSheetData_text_cells disk file.FilePath req.SheetName data hdata r hr _ s hs
  have hcall : (CalculateColumnWithFile disk file req : Except String (CalculationResult F))
      = calculateColumnData data req := by
    unfold CalculateColumnWithFile
    rw [hdata]
  obtain ⟨herr, hok⟩ := aggregateFrom_spec data req (req.StartRow.getD 0) hmat
  have hiff : (∃ e, (CalculateColumnWithFile disk file req
        : Except String (CalculationResult F)) = .error e)
      ↔ (rows.length = 0
        ∨ (∃ s, req.StartRow = some s ∧ (s < 0 ∨ s ≥ (rows.length : Int)))
        ∨ numericValues req.MainColumn (data.drop (req.StartRow.getD 0).toNat) = []
        ∨ ¬ (req.Operation = "sum" ∨ req.Operation = "average" ∨ req.Operation = "count"
            ∨ req.Operation = "max" ∨ req.Operation = "min")) := by
    rw [hcall, ← hlen]
    by_cases h0 : data.length = 0
    · exact ⟨fun _ => Or.inl h0, fun _ => calculateColumnData_empty data req h0⟩
    · by_cases hbad : ∃ s, req.StartRow = some s ∧ (s < 0 ∨ s ≥ (data.length : Int))
      · obtain ⟨s, hs, hb⟩ := hbad
        exact ⟨fun _ => Or.inr (Or.inl ⟨s, hs, hb⟩),
          fun _ => calculateColumnData_bad_start data req s hs hb⟩
      · have hstart : ∀ s, req.StartRow = some s → ¬ (s < 0 ∨ s ≥ (data.length : Int)) :=
          fun s hs hb => hbad ⟨s, hs, hb⟩
        rw [calculateColumnData_valid data req h0 hstart]
        constructor
        · rintro ⟨e, he⟩
          by_cases hnil : numericValues req.MainColumn
              (data.drop (req.StartRow.getD 0).toNat) = []
          · exact Or.inr (Or.inr (Or.inl hnil))
          · cases hop : columnOperation req.Operation
                (numericValues req.MainColumn (data.drop (req.StartRow.getD 0).toNat)) with
            | none => exact Or.inr (Or.inr (Or.inr ((columnOperation_none _ _).mp hop)))
            | some x =>
              obtain ⟨res, hres, _⟩ := hok hnil x hop
              rw [hres] at he
              cases he
        · rintro (h | h | h | h)
          · exact absurd h h0
          · exact absurd h hbad
          · exact herr (Or.inl h)
          · exact herr (Or.inr ((columnOperation_none _ _).mpr h))
  refine ⟨data, hdata, hlen, hiff, ?_⟩
  intro hnoerr
  rw [hiff] at hnoerr
  have h0 : rows.length ≠ 0 := fun h => hnoerr (Or.inl h)
  have hbad : ¬ ∃ s, req.StartRow = some s ∧ (s < 0 ∨ s ≥ (rows.length : Int)) :=
    fun h => hnoerr (Or.inr (Or.inl h))
  have hnil : numericValues req.MainColumn (data.drop (req.StartRow.getD 0).toNat) ≠ [] :=
    fun h => hnoerr (Or.inr (Or.inr (Or.inl h)))
  have hop : req.Operation = "sum" ∨ req.Operation = "average" ∨ req.Operation = "count"
      ∨ req.Operation = "max" ∨ req.Operation = "min" := by
    by_contra h
    exact hnoerr (Or.inr (Or.inr (Or.inr h)))
  have h0d : data.length ≠ 0 := by omega
  have hstart : ∀ s, req.StartRow = some s → ¬ (s < 0 ∨ s ≥ (data.length : Int)) := by
    intro s hs hb
    rw [hlen] at hb
    exact hbad ⟨s, hs, hb⟩
  cases hcol : columnOperation req.Operation
      (numericValues req.MainColumn (data.drop (req.StartRow.getD 0).toNat)) with
  | none => exact absurd hop ((columnOperation_none _ _).mp hcol)
  | some x =>
    obtain ⟨res, hres, hsum, hentry⟩ := hok hnil x hcol
    refine ⟨res, x, ?_, by rw [hsum, GoMap.get_set_self], hentry⟩
    rw [hcall, calculateColumnData_valid data req h0d hstart, hres]

theorem CalculateColumnWithFile_error_iff_witness :
    sampleDisk negativeRows "A" sampleExcelFile.FilePath = .ok (sampleFile negativeRows "A")
    ∧ (sampleFile negativeRows "A").GetRows "Sheet1" = .ok negativeRows
    ∧ (∃ e, (CalculateColumnWithFile (sampleDisk negativeRows "A") sampleExcelFile
          (sampleRequest "A" [] "median" none) : Except String (CalculationResult Exact))
        = .error e)
    ∧ (∃ e, (CalculateColumnWithFile (sampleDisk negativeRows "A") sampleExcelFile
          (sampleRequest "A" [] "sum" (some 5)) : Except String (CalculationResult Exact))
        = .error e) := by
  refine ⟨rfl, rfl, ?_, ?_⟩
  · obtain ⟨data, _, _, hiff, _⟩ :=
      CalculateColumnWithFile_error_iff (F := Exact) (sampleDisk negativeRows "A") sampleExcelFile
        (sampleRequest "A" [] "median" none) (sampleFile negativeRows "A") negativeRows rfl rfl
    exact hiff.mpr (Or.inr (Or.inr (Or.inr (by decide))))
  · obtain ⟨data, _, _, hiff, _⟩ :=
      CalculateColumnWithFile_error_iff (F := Exact) (sampleDisk negativeRows "A") sampleExcelFile
        (sampleRequest "A" [] "sum" (some 5)) (sampleFile negativeRows "A") negativeRows rfl rfl
    exact hiff.mpr (Or.inr (Or.inl ⟨5, rfl, Or.inr (by decide)⟩))

/-! ## Merging into a template -/

theorem writeValue_eq {W : Type} (rt : Runtime F W) (w : W) (templateSheet cellRef : String)
    (value : Json F) :
    writeValue rt w templateSheet cellRef value = rt.SetCellValue w templateSheet cellRef value := by
  cases value <;> rfl

/-- A run of the single-target loop that ends without error made exactly the
specified writes, in order, and holds the workbook they produce. -/
theorem mergeLoop_ok {W : Type} (rt : Runtime F W) (templateSheet targetColumn : String)
    (startRow : F) :
    ∀ (entries : List (Json F)) (i : Nat) (w : W) (calls cs : List (Call F W)) (w2 : W),
      mergeLoop rt templateSheet targetColumn startRow entries i w calls = (cs, .ok w2) →
      cs = calls ++ (singleTargetWrites templateSheet targetColumn (GoFloat64.toInt startRow)
          entries i).map writeCall
      ∧ applyWrites rt w (singleTargetWrites templateSheet targetColumn
          (GoFloat64.toInt startRow) entries i) = .ok w2 := by
  intro entries
  induction entries with
  | nil =>
    intro i w calls cs w2 h
    simp only [mergeLoop, Prod.mk.injEq, Except.ok.injEq] at h
    simp [singleTargetWrites, applyWrites, h.1, h.2]
  | cons e rest ih =>
    intro i w calls cs w2 h
    cases e with
    | obj dataMap =>
      cases hv : GoMap.get dataMap "value" with
      | none =>
        simp only [mergeLoop, hv] at h
        simp only [singleTargetWrites, entryValue, hv]
        exact ih _ _ _ _ _ h
      | some value =>
        simp only [mergeLoop, hv, writeValue_eq] at h
        simp only [singleTargetWrites, entryValue, hv, applyWrites, List.map_cons]
        cases hw : rt.SetCellValue w templateSheet
            (targetColumn ++ toString (GoFloat64.toInt startRow + (i : Int))) value with
        | error err =>
          rw [hw] at h
          simp at h
        | ok w3 =>
          rw [hw] at h
          obtain ⟨h1, h2⟩ := ih _ _ _ _ _ h
          refine ⟨?_, h2⟩
          rw [h1]
          simp [writeCall]
    | null => exact ih _ _ _ _ _ (by simpa [mergeLoop] using h)
    | bool b => exact ih _ _ _ _ _ (by simpa [mergeLoop] using h)
    | num x => exact ih _ _ _ _ _ (by simpa [mergeLoop] using h)
    | str x => exact ih _ _ _ _ _ (by simpa [mergeLoop] using h)
    | arr x => exact ih _ _ _ _ _ (by simpa [mergeLoop] using h)

theorem mergeLoop_total {W : Type} (rt : Runtime F W) (templateSheet targetColumn : String)
    (startRow : F) (htotal : ∀ w sheet cell v, ∃ w2, rt.SetCellValue w sheet cell v = .ok w2) :
    ∀ (entries : List (Json F)) (i : Nat) (w : W) (calls : List (Call F W)),
      ∃ cs w2, mergeLoop rt templateSheet targetColumn startRow entries i w calls = (cs, .ok w2) := by
  intro entries
  induction entries with
  | nil => intro i w calls; exact ⟨_, _, rfl⟩
  | cons e rest ih =>
    intro i w calls
    cases e with
    | obj dataMap =>
      cases hv : GoMap.get dataMap "value" with
      | none =>
        simp only [mergeLoop, hv]
        exact ih _ _ _
      | some value =>
        obtain ⟨w3, hw⟩ := htotal w templateSheet
          (targetColumn ++ toString (GoFloat64.toInt startRow + (i : Int))) value
        simp only [mergeLoop, hv, writeValue_eq, hw]
        exact ih _ _ _
    | null => simpa [mergeLoop] using ih (i + 1) w calls
    | bool b => simpa [mergeLoop] using ih (i + 1) w calls
    | num x => simpa [mergeLoop] using ih (i + 1) w calls
    | str x => simpa [mergeLoop] using ih (i + 1) w calls
    | arr x => simpa [mergeLoop] using ih (i + 1) w calls

/-- An observation of the workbook that no write to a listed cell changes is the
same after all the listed writes. -/
theorem applyWrites_frame {W α : Type} (rt : Runtime F W) (read : W → α) :
    ∀ (writes : List (String × String × Json F)) (w w2 : W),
      (∀ (w1 w3 : W) (sheet cell : String) (v : Json F),
        (sheet, cell) ∈ writes.map (fun x => (x.1, x.2.1)) →
        rt.SetCellValue w1 sheet cell v = .ok w3 → read w3 = read w1) →
      applyWrites rt w writes = .ok w2 → read w2 = read w := by
  intro writes
  induction writes with
  | nil =>
    intro w w2 _ h
    simp only [applyWrites, Except.ok.injEq] at h
    rw [h]
  | cons x rest ih =>
    intro w w2 hinv h
    obtain ⟨sheet, cell, v⟩ := x
    simp only [applyWrites] at h
    cases hw : rt.SetCellValue w sheet cell v with
    | error e =>
      rw [hw] at h
      cases h
    | ok w3 =>
      rw [hw] at h
      have h1 : read w3 = read w := hinv w w3 sheet cell v (by simp) hw
      have h2 : read w2 = read w3 :=
        ih w3 w2 (fun w1 w4 s c v2 hm hs => hinv w1 w4 s c v2 (by
          simp only [List.map_cons, List.mem_cons]
          exact Or.inr hm) hs) h
      rw [h2, h1]

theorem saveMerged_ok {W : Type} (rt : Runtime F W) (w : W) (calls : List (Call F W))
    (outputPath path : String) (h : (saveMerged rt w calls outputPath).ret = .ok path) :
    path = outputPath
    ∧ (saveMerged rt w calls outputPath).calls
        = calls ++ [.MkdirAll "exports", .SaveAs w outputPath] := by
  unfold saveMerged at h ⊢
  cases hm : rt.MkdirAll "exports" with
  | error e =>
    rw [hm] at h
    cases h
  | ok u =>
    rw [hm] at h
    simp only [] at h ⊢
    cases hs : rt.SaveAs w outputPath with
    | error e =>
      rw [hs] at h
      cases h
    | ok u2 =>
      rw [hs] at h
      simp only [Except.ok.injEq] at h
      exact ⟨h.symm, rfl⟩

theorem saveMerged_total {W : Type} (rt : Runtime F W) (w : W) (calls : List (Call F W))
    (outputPath : String) (hm : rt.MkdirAll "exports" = .ok ())
    (hs : rt.SaveAs w outputPath = .ok ()) :
    (saveMerged rt w calls outputPath).ret = .ok outputPath := by
  unfold saveMerged
  rw [hm]
  simp only []
  rw [hs]

theorem MergeDataToTemplate_eq {W : Type} (rt : Runtime F W) (templatePath : String)
    (mergeData : GoMap (Json F)) (f : W) (targetColumn templateSheet : String) (startRow : F)
    (calculatedData : List (Json F)) (hopen : rt.OpenFile templatePath = .ok f)
    (htc : mergeData.get "targetColumn" = some (.str targetColumn))
    (hsr : mergeData.get "startRow" = some (.num startRow))
    (hts : mergeData.get "templateSheet" = some (.str templateSheet))
    (hcd : mergeData.get "calculatedData" = some (.arr calculatedData)) :
    MergeDataToTemplate rt templatePath mergeData
      = match mergeLoop rt templateSheet targetColumn startRow calculatedData 0 f [] with
        | (calls, .error e) => { calls := calls, ret := .error e }
        | (calls, .ok w) =>
          saveMerged rt w calls ("exports/merged_" ++ toString rt.Unix ++ ".xlsx") := by
  unfold MergeDataToTemplate
  simp only [hopen, htc, hsr, hts, hcd]

/-- C3: `MergeDataToTemplate` writes, for every index i of the supplied value
sequence, the i-th value to cell `<targetColumn><startRow+i>` of the template
sheet, and writes no other cell: a call that returns a path made exactly those
writes, in order, then saved the resulting workbook under that path, so every
observation of the workbook that writes to the addressed cells leave alone (in
particular the content of any other cell) is the same as in the template.  With a
runtime whose calls succeed the call does return a path. -/
theorem MergeDataToTemplate_writes {W : Type} (rt : Runtime F W) (templatePath : String)
    (mergeData : GoMap (Json F)) (f : W) (targetColumn templateSheet : String) (startRow : F)
    (calculatedData : List (Json F)) (hopen : rt.OpenFile templatePath = .ok f)
    (htc : mergeData.get "targetColumn" = some (.str targetColumn))
    (hsr : mergeData.get "startRow" = some (.num startRow))
    (hts : mergeData.get "templateSheet" = some (.str templateSheet))
    (hcd : mergeData.get "calculatedData" = some (.arr calculatedData)) :
    ((∀ w sheet cell v, ∃ w2, rt.SetCellValue w sheet cell v = .ok w2) →
      (∀ p, rt.MkdirAll p = .ok ()) → (∀ w p, rt.SaveAs w p = .ok ()) →
      ∃ path, (MergeDataToTemplate rt templatePath mergeData).ret = .ok path)
    ∧ ∀ path, (MergeDataToTemplate rt templatePath mergeData).ret = .ok path →
        ∃ w : W,
          (MergeDataToTemplate rt templatePath mergeData).calls
            = (singleTargetWrites templateSheet targetColumn (GoFloat64.toInt startRow)
                calculatedData 0).map writeCall ++ [.MkdirAll "exports", .SaveAs w path]
          ∧ applyWrites rt f (singleTargetWrites templateSheet targetColumn
              (GoFloat64.toInt startRow) calculatedData 0) = .ok w
          ∧ ∀ (α : Type) (read : W → α),
              (∀ (w1 w3 : W) (sheet cell : String) (v : Json F),
                (sheet, cell) ∈ (singleTargetWrites templateSheet targetColumn
                    (GoFloat64.toInt startRow) calculatedData 0).map (fun x => (x.1, x.2.1)) →
                rt.SetCellValue w1 sheet cell v = .ok w3 → read w3 = read w1) →
              read w = read f := by
  have heq := MergeDataToTemplate_eq rt templatePath mergeData f targetColumn templateSheet
    startRow calculatedData hopen htc hsr hts hcd
  constructor
  · intro htotal hmk hsave
    obtain ⟨cs, w2, hloop⟩ := mergeLoop_total rt templateSheet targetColumn startRow htotal
      calculatedData 0 f []
    rw [heq, hloop]
    exact ⟨_, saveMerged_total rt w2 cs _ (hmk _) (hsave _ _)⟩
  · intro path hret
    rw [heq] at hret ⊢
    cases hloop : mergeLoop rt templateSheet targetColumn startRow calculatedData 0 f [] with
    | mk cs r =>
      rw [hloop] at hret
      cases r with
      | error e => cases hret
      | ok w =>
        simp only [] at hret ⊢
        obtain ⟨hpath, hcalls⟩ := saveMerged_ok rt w cs _ path hret
        obtain ⟨hcs, happly⟩ := mergeLoop_ok rt templateSheet targetColumn startRow
          calculatedData 0 f [] cs w hloop
        refine ⟨w, ?_, happly, ?_⟩
        · rw [hcalls, hcs, hpath]
          simp
        · intro α read hinv
          exact applyWrites_frame rt read _ f w hinv happly

theorem MergeDataToTemplate_writes_witness :
    sampleRuntime.OpenFile "template.xlsx" = .ok templateBook
    ∧ (MergeDataToTemplate sampleRuntime "template.xlsx" singleMergeData).ret
        = .ok "exports/merged_1700000000.xlsx"
    ∧ ∃ w : SampleBook,
        (MergeDataToTemplate sampleRuntime "template.xlsx" singleMergeData).calls
          = [.SetCellValue "Sheet1" "L11" (.num (.fin 7 0)),
             .SetCellValue "Sheet1" "L12" (.num (.fin 9 0)),
             .SetCellValue "Sheet1" "L13" (.num (.fin 11 0)),
             .MkdirAll "exports", .SaveAs w "exports/merged_1700000000.xlsx"]
        ∧ readCell w "Sheet1" "L11" = some "7" ∧ readCell w "Sheet1" "L12" = some "9"
        ∧ readCell w "Sheet1" "L13" = some "11"
        ∧ readCell w "Sheet1" "L10" = readCell templateBook "Sheet1" "L10"
        ∧ readCell w "Sheet1" "K11" = readCell templateBook "Sheet1" "K11"
        ∧ readCell w "Sheet1" "L14" = readCell templateBook "Sheet1" "L14"
        ∧ readCell w "Sheet1" "M11" = readCell templateBook "Sheet1" "M11" := by
  have hret : (MergeDataToTemplate sampleRuntime "template.xlsx" singleMergeData).ret
      = .ok "exports/merged_1700000000.xlsx" := rfl
  refine ⟨rfl, hret, ?_⟩
  obtain ⟨w, hcalls, happly, _⟩ :=
    (MergeDataToTemplate_writes (F := Exact) sampleRuntime "template.xlsx" singleMergeData
      templateBook "L" "Sheet1" (.fin 11 0)
      [.obj [("value", .num (.fin 7 0))], .obj [("value", .num (.fin 9 0))],
        .obj [("value", .num (.fin 11 0))]] rfl rfl rfl rfl rfl).2 _ hret
  have hw : w = [(("Sheet1", "L13"), "11"), (("Sheet1", "L12"), "9"), (("Sheet1", "L11"), "7"),
      (("Sheet1", "L10"), "Income"), (("Sheet1", "K11"), "unit"), (("Sheet1", "L14"), "total")] := by
    have h2 : applyWrites sampleRuntime templateBook
        (singleTargetWrites "Sheet1" "L" (GoFloat64.toInt (Exact.fin 11 0))
          [.obj [("value", .num (.fin 7 0))], .obj [("value", .num (.fin 9 0))],
            .obj [("value", .num (.fin 11 0))]] 0)
        = .ok [(("Sheet1", "L13"), "11"), (("Sheet1", "L12"), "9"), (("Sheet1", "L11"), "7"),
            (("Sheet1", "L10"), "Income"), (("Sheet1", "K11"), "unit"),
            (("Sheet1", "L14"), "total")] := rfl
    rw [h2] at happly
    exact (Except.ok.inj happly).symm
  subst hw
  refine ⟨[(("Sheet1", "L13"), "11"), (("Sheet1", "L12"), "9"), (("Sheet1", "L11"), "7"),
      (("Sheet1", "L10"), "Income"), (("Sheet1", "K11"), "unit"), (("Sheet1", "L14"), "total")],
    ?_, by decide, by decide, by decide, by decide, by decide, by decide, by decide⟩
  rw [hcalls]
  rfl

/-- One round of the multi-target entry loop, by the shape of the entry. -/
theorem multiLoop_cons {W : Type} (rt : Runtime F W) (templateSheet targetColumn : String)
    (e : Json F) (rest : List (Json F)) (i : Nat) (w : W) (calls : List (Call F W)) :
    multiLoop rt templateSheet targetColumn (e :: rest) i w calls
      = match entryValue e with
        | none => multiLoop rt templateSheet targetColumn rest (i + 1) w calls
        | some value =>
          match entryTargetRow e with
          | none => (calls, .error ("targetRow not found in calculated data for row " ++ toString i))
          | some targetRow =>
            match rt.SetCellValue w templateSheet
                (targetColumn ++ toString (GoFloat64.toInt targetRow)) value with
            | .error err =>
              (calls ++ [.SetCellValue templateSheet
                  (targetColumn ++ toString (GoFloat64.toInt targetRow)) value],
                .error ("failed to set cell " ++ (targetColumn ++ toString (GoFloat64.toInt targetRow))
                  ++ ": " ++ err))
            | .ok w2 =>
              multiLoop rt templateSheet targetColumn rest (i + 1) w2
                (calls ++ [.SetCellValue templateSheet
                  (targetColumn ++ toString (GoFloat64.toInt targetRow)) value]) := by
  cases e with
  | obj dataMap =>
    cases hv : GoMap.get dataMap "value" with
    | none => simp [multiLoop, entryValue, hv]
    | some value =>
      cases ht : GoMap.get dataMap "targetRow" with
      | none => simp [multiLoop, entryValue, entryTargetRow, hv, ht]
      | some tr =>
        cases tr with
        | num x =>
          simp only [multiLoop, entryValue, entryTargetRow, hv, ht, writeValue_eq]
        | null => simp [multiLoop, entryValue, entryTargetRow, hv, ht]
        | bool b => simp [multiLoop, entryValue, entryTargetRow, hv, ht]
        | str x => simp [multiLoop, entryValue, entryTargetRow, hv, ht]
        | arr x => simp [multiLoop, entryValue, entryTargetRow, hv, ht]
        | obj x => simp [multiLoop, entryValue, entryTargetRow, hv, ht]
  | null => simp [multiLoop, entryValue]
  | bool b => simp [multiLoop, entryValue]
  | num x => simp [multiLoop, entryValue]
  | str x => simp [multiLoop, entryValue]
  | arr x => simp [multiLoop, entryValue]

/-- One round of the loop over the merge targets. -/
theorem columnLoop_cons {W : Type} (rt : Runtime F W) (templateSheet : String)
    (t : Json F) (rest : List (Json F)) (w : W) (calls : List (Call F W)) :
    columnLoop rt templateSheet (t :: rest) w calls
      = match targetOf t with
        | none => columnLoop rt templateSheet rest w calls
        | some target =>
          match multiLoop rt templateSheet target.1 target.2 0 w calls with
          | (calls2, .error e) => (calls2, .error e)
          | (calls2, .ok w2) => columnLoop rt templateSheet rest w2 calls2 := by
  cases t with
  | obj columnMap =>
    cases hc : GoMap.get columnMap "targetColumn" with
    | none => simp [columnLoop, targetOf, hc]
    | some tc =>
      cases tc with
      | str targetColumn =>
        cases hd : GoMap.get columnMap "calculatedData" with
        | none => simp [columnLoop, targetOf, hc, hd]
        | some cd =>
          cases cd with
          | arr calculatedData => simp [columnLoop, targetOf, hc, hd]
          | null => simp [columnLoop, targetOf, hc, hd]
          | bool b => simp [columnLoop, targetOf, hc, hd]
          | num x => simp [columnLoop, targetOf, hc, hd]
          | str x => simp [columnLoop, targetOf, hc, hd]
          | obj x => simp [columnLoop, targetOf, hc, hd]
      | null => simp [columnLoop, targetOf, hc]
      | bool b => simp [columnLoop, targetOf, hc]
      | num x => simp [columnLoop, targetOf, hc]
      | arr x => simp [columnLoop, targetOf, hc]
      | obj x => simp [columnLoop, targetOf, hc]
  | null => simp [columnLoop, targetOf]
  | bool b => simp [columnLoop, targetOf]
  | num x => simp [columnLoop, targetOf]
  | str x => simp [columnLoop, targetOf]
  | arr x => simp [columnLoop, targetOf]

/-- The multi-target entry loop: it only adds cell writes to the calls, an error it
returns is the missing-`targetRow` error or a failed write (the former when writes
cannot fail), and an entry that lacks its destination row makes it return an
error. -/
theorem multiLoop_spec {W : Type} (rt : Runtime F W) (templateSheet targetColumn : String) :
    ∀ (entries : List (Json F)) (i : Nat) (w : W) (calls : List (Call F W)),
      (∃ extra, (multiLoop rt templateSheet targetColumn entries i w calls).1 = calls ++ extra
          ∧ ∀ c ∈ extra, ∃ sheet cell v, c = Call.SetCellValue sheet cell v)
      ∧ (∀ msg, (multiLoop rt templateSheet targetColumn entries i w calls).2 = .error msg →
          (∃ j : Nat, msg = "targetRow not found in calculated data for row " ++ toString j)
          ∨ (∃ cell err, msg = "failed to set cell " ++ cell ++ ": " ++ err))
      ∧ ((∀ w sheet cell v, ∃ w2, rt.SetCellValue w sheet cell v = .ok w2) →
          ∀ msg, (multiLoop rt templateSheet targetColumn entries i w calls).2 = .error msg →
          ∃ j : Nat, msg = "targetRow not found in calculated data for row " ++ toString j)
      ∧ ((∃ e ∈ entries, lacksTargetRow e = true) →
          ∃ msg, (multiLoop rt templateSheet targetColumn entries i w calls).2 = .error msg) := by
  intro entries
  induction entries with
  | nil =>
    intro i w calls
    refine ⟨⟨[], by simp [multiLoop], by simp⟩, ?_, ?_, ?_⟩
    · intro msg h
      simp [multiLoop] at h
    · intro _ msg h
      simp [multiLoop] at h
    · rintro ⟨e, he, _⟩
      cases he
  | cons e rest ih =>
    intro i w calls
    rw [multiLoop_cons]
    cases hv : entryValue e with
    | none =>
      simp only []
      obtain ⟨h1, h2, h3, h4⟩ := ih (i + 1) w calls
      refine ⟨h1, h2, h3, ?_⟩
      rintro ⟨e2, he2, hl⟩
      rcases List.mem_cons.mp he2 with heq | hmem
      · subst heq
        simp [lacksTargetRow, hv] at hl
      · exact h4 ⟨e2, hmem, hl⟩
    | some value =>
      simp only []
      cases ht : entryTargetRow e with
      | none =>
        simp only []
        refine ⟨⟨[], by simp, by simp⟩, ?_, ?_, ?_⟩
        · intro msg h
          simp only [Except.error.injEq] at h
          exact Or.inl ⟨i, h.symm⟩
        · intro _ msg h
          simp only [Except.error.injEq] at h
          exact ⟨i, h.symm⟩
        · intro _
          exact ⟨_, rfl⟩
      | some targetRow =>
        simp only []
        cases hw : rt.SetCellValue w templateSheet
            (targetColumn ++ toString (GoFloat64.toInt targetRow)) value with
        | error err =>
          simp only []
          refine ⟨⟨[_], rfl, ?_⟩, ?_, ?_, ?_⟩
          · intro c hc
            rw [List.mem_singleton] at hc
            exact ⟨_, _, _, hc⟩
          · intro msg h
            simp only [Except.error.injEq] at h
            exact Or.inr ⟨_, _, h.symm⟩
          · intro htotal msg _
            obtain ⟨w2, hok⟩ := htotal w templateSheet
              (targetColumn ++ toString (GoFloat64.toInt targetRow)) value
            rw [hw] at hok
            cases hok
          · intro _
            exact ⟨_, rfl⟩
        | ok w2 =>
          simp only []
          obtain ⟨⟨extra, hex, hwr⟩, h2, h3, h4⟩ := ih (i + 1) w2
            (calls ++ [.SetCellValue templateSheet
              (targetColumn ++ toString (GoFloat64.toInt targetRow)) value])
          refine ⟨⟨Call.SetCellValue templateSheet
              (targetColumn ++ toString (GoFloat64.toInt targetRow)) value :: extra,
            by rw [hex]; simp, ?_⟩, h2, h3, ?_⟩
          · intro c hc
            rcases List.mem_cons.mp hc with hc | hc
            · exact ⟨_, _, _, hc⟩
            · exact hwr c hc
          · rintro ⟨e2, he2, hl⟩
            rcases List.mem_cons.mp he2 with heq | hmem
            · subst heq
              simp [lacksTargetRow, ht] at hl
            · exact h4 ⟨e2, hmem, hl⟩

/-- The loop over the merge targets, with the same four properties. -/
theorem columnLoop_spec {W : Type} (rt : Runtime F W) (templateSheet : String) :
    ∀ (targets : List (Json F)) (w : W) (calls : List (Call F W)),
      (∃ extra, (columnLoop rt templateSheet targets w calls).1 = calls ++ extra
          ∧ ∀ c ∈ extra, ∃ sheet cell v, c = Call.SetCellValue sheet cell v)
      ∧ (∀ msg, (columnLoop rt templateSheet targets w calls).2 = .error msg →
          (∃ j : Nat, msg = "targetRow not found in calculated data for row " ++ toString j)
          ∨ (∃ cell err, msg = "failed to set cell " ++ cell ++ ": " ++ err))
      ∧ ((∀ w sheet cell v, ∃ w2, rt.SetCellValue w sheet cell v = .ok w2) →
          ∀ msg, (columnLoop rt templateSheet targets w calls).2 = .error msg →
          ∃ j : Nat, msg = "targetRow not found in calculated data for row " ++ toString j)
      ∧ ((∃ t ∈ targets, ∃ target, targetOf t = some target
            ∧ ∃ e ∈ target.2, lacksTargetRow e = true) →
          ∃ msg, (columnLoop rt templateSheet targets w calls).2 = .error msg) := by
  intro targets
  induction targets with
  | nil =>
    intro w calls
    refine ⟨⟨[], by simp [columnLoop], by simp⟩, ?_, ?_, ?_⟩
    · intro msg h
      simp [columnLoop] at h
    · intro _ msg h
      simp [columnLoop] at h
    · rintro ⟨t, ht, _⟩
      cases ht
  | cons t rest ih =>
    intro w calls
    rw [columnLoop_cons]
    cases htg : targetOf t with
    | none =>
      simp only []
      obtain ⟨h1, h2, h3, h4⟩ := ih w calls
      refine ⟨h1, h2, h3, ?_⟩
      rintro ⟨t2, ht2, target, htar, hgap⟩
      rcases List.mem_cons.mp ht2 with heq | hmem
      · subst heq
        rw [htg] at htar
        cases htar
      · exact h4 ⟨t2, hmem, target, htar, hgap⟩
    | some target =>
      simp only []
      obtain ⟨⟨extra, hex, hwr⟩, m2, m3, m4⟩ :=
        multiLoop_spec rt templateSheet target.1 target.2 0 w calls
      cases hloop : multiLoop rt templateSheet target.1 target.2 0 w calls with
      | mk calls2 r =>
        rw [hloop] at hex m2 m3 m4
        simp only [] at hex m2 m3 m4
        cases r with
        | error msg0 =>
          simp only []
          exact ⟨⟨extra, hex, hwr⟩, m2, m3, fun _ => ⟨_, rfl⟩⟩
        | ok w2 =>
          simp only []
          obtain ⟨⟨extra2, hex2, hwr2⟩, h2, h3, h4⟩ := ih w2 calls2
          refine ⟨⟨extra ++ extra2, by rw [hex2, hex]; simp, ?_⟩, h2, h3, ?_⟩
          · intro c hc
            rcases List.mem_append.mp hc with hc | hc
            · exact hwr c hc
            · exact hwr2 c hc
          · rintro ⟨t2, ht2, target2, htar, hgap⟩
            rcases List.mem_cons.mp ht2 with heq | hmem
            · subst heq
              rw [htg] at htar
              cases htar
              obtain ⟨msg, hmsg⟩ := m4 hgap
              cases hmsg
            · exact h4 ⟨t2, hmem, target2, htar, hgap⟩

theorem MergeMultipleColumnsToTemplate_eq {W : Type} (rt : Runtime F W) (templatePath : String)
    (mergeData : GoMap (Json F)) (f : W) (templateSheet : String) (targets : List (Json F))
    (hopen : rt.OpenFile templatePath = .ok f)
    (hts : mergeData.get "templateSheet" = some (.str templateSheet))
    (hmd : mergeData.get "mergeData" = some (.arr targets)) :
    MergeMultipleColumnsToTemplate rt templatePath mergeData
      = match columnLoop rt templateSheet targets f [] with
        | (calls, .error e) => { calls := calls, ret := .error e }
        | (calls, .ok w) =>
          saveMerged rt w calls ("exports/merged_multi_" ++ toString rt.Unix ++ ".xlsx") := by
  unfold MergeMultipleColumnsToTemplate
  simp only [hopen, hts, hmd]

/-- C4: in `MergeMultipleColumnsToTemplate`, if any entry (an entry that carries a
value) of any merge target (an object with a string targetColumn and an array
calculatedData) lacks its destination row, the entire call fails, no output
workbook is saved and the template file is left unmodified: the call returns an
error and makes only in-memory cell writes, never MkdirAll or SaveAs.  The error is
the missing-address error `targetRow not found in calculated data for row i`,
unless a cell write attempted before that entry failed, in which case it is that
write failure; when writes cannot fail it is the missing-address error. -/
theorem MergeMultipleColumnsToTemplate_missing_target_row {W : Type} (rt : Runtime F W)
    (templatePath : String) (mergeData : GoMap (Json F)) (f : W) (templateSheet : String)
    (targets : List (Json F)) (hopen : rt.OpenFile templatePath = .ok f)
    (hts : mergeData.get "templateSheet" = some (.str templateSheet))
    (hmd : mergeData.get "mergeData" = some (.arr targets))
    (t : Json F) (ht : t ∈ targets) (targetColumn : String) (entries : List (Json F))
    (htarget : targetOf t = some (targetColumn, entries))
    (e : Json F) (he : e ∈ entries) (hlack : lacksTargetRow e = true) :
    (∃ msg, (MergeMultipleColumnsToTemplate rt templatePath mergeData).ret = .error msg
      ∧ ((∃ i : Nat, msg = "targetRow not found in calculated data for row " ++ toString i)
        ∨ (∃ cell err, msg = "failed to set cell " ++ cell ++ ": " ++ err)))
    ∧ (∀ c ∈ (MergeMultipleColumnsToTemplate rt templatePath mergeData).calls,
        ∃ sheet cell v, c = Call.SetCellValue sheet cell v)
    ∧ ((∀ w sheet cell v, ∃ w2, rt.SetCellValue w sheet cell v = .ok w2) →
        ∃ i : Nat, (MergeMultipleColumnsToTemplate rt templatePath mergeData).ret
          = .error ("targetRow not found in calculated data for row " ++ toString i)) := by
  rw [MergeMultipleColumnsToTemplate_eq rt templatePath mergeData f templateSheet targets
    hopen hts hmd]
  obtain ⟨⟨extra, hex, hwr⟩, h2, h3, h4⟩ := columnLoop_spec rt templateSheet targets f []
  obtain ⟨msg, hmsg⟩ := h4 ⟨t, ht, (targetColumn, entries), htarget, e, he, hlack⟩
  cases hloop : columnLoop rt templateSheet targets f [] with
  | mk calls r =>
    rw [hloop] at hex h2 h3 hmsg
    simp only [] at hex h2 h3 hmsg
    subst hmsg
    simp only []
    refine ⟨⟨msg, rfl, h2 msg rfl⟩, ?_, ?_⟩
    · intro c hc
      rw [hex, List.nil_append] at hc
      exact hwr c hc
    · intro htotal
      obtain ⟨i, hi⟩ := h3 htotal msg rfl
      exact ⟨i, by rw [hi]⟩

theorem MergeMultipleColumnsToTemplate_missing_target_row_witness :
    sampleRuntime.OpenFile "template.xlsx" = .ok templateBook
    ∧ lacksTargetRow (Json.obj [("value", Json.num (Exact.fin 9 0))]) = true
    ∧ (MergeMultipleColumnsToTemplate sampleRuntime "template.xlsx" multiMergeData).ret
        = .error "targetRow not found in calculated data for row 1"
    ∧ (MergeMultipleColumnsToTemplate sampleRuntime "template.xlsx" multiMergeData).calls
        = [.SetCellValue "Sheet1" "L11" (.num (.fin 7 0))]
    ∧ ∀ c ∈ (MergeMultipleColumnsToTemplate sampleRuntime "template.xlsx" multiMergeData).calls,
        ∃ sheet cell v, c = Call.SetCellValue sheet cell v := by
  refine ⟨rfl, rfl, rfl, rfl, ?_⟩
  exact (MergeMultipleColumnsToTemplate_missing_target_row (F := Exact) sampleRuntime
    "template.xlsx" multiMergeData templateBook "Sheet1"
    [.obj [("targetColumn", .str "L"),
      ("calculatedData", .arr [.obj [("value", .num (.fin 7 0)), ("targetRow", .num (.fin 11 0))],
        .obj [("value", .num (.fin 9 0))]])]]
    rfl rfl rfl _ (List.Mem.head _) "L"
    [.obj [("value", .num (.fin 7 0)), ("targetRow", .num (.fin 11 0))],
      .obj [("value", .num (.fin 9 0))]]
    rfl (.obj [("value", .num (.fin 9 0))]) (List.Mem.tail _ (List.Mem.head _)) rfl).2.1

/-! ## Row-wise calculation: outcome of the call -/

/-- The three ways a row-wise call on a readable sheet ends: the invalid-range error,
the index panic on an empty source list, or the result record. -/
theorem CalculateRowWise_cases (disk : Disk) (filePath : String) (req : RowCalculationRequest)
    (f : File) (rows : List (List String)) (hopen : disk filePath = .ok f)
    (hrows : f.GetRows req.SheetName = .ok rows) :
    ((req.StartRow < 0 ∨ req.StartRow ≥ (rows.length : Int)) →
      (CalculateRowWise disk filePath req : Outcome (RowCalculationResult F))
        = .error ("invalid start row: " ++ toString req.StartRow ++ " (sheet has "
            ++ toString rows.length ++ " rows)"))
    ∧ (¬ (req.StartRow < 0 ∨ req.StartRow ≥ (rows.length : Int)) →
        buildFormula req.Operation req.SourceColumns = none →
        (CalculateRowWise disk filePath req : Outcome (RowCalculationResult F))
          = .panic "index out of range [0] with length 0")
    ∧ (¬ (req.StartRow < 0 ∨ req.StartRow ≥ (rows.length : Int)) →
        ∀ formula, buildFormula req.Operation req.SourceColumns = some formula →
        ∃ res : RowCalculationResult F, CalculateRowWise disk filePath req = .ok res
          ∧ res.StartRow = req.StartRow + 1
          ∧ res.EndRow = resolveEndRow rows.length req + 1
          ∧ res.Formula = formula
          ∧ res.SourceColumns = req.SourceColumns
          ∧ res.TargetColumn = req.TargetColumn
          ∧ res.Operation = req.Operation
          ∧ res.Results = rowLoop rows req
              (List.range' req.StartRow.toNat
                (resolveEndRow rows.length req + 1 - req.StartRow).toNat) []
          ∧ res.TotalRows = (res.Results.length : Int)) := by
  refine ⟨?_, ?_, ?_⟩
  · intro h
    unfold CalculateRowWise
    simp only [hopen, hrows, if_pos h]
  · intro h hb
    unfold CalculateRowWise
    simp only [hopen, hrows, if_neg h, hb]
  · intro h formula hb
    unfold CalculateRowWise
    simp only [hopen, hrows, if_neg h, hb]
    exact ⟨_, rfl, rfl, rfl, rfl, rfl, rfl, rfl, rfl, rfl⟩

/-- A row-wise call that returns a result read the sheet and found the start row in
range. -/
theorem CalculateRowWise_ok_readable (disk : Disk) (filePath : String)
    (req : RowCalculationRequest) (res : RowCalculationResult F)
    (h : CalculateRowWise disk filePath req = .ok res) :
    ∃ (f : File) (rows : List (List String)), disk filePath = .ok f
      ∧ f.GetRows req.SheetName = .ok rows
      ∧ ¬ (req.StartRow < 0 ∨ req.StartRow ≥ (rows.length : Int))
      ∧ ∃ formula, buildFormula req.Operation req.SourceColumns = some formula := by
  cases hopen : disk filePath with
  | error e => simp [CalculateRowWise, hopen] at h
  | ok f =>
    cases hrows : f.GetRows req.SheetName with
    | error e => simp [CalculateRowWise, hopen, hrows] at h
    | ok rows =>
      obtain ⟨h1, h2, _⟩ := CalculateRowWise_cases (F := F) disk filePath req f rows hopen hrows
      refine ⟨f, rows, rfl, hrows, ?_, ?_⟩
      · intro hbad
        rw [h1 hbad] at h
        cases h
      · have hgood : ¬ (req.StartRow < 0 ∨ req.StartRow ≥ (rows.length : Int)) := by
          intro hbad
          rw [h1 hbad] at h
          cases h
        cases hb : buildFormula req.Operation req.SourceColumns with
        | none =>
          rw [h2 hgood hb] at h
          cases h
        | some formula => exact ⟨formula, rfl⟩

theorem resolveEndRow_cases (rowCount : Nat) (req : RowCalculationRequest) :
    (req.EndRow = none → req.StartRow < (rowCount : Int) →
      resolveEndRow rowCount req = (rowCount : Int) - 1)
    ∧ (∀ x, req.EndRow = some x → req.StartRow ≤ x → x < (rowCount : Int) →
        resolveEndRow rowCount req = x)
    ∧ (∀ x, req.EndRow = some x → (x < req.StartRow ∨ x ≥ (rowCount : Int)) →
        resolveEndRow rowCount req = (rowCount : Int) - 1) := by
  unfold resolveEndRow
  refine ⟨?_, ?_, ?_⟩
  · intro h hs
    simp only [h]
    split <;> rfl
  · intro x h h1 h2
    simp only [h]
    have hn : ¬ (x < req.StartRow ∨ x ≥ (rowCount : Int)) := by omega
    rw [if_neg hn]
  · intro x h hb
    simp only [h]
    rw [if_pos hb]

/-- C12: whenever `CalculateRowWise` succeeds, the resolved end row e satisfies
startRow <= e <= rowCount - 1: e is the last physical row index when the caller
omits endRow, e is the supplied endRow when startRow <= endRow < rowCount, and in
every other case (endRow < startRow or endRow >= rowCount) e is the last physical
row index; the result reports StartRow = startRow + 1 and EndRow = e + 1. -/
theorem CalculateRowWise_end_row (disk : Disk) (filePath : String) (req : RowCalculationRequest)
    (res : RowCalculationResult F) (h : CalculateRowWise disk filePath req = .ok res) :
    ∃ (f : File) (rows : List (List String)) (e : Int), disk filePath = .ok f
      ∧ f.GetRows req.SheetName = .ok rows
      ∧ e = resolveEndRow rows.length req
      ∧ req.StartRow ≤ e ∧ e ≤ (rows.length : Int) - 1
      ∧ (req.EndRow = none → e = (rows.length : Int) - 1)
      ∧ (∀ x, req.EndRow = some x → req.StartRow ≤ x → x < (rows.length : Int) → e = x)
      ∧ (∀ x, req.EndRow = some x → (x < req.StartRow ∨ x ≥ (rows.length : Int)) →
          e = (rows.length : Int) - 1)
      ∧ res.StartRow = req.StartRow + 1 ∧ res.EndRow = e + 1 := by
  obtain ⟨f, rows, hopen, hrows, hgood, formula, hform⟩ :=
    CalculateRowWise_ok_readable disk filePath req res h
  obtain ⟨_, _, hok⟩ := CalculateRowWise_cases (F := F) disk filePath req f rows hopen hrows
  obtain ⟨res2, hres2, hs, he, _⟩ := hok hgood formula hform
  rw [h] at hres2
  have hsame : res2 = res := by
    cases hres2
    rfl
  subst hsame
  have hlt : req.StartRow < (rows.length : Int) := by omega
  obtain ⟨hlo, hhi⟩ := resolveEndRow_bounds rows.length req hlt
  obtain ⟨c1, c2, c3⟩ := resolveEndRow_cases rows.length req
  exact ⟨f, rows, _, hopen, hrows, rfl, hlo, by omega, fun hn => c1 hn hlt, c2, c3, hs, he⟩

theorem CalculateRowWise_end_row_witness :
    ∃ (res : RowCalculationResult Exact),
      CalculateRowWise (sampleDisk scenarioRows "K") "book.xlsx"
        { sampleRowRequest ["I", "K"] "L" "add" 10 with EndRow := some 99 } = .ok res
      ∧ resolveEndRow scenarioRows.length
          { sampleRowRequest ["I", "K"] "L" "add" 10 with EndRow := some 99 } = 12
      ∧ res.StartRow = 11 ∧ res.EndRow = 13 := by
  obtain ⟨res, hres⟩ : ∃ res : RowCalculationResult Exact,
      CalculateRowWise (sampleDisk scenarioRows "K") "book.xlsx"
        { sampleRowRequest ["I", "K"] "L" "add" 10 with EndRow := some 99 } = .ok res :=
    ⟨_, rfl⟩
  obtain ⟨f, rows, e, hopen, hrows, he, _, _, _, _, hout, hs, hend⟩ :=
    CalculateRowWise_end_row (F := Exact) _ _ _ res hres
  have hf : f = sampleFile scenarioRows "K" := by
    have h2 : sampleDisk scenarioRows "K" "book.xlsx" = .ok (sampleFile scenarioRows "K") := rfl
    rw [h2] at hopen
    exact (Except.ok.inj hopen).symm
  subst hf
  have hr : rows = scenarioRows := by
    have h2 : (sampleFile scenarioRows "K").GetRows "Sheet1" = .ok scenarioRows := rfl
    have h3 : (sampleFile scenarioRows "K").GetRows
        ({ sampleRowRequest ["I", "K"] "L" "add" 10 with EndRow := some 99 }).SheetName
        = .ok rows := hrows
    rw [show ({ sampleRowRequest ["I", "K"] "L" "add" 10 with EndRow := some 99 }
      : RowCalculationRequest).SheetName = "Sheet1" from rfl, h2] at h3
    exact (Except.ok.inj h3).symm
  subst hr
  have he12 : e = 12 := by
    rw [hout 99 rfl (Or.inr (by decide))]
    decide
  subst he12
  exact ⟨res, hres, he.symm, by rw [hs]; decide, by rw [hend]; decide⟩

/-- C13: given a readable sheet and a non-empty source column list,
`CalculateRowWise` fails exactly when startRow is outside [0, rowCount), and then
with the invalid-start-row error (so every startRow is rejected on an empty sheet);
in every other case it returns a result, whatever endRow was supplied. -/
theorem CalculateRowWise_invalid_range (disk : Disk) (filePath : String)
    (req : RowCalculationRequest) (f : File) (rows : List (List String))
    (hopen : disk filePath = .ok f) (hrows : f.GetRows req.SheetName = .ok rows)
    (hsrc : req.SourceColumns ≠ []) :
    ((∃ msg, (CalculateRowWise disk filePath req : Outcome (RowCalculationResult F))
          = .error msg)
        ↔ (req.StartRow < 0 ∨ req.StartRow ≥ (rows.length : Int)))
    ∧ ((req.StartRow < 0 ∨ req.StartRow ≥ (rows.length : Int)) →
        (CalculateRowWise disk filePath req : Outcome (RowCalculationResult F))
          = .error ("invalid start row: " ++ toString req.StartRow ++ " (sheet has "
              ++ toString rows.length ++ " rows)"))
    ∧ (rows.length = 0 →
        ∃ msg, (CalculateRowWise disk filePath req : Outcome (RowCalculationResult F))
          = .error msg)
    ∧ (¬ (req.StartRow < 0 ∨ req.StartRow ≥ (rows.length : Int)) →
        ∃ res : RowCalculationResult F, CalculateRowWise disk filePath req = .ok res) := by
  obtain ⟨hbad, _, hok⟩ := CalculateRowWise_cases (F := F) disk filePath req f rows hopen hrows
  obtain ⟨first, rest, hcols⟩ := List.exists_cons_of_ne_nil hsrc
  obtain ⟨formula, hform⟩ := buildFormula_some req.Operation first rest
  rw [← hcols] at hform
  have hgood : ¬ (req.StartRow < 0 ∨ req.StartRow ≥ (rows.length : Int)) →
      ∃ res : RowCalculationResult F, CalculateRowWise disk filePath req = .ok res := by
    intro hg
    obtain ⟨res, hres, _⟩ := hok hg formula hform
    exact ⟨res, hres⟩
  refine ⟨⟨?_, fun h => ⟨_, hbad h⟩⟩, hbad, ?_, hgood⟩
  · rintro ⟨msg, hmsg⟩
    by_contra hg
    obtain ⟨res, hres⟩ := hgood hg
    rw [hres] at hmsg
    cases hmsg
  · intro h0
    exact ⟨_, hbad (by omega)⟩

theorem CalculateRowWise_invalid_range_witness :
    sampleDisk scenarioRows "K" "book.xlsx" = .ok (sampleFile scenarioRows "K")
    ∧ (sampleFile scenarioRows "K").GetRows "Sheet1" = .ok scenarioRows
    ∧ (["I", "K"] : List String) ≠ []
    ∧ (CalculateRowWise (sampleDisk scenarioRows "K") "book.xlsx"
          (sampleRowRequest ["I", "K"] "L" "add" 13) : Outcome (RowCalculationResult Exact))
        = .error "invalid start row: 13 (sheet has 13 rows)"
    ∧ ∃ res : RowCalculationResult Exact,
        CalculateRowWise (sampleDisk scenarioRows "K") "book.xlsx"
          { sampleRowRequest ["I", "K"] "L" "add" 12 with EndRow := some (-5) } = .ok res := by
  refine ⟨rfl, rfl, by decide, ?_, ?_⟩
  · have h := (CalculateRowWise_invalid_range (F := Exact) (sampleDisk scenarioRows "K")
      "book.xlsx" (sampleRowRequest ["I", "K"] "L" "add" 13) (sampleFile scenarioRows "K")
      scenarioRows rfl rfl (by decide)).2.1 (Or.inr (by decide))
    rw [h]
    rfl
  · exact (CalculateRowWise_invalid_range (F := Exact) (sampleDisk scenarioRows "K")
      "book.xlsx" { sampleRowRequest ["I", "K"] "L" "add" 12 with EndRow := some (-5) }
      (sampleFile scenarioRows "K") scenarioRows rfl rfl (by decide)).2.2.2 (by decide)

theorem intercalate_go_eq (sep : String) (rest : List String) :
    ∀ acc : String, String.intercalate.go acc sep rest
      = rest.foldl (fun formula c => formula ++ sep ++ c) acc := by
  induction rest with
  | nil => intro acc; rfl
  | cons c more ih =>
    intro acc
    simp only [String.intercalate.go, List.foldl_cons]
    exact ih _

theorem joinColumns_eq (sep first : String) (rest : List String) :
    joinColumns sep first rest = String.intercalate sep (first :: rest) := by
  simp only [joinColumns, String.intercalate, intercalate_go_eq]

/-- C16: for every non-empty list of source columns, the Formula string returned by
`CalculateRowWise` is the source column identifiers in order joined by " + " for
add, " - " for subtract, " × " for multiply and " ÷ " for divide, and is
"Copy from <first source column>" for copy. -/
theorem CalculateRowWise_formula (disk : Disk) (filePath : String) (req : RowCalculationRequest)
    (res : RowCalculationResult F) (h : CalculateRowWise disk filePath req = .ok res)
    (first : String) (rest : List String) (hsrc : req.SourceColumns = first :: rest) :
    (req.Operation = "add" → res.Formula = String.intercalate " + " (first :: rest))
    ∧ (req.Operation = "subtract" → res.Formula = String.intercalate " - " (first :: rest))
    ∧ (req.Operation = "multiply" → res.Formula = String.intercalate " × " (first :: rest))
    ∧ (req.Operation = "divide" → res.Formula = String.intercalate " ÷ " (first :: rest))
    ∧ (req.Operation = "copy" → res.Formula = "Copy from " ++ first) := by
  obtain ⟨f, rows, hopen, hrows, hgood, formula, hform⟩ :=
    CalculateRowWise_ok_readable disk filePath req res h
  obtain ⟨_, _, hok⟩ := CalculateRowWise_cases (F := F) disk filePath req f rows hopen hrows
  obtain ⟨res2, hres2, _, _, hf, _⟩ := hok hgood formula hform
  rw [h] at hres2
  have hsame : res2 = res := by
    cases hres2
    rfl
  subst hsame
  rw [hf]
  rw [hsrc] at hform
  refine ⟨?_, ?_, ?_, ?_, ?_⟩
  · intro hop
    rw [hop] at hform
    simp only [buildFormula, if_true, Option.some.injEq] at hform
    rw [← hform, joinColumns_eq]
  · intro hop
    rw [hop] at hform
    have h1 : ("subtract" : String) ≠ "add" := by decide
    simp only [buildFormula, h1, if_true, if_false, Option.some.injEq] at hform
    rw [← hform, joinColumns_eq]
  · intro hop
    rw [hop] at hform
    have h1 : ("multiply" : String) ≠ "add" := by decide
    have h2 : ("multiply" : String) ≠ "subtract" := by decide
    simp only [buildFormula, h1, h2, if_true, if_false, Option.some.injEq] at hform
    rw [← hform, joinColumns_eq]
  · intro hop
    rw [hop] at hform
    have h1 : ("divide" : String) ≠ "add" := by decide
    have h2 : ("divide" : String) ≠ "subtract" := by decide
    have h3 : ("divide" : String) ≠ "multiply" := by decide
    simp only [buildFormula, h1, h2, h3, if_true, if_false, Option.some.injEq] at hform
    rw [← hform, joinColumns_eq]
  · intro hop
    rw [hop] at hform
    have h1 : ("copy" : String) ≠ "add" := by decide
    have h2 : ("copy" : String) ≠ "subtract" := by decide
    have h3 : ("copy" : String) ≠ "multiply" := by decide
    have h4 : ("copy" : String) ≠ "divide" := by decide
    simp only [buildFormula, h1, h2, h3, h4, if_true, if_false, Option.some.injEq] at hform
    exact hform.symm

theorem CalculateRowWise_formula_witness :
    ∃ (res res2 : RowCalculationResult Exact),
      CalculateRowWise (sampleDisk scenarioRows "K") "book.xlsx"
        (sampleRowRequest ["I", "K", "M"] "L" "add" 10) = .ok res
      ∧ res.Formula = "I + K + M"
      ∧ CalculateRowWise (sampleDisk scenarioRows "K") "book.xlsx"
        (sampleRowRequest ["I", "K"] "L" "add" 10) = .ok res2
      ∧ res2.Formula = "I + K" := by
  obtain ⟨res, hres⟩ : ∃ res : RowCalculationResult Exact,
      CalculateRowWise (sampleDisk scenarioRows "K") "book.xlsx"
        (sampleRowRequest ["I", "K", "M"] "L" "add" 10) = .ok res := ⟨_, rfl⟩
  obtain ⟨res2, hres2⟩ : ∃ res : RowCalculationResult Exact,
      CalculateRowWise (sampleDisk scenarioRows "K") "book.xlsx"
        (sampleRowRequest ["I", "K"] "L" "add" 10) = .ok res := ⟨_, rfl⟩
  have h1 := (CalculateRowWise_formula (F := Exact) _ _ _ res hres "I" ["K", "M"] rfl).1 rfl
  have h2 := (CalculateRowWise_formula (F := Exact) _ _ _ res2 hres2 "I" ["K"] rfl).1 rfl
  exact ⟨res, res2, hres, by rw [h1]; decide, hres2, by rw [h2]; decide⟩

/-! ## Row-wise calculation: the entries -/

theorem range_map_get {α : Type} (g : Nat → α) (s n k : Nat) (hk : k < n) :
    (List.map g (List.range' s n))[k]? = some (g (s + k)) := by
  rw [List.getElem?_map, List.getElem?_range' _ _ hk]
  simp

theorem copyRow_eq (req : RowCalculationRequest) (rowIndex : Nat) (row : List String)
    (idx : Nat) (hidx : columnIndex (req.SourceColumns.headD "") = some idx) :
    (copyRow req rowIndex row : Option (Row F))
      = some ((newRowResult rowIndex req.TargetColumn (.str ((row[idx]?).getD ""))).set
          (req.SourceColumns.headD "") (.str ((row[idx]?).getD ""))) := by
  unfold copyRow
  simp only [hidx]
  cases hr : row[idx]? with
  | none => rfl
  | some s =>
    by_cases hs : s = ""
    · simp [hs]
    · simp [hs]

theorem rowLoop_copy (rows : List (List String)) (req : RowCalculationRequest)
    (hop : req.Operation = "copy") (idx : Nat)
    (hidx : columnIndex (req.SourceColumns.headD "") = some idx) :
    ∀ (indices : List Nat) (results : List (Row F)), (∀ i ∈ indices, i < rows.length) →
      rowLoop rows req indices results
        = results ++ indices.map (fun i =>
            (newRowResult i req.TargetColumn (.str (((rows.getD i [])[idx]?).getD ""))).set
              (req.SourceColumns.headD "") (.str (((rows.getD i [])[idx]?).getD ""))) := by
  intro indices
  induction indices with
  | nil => intro results _; simp [rowLoop]
  | cons i rest ih =>
    intro results hall
    have hi : i < rows.length := hall i (List.mem_cons_self _ _)
    have hget : rows[i]? = some (rows.getD i []) := by
      rw [List.getElem?_eq_getElem hi, List.getD_eq_getElem _ _ hi]
    simp only [rowLoop, hget, hop, if_true, copyRow_eq req i _ idx hidx, List.map_cons]
    rw [ih _ (fun j hj => hall j (List.mem_cons_of_mem _ hj))]
    simp

/-- The entries of a row-wise call that returns a result: there is one entry per row
of the resolved range, and entry k is the entry the loop body builds for physical
row startRow + k. -/
theorem CalculateRowWise_entries (disk : Disk) (filePath : String) (req : RowCalculationRequest)
    (f : File) (rows : List (List String)) (hopen : disk filePath = .ok f)
    (hrows : f.GetRows req.SheetName = .ok rows)
    (h1 : req.StartRow < (rows.length : Int)) (h0 : 0 ≤ req.StartRow)
    (hsrc : req.SourceColumns ≠ []) :
    ∃ res : RowCalculationResult F, CalculateRowWise disk filePath req = .ok res
      ∧ (req.Operation ≠ "copy" →
          (res.Results.length : Int) = resolveEndRow rows.length req - req.StartRow + 1
          ∧ ∀ (k : Nat) (row : List String),
              req.StartRow + (k : Int) ≤ resolveEndRow rows.length req →
              rows[req.StartRow.toNat + k]? = some row →
              res.Results[k]? = some (numericRow req (req.StartRow.toNat + k) row))
      ∧ (req.Operation = "copy" →
          ∀ idx, columnIndex (req.SourceColumns.headD "") = some idx →
          (res.Results.length : Int) = resolveEndRow rows.length req - req.StartRow + 1
          ∧ ∀ (k : Nat) (row : List String),
              req.StartRow + (k : Int) ≤ resolveEndRow rows.length req →
              rows[req.StartRow.toNat + k]? = some row →
              res.Results[k]? = some
                ((newRowResult (req.StartRow.toNat + k) req.TargetColumn
                    (.str ((row[idx]?).getD ""))).set
                  (req.SourceColumns.headD "") (.str ((row[idx]?).getD "")))) := by
  obtain ⟨hlo, hhi⟩ := resolveEndRow_bounds rows.length req h1
  obtain ⟨first, rest, hcols⟩ := List.exists_cons_of_ne_nil hsrc
  obtain ⟨formula, hform⟩ := buildFormula_some req.Operation first rest
  rw [← hcols] at hform
  have hrange : ¬ (req.StartRow < 0 ∨ req.StartRow ≥ (rows.length : Int)) := by omega
  obtain ⟨_, _, hok⟩ := CalculateRowWise_cases (F := F) disk filePath req f rows hopen hrows
  obtain ⟨res, hres, _, _, _, _, _, _, hresults, _⟩ := hok hrange formula hform
  have hidx : ∀ i ∈ List.range' req.StartRow.toNat
      (resolveEndRow rows.length req + 1 - req.StartRow).toNat, i < rows.length := by
    intro i hi
    rw [List.mem_range'_1] at hi
    omega
  have hrowAt : ∀ (k : Nat) (row : List String),
      rows[req.StartRow.toNat + k]? = some row → rows.getD (req.StartRow.toNat + k) [] = row := by
    intro k row hrow
    have hlt : req.StartRow.toNat + k < rows.length := by
      by_contra hge
      rw [List.getElem?_eq_none (by omega)] at hrow
      cases hrow
    rw [List.getD_eq_getElem _ _ hlt]
    rw [List.getElem?_eq_getElem hlt] at hrow
    exact Option.some.inj hrow
  refine ⟨res, hres, ?_, ?_⟩
  · intro hop
    rw [hresults, rowLoop_numeric rows req hop _ [] hidx, List.nil_append]
    refine ⟨?_, ?_⟩
    · simp only [List.length_map, List.length_range']
      omega
    · intro k row hk hrow
      have hklt : k < (resolveEndRow rows.length req + 1 - req.StartRow).toNat := by omega
      rw [range_map_get _ _ _ k hklt, hrowAt k row hrow]
  · intro hop idx hci
    rw [hresults, rowLoop_copy rows req hop idx hci _ [] hidx, List.nil_append]
    refine ⟨?_, ?_⟩
    · simp only [List.length_map, List.length_range']
      omega
    · intro k row hk hrow
      have hklt : k < (resolveEndRow rows.length req + 1 - req.StartRow).toNat := by omega
      rw [range_map_get _ _ _ k hklt, hrowAt k row hrow]

theorem echoSources_get_mem (g : String → F) :
    ∀ (cols : List String) (m : Row F) (c : String), c ∈ cols →
      (echoSources cols (cols.map g) m).get c = some (.float (g c)) := by
  intro cols
  induction cols with
  | nil => intro m c hc; cases hc
  | cons c0 rest ih =>
    intro m c hc
    simp only [List.map_cons, echoSources]
    by_cases hmem : c ∈ rest
    · exact ih _ c hmem
    · have hc0 : c = c0 := by
        rcases List.mem_cons.mp hc with h | h
        · exact h
        · exact absurd h hmem
      rw [echoSources_get_other _ _ _ _ hmem, hc0, GoMap.get_set_self]

/-- The echoed inputs and the target of the entry of a row, for a numeric operation
over valid source columns. -/
theorem numericRow_echo (req : RowCalculationRequest) (rowIndex : Nat) (row : List String)
    (hvalid : ∀ c ∈ req.SourceColumns, columnIndex c ≠ none) :
    (∀ c ∈ req.SourceColumns,
        (numericRow req rowIndex row : Row F).get c = some (.float (contribution row c)))
    ∧ (req.TargetColumn ∉ req.SourceColumns →
        (numericRow req rowIndex row : Row F).get req.TargetColumn
          = some (.float (calculate req.Operation (req.SourceColumns.map (contribution row))))) := by
  unfold numericRow
  simp only []
  rw [foldl_valuesStep row req.SourceColumns [] hvalid]
  simp only [List.nil_append]
  constructor
  · intro c hc
    exact echoSources_get_mem (contribution row) req.SourceColumns _ c hc
  · intro ht
    rw [echoSources_get_other _ _ _ _ ht]
    unfold newRowResult
    rw [GoMap.get_set_self]

/-- The three keys of the entry of a row for the copy operation. -/
theorem copyEntry_get (rowIndex : Nat) (targetColumn source : String) (v : Value F)
    (hsource : columnIndex source ≠ none) :
    ((newRowResult rowIndex targetColumn v).set source v).get source = some v
    ∧ ((newRowResult rowIndex targetColumn v).set source v).get "calculated_value" = some v
    ∧ ((newRowResult rowIndex targetColumn v).set source v).get targetColumn = some v := by
  refine ⟨GoMap.get_set_self _ _ _, ?_, ?_⟩
  · have hne : "calculated_value" ≠ source := by
      intro h
      rw [← h] at hsource
      exact hsource (by decide)
    rw [GoMap.get_set_other _ _ _ _ hne, newRowResult_calculated]
  · by_cases h : targetColumn = source
    · rw [h, GoMap.get_set_self]
    · rw [GoMap.get_set_other _ _ _ _ h]
      unfold newRowResult
      rw [GoMap.get_set_self]

/-- C11 (amended): for the copy operation with a valid first source column, each
row's result is the raw text of the cell of that column at that row, stored as
text whatever the cell holds, and the empty text when the cell is absent or blank:
a text cell yields its text and a numeric cell yields its raw text, not a number;
no arithmetic is applied. -/
theorem CalculateRowWise_copy (disk : Disk) (filePath : String) (req : RowCalculationRequest)
    (f : File) (rows : List (List String)) (hopen : disk filePath = .ok f)
    (hrows : f.GetRows req.SheetName = .ok rows)
    (h1 : req.StartRow < (rows.length : Int)) (h0 : 0 ≤ req.StartRow)
    (hop : req.Operation = "copy")
    (first : String) (rest : List String) (hsrc : req.SourceColumns = first :: rest)
    (idx : Nat) (hidx : columnIndex first = some idx) :
    ∃ res : RowCalculationResult F, CalculateRowWise disk filePath req = .ok res
      ∧ (res.Results.length : Int) = resolveEndRow rows.length req - req.StartRow + 1
      ∧ ∀ (k : Nat) (row : List String),
          req.StartRow + (k : Int) ≤ resolveEndRow rows.length req →
          rows[req.StartRow.toNat + k]? = some row →
          ∃ entry : Row F, res.Results[k]? = some entry
            ∧ entry.get "calculated_value" = some (.str ((row[idx]?).getD ""))
            ∧ (∀ s, row[idx]? = some s → entry.get "calculated_value" = some (.str s))
            ∧ ((row[idx]? = none ∨ row[idx]? = some "") →
                entry.get "calculated_value" = some (.str "")) := by
  have hne : req.SourceColumns ≠ [] := by rw [hsrc]; exact List.cons_ne_nil _ _
  have hhead : req.SourceColumns.headD "" = first := by rw [hsrc]; rfl
  obtain ⟨res, hres, _, hcopy⟩ :=
    CalculateRowWise_entries (F := F) disk filePath req f rows hopen hrows h1 h0 hne
  obtain ⟨hlen, hall⟩ := hcopy hop idx (by rw [hhead]; exact hidx)
  refine ⟨res, hres, hlen, ?_⟩
  intro k row hk hrow
  have hsome : columnIndex first ≠ none := by rw [hidx]; exact Option.some_ne_none _
  obtain ⟨_, hcv, _⟩ := copyEntry_get (F := F) (req.StartRow.toNat + k) req.TargetColumn first
    (.str ((row[idx]?).getD "")) hsome
  refine ⟨_, hall k row hk hrow, ?_, ?_, ?_⟩
  · rw [hhead]; exact hcv
  · intro s hs
    rw [hhead, hcv, hs]
    rfl
  · intro habs
    rw [hhead, hcv]
    rcases habs with h | h <;> rw [h] <;> rfl

theorem CalculateRowWise_copy_witness :
    sampleDisk [["10", "abc"]] "B" "book.xlsx" = .ok (sampleFile [["10", "abc"]] "B")
    ∧ (sampleFile [["10", "abc"]] "B").GetRows "Sheet1" = .ok [["10", "abc"]]
    ∧ columnIndex "B" = some 1
    ∧ ∃ (res : RowCalculationResult Exact) (entry : Row Exact),
        CalculateRowWise (sampleDisk [["10", "abc"]] "B") "book.xlsx"
          (sampleRowRequest ["B"] "C" "copy" 0) = .ok res
        ∧ res.Results[0]? = some entry
        ∧ entry.get "calculated_value" = some (.str "abc") := by
  refine ⟨rfl, rfl, by decide, ?_⟩
  obtain ⟨res, hres, _, hall⟩ :=
    CalculateRowWise_copy (F := Exact) (sampleDisk [["10", "abc"]] "B") "book.xlsx"
      (sampleRowRequest ["B"] "C" "copy" 0) (sampleFile [["10", "abc"]] "B") [["10", "abc"]]
      rfl rfl (by decide) (by decide) rfl "B" [] rfl 1 (by decide)
  obtain ⟨entry, he, _, htext, _⟩ := hall 0 ["10", "abc"] (by decide) (by decide)
  exact ⟨res, entry, hres, he, htext "abc" (by decide)⟩

/-- C11 (as stated) fails for a numeric cell: `GetSheetData` types the cell "10" as
the number 10, but copying that column yields the text "10", not the number. -/
theorem CalculateRowWise_copy_counterexample :
    (cellValue ["10", "abc"] 0 : Value Exact) = .float (.fin 10 0)
    ∧ ∃ (res : RowCalculationResult Exact) (entry : Row Exact),
        CalculateRowWise (sampleDisk [["10", "abc"]] "B") "book.xlsx"
          (sampleRowRequest ["A"] "C" "copy" 0) = .ok res
        ∧ res.Results = [entry]
        ∧ entry.get "calculated_value" = some (.str "10")
        ∧ entry.get "calculated_value" ≠ some (.float (.fin 10 0)) := by
  refine ⟨by decide, _, _, rfl, rfl, ?_⟩
  decide

/-- C20 (amended): every row-wise result entry maps `calculated_value` to the
computed value and each source column identifier to the resolved input value of
the row for that column; it maps the target column identifier to the computed
value when the target column is not itself one of the source columns.  This holds
for the arithmetic operations when every source column identifier is valid (the
inputs are the numeric values with the 0 default) and for copy with its first
source column (input and computed value are the copied text). -/
theorem CalculateRowWise_entry_keys (disk : Disk) (filePath : String)
    (req : RowCalculationRequest) (f : File) (rows : List (List String))
    (hopen : disk filePath = .ok f) (hrows : f.GetRows req.SheetName = .ok rows)
    (h1 : req.StartRow < (rows.length : Int)) (h0 : 0 ≤ req.StartRow)
    (first : String) (rest : List String) (hsrc : req.SourceColumns = first :: rest) :
    ∃ res : RowCalculationResult F, CalculateRowWise disk filePath req = .ok res
      ∧ (req.Operation ≠ "copy" → (∀ c ∈ req.SourceColumns, columnIndex c ≠ none) →
          ∀ (k : Nat) (row : List String),
            req.StartRow + (k : Int) ≤ resolveEndRow rows.length req →
            rows[req.StartRow.toNat + k]? = some row →
            ∃ entry : Row F, res.Results[k]? = some entry
              ∧ (∀ c ∈ req.SourceColumns, entry.get c = some (.float (contribution row c)))
              ∧ entry.get "calculated_value"
                  = some (.float (calculate req.Operation
                      (req.SourceColumns.map (contribution row))))
              ∧ (req.TargetColumn ∉ req.SourceColumns →
                  entry.get req.TargetColumn
                    = some (.float (calculate req.Operation
                        (req.SourceColumns.map (contribution row))))))
      ∧ (req.Operation = "copy" → ∀ idx, columnIndex first = some idx →
          ∀ (k : Nat) (row : List String),
            req.StartRow + (k : Int) ≤ resolveEndRow rows.length req →
            rows[req.StartRow.toNat + k]? = some row →
            ∃ entry : Row F, res.Results[k]? = some entry
              ∧ entry.get first = some (.str ((row[idx]?).getD ""))
              ∧ entry.get "calculated_value" = some (.str ((row[idx]?).getD ""))
              ∧ entry.get req.TargetColumn = some (.str ((row[idx]?).getD ""))) := by
  have hne : req.SourceColumns ≠ [] := by rw [hsrc]; exact List.cons_ne_nil _ _
  have hhead : req.SourceColumns.headD "" = first := by rw [hsrc]; rfl
  obtain ⟨res, hres, hnum, hcopy⟩ :=
    CalculateRowWise_entries (F := F) disk filePath req f rows hopen hrows h1 h0 hne
  refine ⟨res, hres, ?_, ?_⟩
  · intro hop hvalid k row hk hrow
    obtain ⟨hsources, htarget⟩ :=
      numericRow_echo (F := F) req (req.StartRow.toNat + k) row hvalid
    exact ⟨_, (hnum hop).2 k row hk hrow, hsources,
      (numericRow_spec req _ row hvalid).1, htarget⟩
  · intro hop idx hidx k row hk hrow
    have hsome : columnIndex first ≠ none := by rw [hidx]; exact Option.some_ne_none _
    obtain ⟨g1, g2, g3⟩ := copyEntry_get (F := F) (req.StartRow.toNat + k) req.TargetColumn first
      (.str ((row[idx]?).getD "")) hsome
    have he := (hcopy hop idx (by rw [hhead]; exact hidx)).2 k row hk hrow
    rw [hhead] at he
    exact ⟨_, he, g1, g2, g3⟩

theorem CalculateRowWise_entry_keys_witness :
    sampleDisk [["1", "2"]] "B" "book.xlsx" = .ok (sampleFile [["1", "2"]] "B")
    ∧ (sampleFile [["1", "2"]] "B").GetRows "Sheet1" = .ok [["1", "2"]]
    ∧ (∀ c ∈ ["A", "B"], columnIndex c ≠ none) ∧ "C" ∉ ["A", "B"]
    ∧ ∃ (res : RowCalculationResult Exact) (entry : Row Exact),
        CalculateRowWise (sampleDisk [["1", "2"]] "B") "book.xlsx"
          (sampleRowRequest ["A", "B"] "C" "add" 0) = .ok res
        ∧ res.Results[0]? = some entry
        ∧ entry.get "A" = some (.float (.fin 1 0)) ∧ entry.get "B" = some (.float (.fin 2 0))
        ∧ entry.get "calculated_value" = some (.float (.fin 3 0))
        ∧ entry.get "C" = some (.float (.fin 3 0)) := by
  refine ⟨rfl, rfl, by decide, by decide, ?_⟩
  obtain ⟨res, hres, hnum, _⟩ :=
    CalculateRowWise_entry_keys (F := Exact) (sampleDisk [["1", "2"]] "B") "book.xlsx"
      (sampleRowRequest ["A", "B"] "C" "add" 0) (sampleFile [["1", "2"]] "B") [["1", "2"]]
      rfl rfl (by decide) (by decide) "A" ["B"] rfl
  obtain ⟨entry, he, hsrc, hcv, htarget⟩ :=
    hnum (by decide) (by decide) 0 ["1", "2"] (by decide) (by decide)
  refine ⟨res, entry, hres, he, ?_, ?_, ?_, ?_⟩
  · exact (hsrc "A" (by decide)).trans (by decide)
  · exact (hsrc "B" (by decide)).trans (by decide)
  · exact hcv.trans (by decide)
  · exact (htarget (by decide)).trans (by decide)

/-- C20 (as stated) fails when the target column is one of the source columns: with
source columns A, B, target column A, add, and a row holding A = 1, B = 2, the
computed value is 3 but the entry maps the target column A to the input 1. -/
theorem CalculateRowWise_entry_keys_counterexample :
    ∃ (res : RowCalculationResult Exact) (entry : Row Exact),
      CalculateRowWise (sampleDisk [["1", "2"]] "B") "book.xlsx"
        (sampleRowRequest ["A", "B"] "A" "add" 0) = .ok res
      ∧ res.Results = [entry]
      ∧ entry.get "calculated_value" = some (.float (.fin 3 0))
      ∧ entry.get "A" = some (.float (.fin 1 0))
      ∧ entry.get "A" ≠ entry.get "calculated_value" := by
  refine ⟨_, _, rfl, rfl, ?_⟩
  decide


/-! ## Reading a sheet: white-space cells -/

theorem TrimSpace_of_spaces (s : String) (hspace : ∀ c ∈ s.toList, strings.isSpace c = true) :
    strings.TrimSpace (strings.ReplaceAllCommas s) = "" := by
  unfold strings.TrimSpace strings.ReplaceAllCommas
  have hall : ∀ c ∈ (String.mk (s.toList.filter (fun c => c != ','))).toList,
      strings.isSpace c = true := by
    intro c hc
    exact hspace c (List.mem_of_mem_filter hc)
  rw [List.dropWhile_eq_nil_iff.mpr hall]
  rfl

theorem cellValue_eq_empty_iff (row : List String) (j : Nat) (s : String)
    (hcell : row[j]? = some s) : (cellValue row j : Value F) = .str "" ↔ s = "" := by
  constructor
  · intro h
    by_contra hne
    cases hp : (GoFloat64.ParseFloat (strings.TrimSpace (strings.ReplaceAllCommas s)) : Option F) with
    | none =>
      rw [(cellValue_of_cell (F := F) row j s hcell).2.2 hne hp] at h
      exact hne (Value.str.inj h)
    | some x =>
      rw [(cellValue_of_cell (F := F) row j s hcell).2.1 x hne hp] at h
      cases h
  · intro h
    exact (cellValue_of_cell (F := F) row j s hcell).1 h

/-- C19 (amended): a raw cell whose text is not empty and consists only of white
space materializes to the text of the cell, unmodified (the numeric parser rejects
the empty string that is left after trimming): it is not a Number and it is not
Empty.  A present cell materializes to Empty exactly when its text is empty. -/
theorem GetSheetData_whitespace_cell (disk : Disk) (filePath sheetName : String) (f : File)
    (rows : List (List String)) (hopen : disk filePath = .ok f)
    (hrows : f.GetRows sheetName = .ok rows) (i j : Nat) (row : List String)
    (colName s : String) (hrow : rows[i]? = some row)
    (hcol : (getAllExcelColumns f sheetName)[j]? = some colName) (hcell : row[j]? = some s)
    (hparse : (GoFloat64.ParseFloat "" : Option F) = none) :
    ∃ (data : List (Row F)) (r : Row F),
      GetSheetData disk filePath sheetName = .ok data ∧ data[i]? = some r
      ∧ (s ≠ "" → (∀ c ∈ s.toList, strings.isSpace c = true) →
          r.get colName = some (.str s) ∧ r.get colName ≠ some (.str ""))
      ∧ (r.get colName = some (.str "") ↔ s = "") := by
  obtain ⟨data, hdata, _, hall⟩ := GetSheetData_row (F := F) disk filePath sheetName f rows hopen hrows
  obtain ⟨r, hr, _, hget⟩ := hall i row hrow
  have hv := hget j colName hcol
  refine ⟨data, r, hdata, hr, ?_, ?_⟩
  · intro hne hspace
    have hp : (GoFloat64.ParseFloat (strings.TrimSpace (strings.ReplaceAllCommas s)) : Option F)
        = none := by
      rw [TrimSpace_of_spaces s hspace]
      exact hparse
    have hval := (cellValue_of_cell (F := F) row j s hcell).2.2 hne hp
    rw [hv, hval]
    refine ⟨rfl, ?_⟩
    intro h
    exact hne (Value.str.inj (Option.some.inj h))
  · rw [hv]
    constructor
    · intro h
      exact (cellValue_eq_empty_iff (F := F) row j s hcell).mp (Option.some.inj h)
    · intro h
      rw [(cellValue_eq_empty_iff (F := F) row j s hcell).mpr h]

theorem GetSheetData_whitespace_cell_witness :
    sampleDisk [["  ", "7"]] "B" "book.xlsx" = .ok (sampleFile [["  ", "7"]] "B")
    ∧ (sampleFile [["  ", "7"]] "B").GetRows "Sheet1" = .ok [["  ", "7"]]
    ∧ (getAllExcelColumns (sampleFile [["  ", "7"]] "B") "Sheet1")[0]? = some "A"
    ∧ (GoFloat64.ParseFloat "" : Option Exact) = none
    ∧ ("  " : String) ≠ "" ∧ (∀ c ∈ ("  " : String).toList, strings.isSpace c = true)
    ∧ ∃ (data : List (Row Exact)) (r : Row Exact),
        GetSheetData (sampleDisk [["  ", "7"]] "B") "book.xlsx" "Sheet1" = .ok data
        ∧ data[0]? = some r ∧ r.get "A" = some (.str "  ") := by
  refine ⟨rfl, rfl, by decide, by decide, by decide, by decide, ?_⟩
  obtain ⟨data, r, hdata, hr, hspace, _⟩ :=
    GetSheetData_whitespace_cell (F := Exact) (sampleDisk [["  ", "7"]] "B") "book.xlsx"
      "Sheet1" (sampleFile [["  ", "7"]] "B") [["  ", "7"]] rfl rfl 0 0
      ["  ", "7"] "A" "  " rfl (by decide) rfl (by decide)
  exact ⟨data, r, hdata, hr, (hspace (by decide) (by decide)).1⟩

/-- C19 (as stated) fails on a cell holding two spaces: it materializes to the text
of two spaces, which is not the Empty value that an empty or an absent cell gets. -/
theorem GetSheetData_whitespace_cell_counterexample :
    (∀ c ∈ ("  " : String).toList, strings.isSpace c = true)
    ∧ ∃ (r : Row Exact),
        GetSheetData (sampleDisk [["  ", ""]] "C") "book.xlsx" "Sheet1" = .ok [r]
        ∧ r.get "A" = some (.str "  ")
        ∧ r.get "B" = some (.str "")
        ∧ r.get "C" = some (.str "")
        ∧ r.get "A" ≠ r.get "B" := by
  refine ⟨by decide, _, rfl, ?_⟩
  decide


/-! ## Aggregation by group: the groups and the grand totals -/

theorem groups_mem_iff (mainColumn : String) (data : List (Row F)) (key : String)
    (g : List (Row F)) :
    (key, g) ∈ (data.foldl (groupStep mainColumn) GoMap.empty).entries
      ↔ g = groupRowsOf mainColumn key data ∧ g ≠ [] := by
  have hnd := groupStep_keys_nodup mainColumn data (GoMap.empty : GoMap (List (Row F)))
    List.nodup_nil
  have hget := groupStep_get mainColumn key data (GoMap.empty : GoMap (List (Row F)))
  have hempty : (GoMap.empty : GoMap (List (Row F))).get key = none := rfl
  rw [hempty] at hget
  constructor
  · intro hm
    have h := GoMap.get_of_mem _ hnd key g hm
    rw [hget] at h
    cases hnil : (groupRowsOf mainColumn key data).isEmpty with
    | true =>
      rw [hnil] at h
      cases h
    | false =>
      rw [hnil] at h
      simp only [Bool.false_eq_true, if_false, Option.getD_none, List.nil_append,
        Option.some.injEq] at h
      refine ⟨h.symm, ?_⟩
      intro hg
      rw [h, hg] at hnil
      cases hnil
  · rintro ⟨hg, hne⟩
    apply GoMap.mem_of_get
    rw [hget]
    have hnil : (groupRowsOf mainColumn key data).isEmpty = false := by
      cases h : (groupRowsOf mainColumn key data).isEmpty with
      | true => exact absurd (hg.trans (List.isEmpty_iff.mp h)) hne
      | false => rfl
    rw [hnil, hg]
    simp

theorem groupRowsOf_ne_nil_iff (mainColumn key : String) (data : List (Row F)) :
    groupRowsOf mainColumn key data ≠ []
      ↔ ∃ row ∈ data, (row.get mainColumn).map Value.sprintV = some key := by
  unfold groupRowsOf
  rw [ne_eq, List.filter_eq_nil_iff]
  push_neg
  constructor
  · rintro ⟨row, hrow, h⟩
    exact ⟨row, hrow, of_decide_eq_true h⟩
  · rintro ⟨row, hrow, h⟩
    exact ⟨row, hrow, decide_eq_true h⟩

/-- The visited groups: every observed rendering once, each with the rows that
render to it. -/
theorem groupOrder_spec (visit : List (String × List (Row F)) → List (String × List (Row F)))
    (hvisit : ∀ l, List.Perm (visit l) l) (data : List (Row F)) (mainColumn : String) :
    (groupOrder visit data mainColumn).Nodup
    ∧ (∀ key, key ∈ groupOrder visit data mainColumn ↔ groupRowsOf mainColumn key data ≠ [])
    ∧ visit (data.foldl (groupStep mainColumn) GoMap.empty).entries
        = (groupOrder visit data mainColumn).map
            (fun key => (key, groupRowsOf mainColumn key data)) := by
  have hperm := hvisit (data.foldl (groupStep mainColumn) GoMap.empty).entries
  have hnd := groupStep_keys_nodup mainColumn data (GoMap.empty : GoMap (List (Row F)))
    List.nodup_nil
  refine ⟨?_, ?_, ?_⟩
  · unfold groupOrder
    exact (hperm.map Prod.fst).nodup_iff.mpr hnd
  · intro key
    unfold groupOrder
    rw [List.mem_map]
    constructor
    · rintro ⟨⟨k, g⟩, hm, hk⟩
      simp only at hk
      subst hk
      rw [hperm.mem_iff, groups_mem_iff] at hm
      rw [← hm.1]
      exact hm.2
    · intro hne
      refine ⟨(key, groupRowsOf mainColumn key data), ?_, rfl⟩
      rw [hperm.mem_iff, groups_mem_iff]
      exact ⟨rfl, hne⟩
  · unfold groupOrder
    rw [List.map_map]
    have hid : ∀ p ∈ visit (data.foldl (groupStep mainColumn) GoMap.empty).entries,
        ((fun key => (key, groupRowsOf mainColumn key data)) ∘ Prod.fst) p = p := by
      rintro ⟨k, g⟩ hm
      rw [hperm.mem_iff, groups_mem_iff] at hm
      simp only [Function.comp]
      rw [← hm.1]
    rw [List.map_congr_left hid]
    exact (List.map_id _).symm


theorem groups_get_iff (mainColumn : String) (data : List (Row F)) (key : String)
    (g : List (Row F)) :
    (data.foldl (groupStep mainColumn) GoMap.empty).get key = some g
      ↔ g = groupRowsOf mainColumn key data ∧ g ≠ [] := by
  rw [← groups_mem_iff]
  exact ⟨GoMap.mem_of_get _ key g,
    GoMap.get_of_mem _ (groupStep_keys_nodup mainColumn data GoMap.empty List.nodup_nil) key g⟩

theorem mem_groupRowsOf (mainColumn key : String) (data : List (Row F)) (row : Row F) :
    row ∈ groupRowsOf mainColumn key data
      ↔ row ∈ data ∧ (row.get mainColumn).map Value.sprintV = some key := by
  unfold groupRowsOf
  rw [List.mem_filter, decide_eq_true_iff]

/-- What one target column adds to the running grand totals. -/
theorem targetStep_summary (operation : String) (groupData : List (Row F)) (r : Row F)
    (s : GoMap F) (t k : String) :
    ((targetStep operation groupData (r, s) t).2).get k
      = if k = t then
          some (GoFloat64.add ((s.get t).getD GoFloat64.zero)
            ((numericValues t groupData).foldl GoFloat64.add GoFloat64.zero))
        else s.get k := by
  have hsc := sumCountStep_foldl (F := F) t groupData (GoFloat64.zero, 0)
  simp only [targetStep, hsc]
  by_cases hk : k = t
  · rw [if_pos hk, hk, GoMap.get_set_self]
    cases hs : s.get t with
    | none => simp [GoMap.get_set_self]
    | some v => simp [hs]
  · rw [if_neg hk, GoMap.get_set_other _ _ _ _ hk]
    cases hs : s.get t with
    | none => simp [GoMap.get_set_other _ _ _ _ hk]
    | some v => simp

theorem targets_fold_summary (operation : String) (groupData : List (Row F)) :
    ∀ (targets : List String), targets.Nodup → ∀ (r : Row F) (s : GoMap F) (k : String),
      ((targets.foldl (targetStep operation groupData) (r, s)).2).get k
        = if k ∈ targets then
            some (GoFloat64.add ((s.get k).getD GoFloat64.zero)
              ((numericValues k groupData).foldl GoFloat64.add GoFloat64.zero))
          else s.get k := by
  intro targets
  induction targets with
  | nil => intro _ r s k; simp
  | cons t0 rest ih =>
    intro hnd r s k
    rw [List.nodup_cons] at hnd
    simp only [List.foldl_cons]
    have hsplit : targetStep operation groupData (r, s) t0
        = ((targetStep operation groupData (r, s) t0).1,
            (targetStep operation groupData (r, s) t0).2) := rfl
    rw [hsplit, ih hnd.2, targetStep_summary]
    by_cases hk : k ∈ rest
    · have hne : k ≠ t0 := fun e => hnd.1 (e ▸ hk)
      simp [hk, hne]
    · by_cases h0 : k = t0
      · simp [h0, hnd.1]
      · simp [hk, h0]

/-- The grand total of a target column after the loop over a non-empty list of
groups: the per-group sums added one after the other to the initial total. -/
theorem groups_fold_summary (req : CalculationRequest) (hnd : req.TargetColumns.Nodup)
    (t : String) (ht : t ∈ req.TargetColumns) :
    ∀ (rest : List (String × List (Row F))) (g : String × List (Row F))
      (R : List (Row F)) (S : GoMap F),
      (((g :: rest).foldl (groupResultStep req) (R, S)).2).get t
        = some (((g :: rest).map (fun g =>
              (numericValues t g.2).foldl GoFloat64.add GoFloat64.zero)).foldl
            GoFloat64.add ((S.get t).getD GoFloat64.zero)) := by
  have hstep : ∀ (g : String × List (Row F)) (R : List (Row F)) (S : GoMap F),
      ((groupResultStep req (R, S) g).2).get t
        = some (GoFloat64.add ((S.get t).getD GoFloat64.zero)
            ((numericValues t g.2).foldl GoFloat64.add GoFloat64.zero)) := by
    intro g R S
    simp only [groupResultStep]
    rw [targets_fold_summary req.Operation g.2 req.TargetColumns hnd, if_pos ht]
  intro rest
  induction rest with
  | nil =>
    intro g R S
    simp only [List.foldl_cons, List.foldl_nil, List.map_cons, List.map_nil]
    exact hstep g R S
  | cons g2 rest2 ih =>
    intro g R S
    have hsplit : (g :: g2 :: rest2).foldl (groupResultStep req) (R, S)
        = (g2 :: rest2).foldl (groupResultStep req)
            ((groupResultStep req (R, S) g).1, (groupResultStep req (R, S) g).2) := rfl
    rw [hsplit, ih g2, hstep g R S]
    rfl


/-- C14: for every requested operation and every list of distinct target columns,
`CalculateColumns` sets Summary[target] to the sum of the per-group raw sums of the
target column's numeric values, the groups being taken in the order the loop
visits them (every observed rendering of the group-by cell exactly once): never an
average or a count.  With no group at all the summary is empty. -/
theorem CalculateColumns_summary (disk : Disk)
    (visit : List (String × List (Row F)) → List (String × List (Row F)))
    (hvisit : ∀ l, List.Perm (visit l) l) (filePath : String) (req : CalculationRequest)
    (data : List (Row F)) (hdata : GetSheetData disk filePath req.SheetName = .ok data)
    (hnd : req.TargetColumns.Nodup) :
    ∃ res : CalculationResult F, CalculateColumns disk visit filePath req = .ok res
      ∧ (groupOrder visit data req.MainColumn).Nodup
      ∧ (∀ key, key ∈ groupOrder visit data req.MainColumn
          ↔ ∃ row ∈ data, (row.get req.MainColumn).map Value.sprintV = some key)
      ∧ (∀ t ∈ req.TargetColumns, groupOrder visit data req.MainColumn ≠ [] →
          res.Summary.get t
            = some (((groupOrder visit data req.MainColumn).map (fun key =>
                  (numericValues t (groupRowsOf req.MainColumn key data)).foldl
                    GoFloat64.add GoFloat64.zero)).foldl GoFloat64.add GoFloat64.zero))
      ∧ (groupOrder visit data req.MainColumn = [] → res.Summary = GoMap.empty) := by
  obtain ⟨hnodup, hmem, hvs⟩ := groupOrder_spec visit hvisit data req.MainColumn
  refine ⟨calculateGroups visit data req, by simp [CalculateColumns, hdata], hnodup, ?_, ?_, ?_⟩
  · intro key
    rw [hmem, groupRowsOf_ne_nil_iff]
  · intro t ht hne
    unfold calculateGroups
    simp only []
    rw [hvs]
    obtain ⟨k0, ks, hks⟩ := List.exists_cons_of_ne_nil hne
    rw [hks, List.map_cons, groups_fold_summary req hnd t ht]
    simp only [List.map_cons, List.map_map]
    rfl
  · intro hnil
    unfold calculateGroups
    simp only []
    rw [hvs, hnil]
    rfl

theorem CalculateColumns_summary_witness :
    (∀ l : List (String × List (Row Exact)), List.Perm ((fun x => x) l) l)
    ∧ (["B"] : List String).Nodup
    ∧ ∃ (res : CalculationResult Exact),
        CalculateColumns (sampleDisk salesRows "B") (fun x => x) "book.xlsx"
          (sampleRequest "A" ["B"] "average" none) = .ok res
        ∧ res.Summary.get "B" = some (.fin 35 0) := by
  refine ⟨fun l => List.Perm.refl l, by decide, ?_⟩
  obtain ⟨res, hres, _, _, hsum, _⟩ :=
    CalculateColumns_summary (F := Exact) (sampleDisk salesRows "B") (fun x => x)
      (fun l => List.Perm.refl l) "book.xlsx" (sampleRequest "A" ["B"] "average" none) _ rfl
      (by decide)
  exact ⟨res, hres, (hsum "B" (by decide) (by decide)).trans (by decide)⟩

/-- C15 (amended): when the group-by column is not one of the target columns, the
result of `CalculateColumns` contains exactly one entry per distinct text rendering
of the group-by cell value observed among the sheet's rows, carrying that rendering
as its group key and computed from the rows of that group; two rows that have the
group-by column belong to the same group if and only if their group-by values
render to the same text, and a row lacking the group-by column belongs to no
group. -/
theorem CalculateColumns_groups (disk : Disk)
    (visit : List (String × List (Row F)) → List (String × List (Row F)))
    (hvisit : ∀ l, List.Perm (visit l) l) (filePath : String) (req : CalculationRequest)
    (data : List (Row F)) (hdata : GetSheetData disk filePath req.SheetName = .ok data)
    (hmain : req.MainColumn ∉ req.TargetColumns) :
    ∃ res : CalculationResult F, CalculateColumns disk visit filePath req = .ok res
      ∧ (groupOrder visit data req.MainColumn).Nodup
      ∧ (∀ key, key ∈ groupOrder visit data req.MainColumn
          ↔ ∃ row ∈ data, (row.get req.MainColumn).map Value.sprintV = some key)
      ∧ res.Results.length = (groupOrder visit data req.MainColumn).length
      ∧ (∀ (i : Nat) (key : String), (groupOrder visit data req.MainColumn)[i]? = some key →
          ∃ entry : Row F, res.Results[i]? = some entry
            ∧ entry.get req.MainColumn = some (.str key)
            ∧ entry = (req.TargetColumns.foldl
                (targetStep req.Operation (groupRowsOf req.MainColumn key data))
                (GoMap.empty.set req.MainColumn (.str key), (GoMap.empty : GoMap F))).1)
      ∧ (∀ (key : String) (g : List (Row F)),
          (data.foldl (groupStep req.MainColumn) GoMap.empty).get key = some g →
          ∀ row, row ∈ g
            ↔ row ∈ data ∧ (row.get req.MainColumn).map Value.sprintV = some key)
      ∧ (∀ (r1 r2 : Row F) (v1 v2 : Value F), r1 ∈ data → r2 ∈ data →
          r1.get req.MainColumn = some v1 → r2.get req.MainColumn = some v2 →
          ((∃ (key : String) (g : List (Row F)),
              (data.foldl (groupStep req.MainColumn) GoMap.empty).get key = some g
              ∧ r1 ∈ g ∧ r2 ∈ g)
            ↔ v1.sprintV = v2.sprintV))
      ∧ (∀ (row : Row F), row.get req.MainColumn = none →
          ∀ (key : String) (g : List (Row F)),
            (data.foldl (groupStep req.MainColumn) GoMap.empty).get key = some g →
            row ∉ g) := by
  obtain ⟨hnodup, hmem, hvs⟩ := groupOrder_spec visit hvisit data req.MainColumn
  have hgroup : ∀ (key : String) (g : List (Row F)),
      (data.foldl (groupStep req.MainColumn) GoMap.empty).get key = some g →
      ∀ row, row ∈ g
        ↔ row ∈ data ∧ (row.get req.MainColumn).map Value.sprintV = some key := by
    intro key g hg row
    rw [((groups_get_iff req.MainColumn data key g).mp hg).1]
    exact mem_groupRowsOf req.MainColumn key data row
  have hresults : (calculateGroups visit data req).Results
      = (groupOrder visit data req.MainColumn).map (fun key =>
          (req.TargetColumns.foldl
            (targetStep req.Operation (groupRowsOf req.MainColumn key data))
            (GoMap.empty.set req.MainColumn (.str key), (GoMap.empty : GoMap F))).1) := by
    unfold calculateGroups
    simp only []
    rw [groupResultStep_results req _ [] GoMap.empty, List.nil_append, hvs, List.map_map]
    rfl
  refine ⟨calculateGroups visit data req, by simp [CalculateColumns, hdata], hnodup, ?_, ?_, ?_,
    hgroup, ?_, ?_⟩
  · intro key
    rw [hmem, groupRowsOf_ne_nil_iff]
  · rw [hresults, List.length_map]
  · intro i key hi
    refine ⟨_, ?_, ?_, rfl⟩
    · rw [hresults, List.getElem?_map, hi]
      rfl
    · rw [targets_fold_get_other _ _ _ _ _ _ hmain, GoMap.get_set_self]
  · intro r1 r2 v1 v2 h1 h2 hv1 hv2
    constructor
    · rintro ⟨key, g, hg, hr1, hr2⟩
      have e1 := ((hgroup key g hg r1).mp hr1).2
      have e2 := ((hgroup key g hg r2).mp hr2).2
      rw [hv1] at e1
      rw [hv2] at e2
      exact Option.some.inj (e1.trans e2.symm)
    · intro hv
      have hin1 : r1 ∈ groupRowsOf req.MainColumn v1.sprintV data :=
        (mem_groupRowsOf _ _ _ _).mpr ⟨h1, by rw [hv1]; rfl⟩
      have hin2 : r2 ∈ groupRowsOf req.MainColumn v1.sprintV data :=
        (mem_groupRowsOf _ _ _ _).mpr ⟨h2, by rw [hv2, hv]; rfl⟩
      exact ⟨v1.sprintV, _, (groups_get_iff _ _ _ _).mpr ⟨rfl, List.ne_nil_of_mem hin1⟩,
        hin1, hin2⟩
  · intro row hnone key g hg hin
    have e := ((hgroup key g hg row).mp hin).2
    rw [hnone] at e
    cases e

theorem CalculateColumns_groups_witness :
    (∀ l : List (String × List (Row Exact)), List.Perm ((fun x => x) l) l)
    ∧ "A" ∉ (["B"] : List String)
    ∧ ∃ (res : CalculationResult Exact) (north south : Row Exact),
        CalculateColumns (sampleDisk salesRows "B") (fun x => x) "book.xlsx"
          (sampleRequest "A" ["B"] "sum" none) = .ok res
        ∧ res.Results.length = 2
        ∧ res.Results[0]? = some north ∧ north.get "A" = some (.str "N")
        ∧ res.Results[1]? = some south ∧ south.get "A" = some (.str "S") := by
  refine ⟨fun l => List.Perm.refl l, by decide, ?_⟩
  obtain ⟨res, hres, _, _, hlen, hentry, _⟩ :=
    CalculateColumns_groups (F := Exact) (sampleDisk salesRows "B") (fun x => x)
      (fun l => List.Perm.refl l) "book.xlsx" (sampleRequest "A" ["B"] "sum" none) _ rfl
      (by decide)
  obtain ⟨north, hn, hnk, _⟩ := hentry 0 "N" (by decide)
  obtain ⟨south, hs, hsk, _⟩ := hentry 1 "S" (by decide)
  exact ⟨res, north, south, hres, hlen.trans (by decide), hn, hnk, hs, hsk⟩

/-- C15 (as stated) fails when the group-by column is itself a target column: with
Region in column A as both the group-by and the target column and operation count,
both entries hold the count 0 under A, and no entry carries the key "N". -/
theorem CalculateColumns_groups_counterexample :
    ∃ (res : CalculationResult Exact) (e1 e2 : Row Exact),
      CalculateColumns (sampleDisk salesRows "B") (fun x => x) "book.xlsx"
        (sampleRequest "A" ["A"] "count" none) = .ok res
      ∧ res.Results = [e1, e2]
      ∧ e1.get "A" = some (.int 0) ∧ e2.get "A" = some (.int 0)
      ∧ ∀ e ∈ res.Results, e.get "A" ≠ some (.str "N") := by
  refine ⟨_, _, _, rfl, rfl, ?_⟩
  decide


/-! ## Merging into a template: a failed write ends the call -/

theorem applyWrites_append {W : Type} (rt : Runtime F W) :
    ∀ (a b : List (String × String × Json F)) (w w2 : W), applyWrites rt w a = .ok w2 →
      applyWrites rt w (a ++ b) = applyWrites rt w2 b := by
  intro a
  induction a with
  | nil =>
    intro b w w2 h
    simp only [applyWrites, Except.ok.injEq] at h
    rw [List.nil_append, h]
  | cons x rest ih =>
    intro b w w2 h
    obtain ⟨s, c, v⟩ := x
    simp only [applyWrites, List.cons_append] at h ⊢
    cases hs : rt.SetCellValue w s c v with
    | error e =>
      rw [hs] at h
      cases h
    | ok w3 =>
      rw [hs] at h
      exact ih b w3 w2 h

/-- A loop of cell writes ends in one of two ways: every write it made succeeded,
or the last write it made is the one that failed.  This lemma puts a successful
write in front of such a loop. -/
theorem loop_outcome_cons {W : Type} (rt : Runtime F W) (w w3 : W) (calls : List (Call F W))
    (x : String × String × Json F) (out : List (Call F W) × Except String W)
    (hw : rt.SetCellValue w x.1 x.2.1 x.2.2 = .ok w3)
    (h : (∃ (writes : List (String × String × Json F)) (w2 : W),
            out.1 = (calls ++ [writeCall x]) ++ writes.map writeCall
            ∧ applyWrites rt w3 writes = .ok w2
            ∧ (out.2 = .ok w2 ∨ ∃ msg, out.2 = .error msg))
        ∨ (∃ (init : List (String × String × Json F)) (y : String × String × Json F)
              (w2 : W) (e : String),
            out.1 = (calls ++ [writeCall x]) ++ (init ++ [y]).map writeCall
            ∧ applyWrites rt w3 init = .ok w2
            ∧ rt.SetCellValue w2 y.1 y.2.1 y.2.2 = .error e
            ∧ out.2 = .error ("failed to set cell " ++ y.2.1 ++ ": " ++ e))) :
    (∃ (writes : List (String × String × Json F)) (w2 : W),
        out.1 = calls ++ writes.map writeCall
        ∧ applyWrites rt w writes = .ok w2
        ∧ (out.2 = .ok w2 ∨ ∃ msg, out.2 = .error msg))
    ∨ (∃ (init : List (String × String × Json F)) (y : String × String × Json F)
          (w2 : W) (e : String),
        out.1 = calls ++ (init ++ [y]).map writeCall
        ∧ applyWrites rt w init = .ok w2
        ∧ rt.SetCellValue w2 y.1 y.2.1 y.2.2 = .error e
        ∧ out.2 = .error ("failed to set cell " ++ y.2.1 ++ ": " ++ e)) := by
  obtain ⟨s, c, v⟩ := x
  simp only [] at hw
  have hstep : ∀ l : List (String × String × Json F),
      applyWrites rt w ((s, c, v) :: l) = applyWrites rt w3 l := by
    intro l
    simp only [applyWrites, hw]
  rcases h with ⟨writes, w2, h1, h2, h3⟩ | ⟨init, y, w2, e, h1, h2, h3, h4⟩
  · left
    refine ⟨(s, c, v) :: writes, w2, ?_, ?_, h3⟩
    · rw [h1]
      simp
    · rw [hstep]
      exact h2
  · right
    refine ⟨(s, c, v) :: init, y, w2, e, ?_, ?_, h3, h4⟩
    · rw [h1]
      simp
    · rw [hstep]
      exact h2

theorem mergeLoop_outcome {W : Type} (rt : Runtime F W) (templateSheet targetColumn : String)
    (startRow : F) :
    ∀ (entries : List (Json F)) (i : Nat) (w : W) (calls : List (Call F W)),
      (∃ (writes : List (String × String × Json F)) (w2 : W),
          (mergeLoop rt templateSheet targetColumn startRow entries i w calls).1
            = calls ++ writes.map writeCall
          ∧ applyWrites rt w writes = .ok w2
          ∧ ((mergeLoop rt templateSheet targetColumn startRow entries i w calls).2 = .ok w2
            ∨ ∃ msg, (mergeLoop rt templateSheet targetColumn startRow entries i w calls).2
                = .error msg))
      ∨ (∃ (init : List (String × String × Json F)) (y : String × String × Json F)
            (w2 : W) (e : String),
          (mergeLoop rt templateSheet targetColumn startRow entries i w calls).1
            = calls ++ (init ++ [y]).map writeCall
          ∧ applyWrites rt w init = .ok w2
          ∧ rt.SetCellValue w2 y.1 y.2.1 y.2.2 = .error e
          ∧ (mergeLoop rt templateSheet targetColumn startRow entries i w calls).2
              = .error ("failed to set cell " ++ y.2.1 ++ ": " ++ e)) := by
  intro entries
  induction entries with
  | nil =>
    intro i w calls
    left
    exact ⟨[], w, by simp [mergeLoop], rfl, Or.inl rfl⟩
  | cons e rest ih =>
    intro i w calls
    cases e with
    | obj dataMap =>
      cases hv : GoMap.get dataMap "value" with
      | none =>
        simp only [mergeLoop, hv]
        exact ih _ _ _
      | some value =>
        cases hw : rt.SetCellValue w templateSheet
            (targetColumn ++ toString (GoFloat64.toInt startRow + (i : Int))) value with
        | error err =>
          simp only [mergeLoop, hv, writeValue_eq, hw]
          right
          exact ⟨[], (templateSheet,
            targetColumn ++ toString (GoFloat64.toInt startRow + (i : Int)), value), w, err,
            by simp [writeCall], rfl, hw, rfl⟩
        | ok w3 =>
          simp only [mergeLoop, hv, writeValue_eq, hw]
          exact loop_outcome_cons rt w w3 calls (templateSheet,
            targetColumn ++ toString (GoFloat64.toInt startRow + (i : Int)), value) _ hw
            (ih (i + 1) w3 _)
    | null => simpa [mergeLoop] using ih (i + 1) w calls
    | bool b => simpa [mergeLoop] using ih (i + 1) w calls
    | num x => simpa [mergeLoop] using ih (i + 1) w calls
    | str x => simpa [mergeLoop] using ih (i + 1) w calls
    | arr x => simpa [mergeLoop] using ih (i + 1) w calls

theorem multiLoop_outcome {W : Type} (rt : Runtime F W) (templateSheet targetColumn : String) :
    ∀ (entries : List (Json F)) (i : Nat) (w : W) (calls : List (Call F W)),
      (∃ (writes : List (String × String × Json F)) (w2 : W),
          (multiLoop rt templateSheet targetColumn entries i w calls).1
            = calls ++ writes.map writeCall
          ∧ applyWrites rt w writes = .ok w2
          ∧ ((multiLoop rt templateSheet targetColumn entries i w calls).2 = .ok w2
            ∨ ∃ msg, (multiLoop rt templateSheet targetColumn entries i w calls).2
                = .error msg))
      ∨ (∃ (init : List (String × String × Json F)) (y : String × String × Json F)
            (w2 : W) (e : String),
          (multiLoop rt templateSheet targetColumn entries i w calls).1
            = calls ++ (init ++ [y]).map writeCall
          ∧ applyWrites rt w init = .ok w2
          ∧ rt.SetCellValue w2 y.1 y.2.1 y.2.2 = .error e
          ∧ (multiLoop rt templateSheet targetColumn entries i w calls).2
              = .error ("failed to set cell " ++ y.2.1 ++ ": " ++ e)) := by
  intro entries
  induction entries with
  | nil =>
    intro i w calls
    left
    exact ⟨[], w, by simp [multiLoop], rfl, Or.inl rfl⟩
  | cons e rest ih =>
    intro i w calls
    rw [multiLoop_cons]
    cases hv : entryValue e with
    | none =>
      simp only []
      exact ih _ _ _
    | some value =>
      simp only []
      cases ht : entryTargetRow e with
      | none =>
        simp only []
        left
        exact ⟨[], w, by simp, rfl, Or.inr ⟨_, rfl⟩⟩
      | some targetRow =>
        simp only []
        cases hw : rt.SetCellValue w templateSheet
            (targetColumn ++ toString (GoFloat64.toInt targetRow)) value with
        | error err =>
          simp only []
          right
          exact ⟨[], (templateSheet, targetColumn ++ toString (GoFloat64.toInt targetRow), value),
            w, err, by simp [writeCall], rfl, hw, rfl⟩
        | ok w3 =>
          simp only []
          exact loop_outcome_cons rt w w3 calls
            (templateSheet, targetColumn ++ toString (GoFloat64.toInt targetRow), value) _ hw
            (ih (i + 1) w3 _)


theorem columnLoop_outcome {W : Type} (rt : Runtime F W) (templateSheet : String) :
    ∀ (targets : List (Json F)) (w : W) (calls : List (Call F W)),
      (∃ (writes : List (String × String × Json F)) (w2 : W),
          (columnLoop rt templateSheet targets w calls).1 = calls ++ writes.map writeCall
          ∧ applyWrites rt w writes = .ok w2
          ∧ ((columnLoop rt templateSheet targets w calls).2 = .ok w2
            ∨ ∃ msg, (columnLoop rt templateSheet targets w calls).2 = .error msg))
      ∨ (∃ (init : List (String × String × Json F)) (y : String × String × Json F)
            (w2 : W) (e : String),
          (columnLoop rt templateSheet targets w calls).1 = calls ++ (init ++ [y]).map writeCall
          ∧ applyWrites rt w init = .ok w2
          ∧ rt.SetCellValue w2 y.1 y.2.1 y.2.2 = .error e
          ∧ (columnLoop rt templateSheet targets w calls).2
              = .error ("failed to set cell " ++ y.2.1 ++ ": " ++ e)) := by
  intro targets
  induction targets with
  | nil =>
    intro w calls
    left
    exact ⟨[], w, by simp [columnLoop], rfl, Or.inl rfl⟩
  | cons t rest ih =>
    intro w calls
    rw [columnLoop_cons]
    cases htarget : targetOf t with
    | none =>
      simp only []
      exact ih w calls
    | some target =>
      simp only []
      have hmulti := multiLoop_outcome rt templateSheet target.1 target.2 0 w calls
      cases hloop : multiLoop rt templateSheet target.1 target.2 0 w calls with
      | mk cs r =>
        rw [hloop] at hmulti
        cases r with
        | error e => exact hmulti
        | ok w3 =>
          simp only []
          rcases hmulti with ⟨writes, w2, h1, h2, h3⟩ | ⟨_, _, _, _, _, _, _, h4⟩
          · have hw : w2 = w3 := by
              rcases h3 with h3 | ⟨msg, h3⟩
              · exact (Except.ok.inj h3).symm
              · cases h3
            subst hw
            simp only [] at h1
            rcases ih w2 cs with ⟨writes2, w4, g1, g2, g3⟩ | ⟨init, y, w4, e, g1, g2, g3, g4⟩
            · left
              refine ⟨writes ++ writes2, w4, ?_, ?_, g3⟩
              · rw [g1, h1]
                simp
              · rw [applyWrites_append rt writes writes2 w w2 h2]
                exact g2
            · right
              refine ⟨writes ++ init, y, w4, e, ?_, ?_, g3, g4⟩
              · rw [g1, h1]
                simp
              · rw [applyWrites_append rt writes init w w2 h2]
                exact g2
          · cases h4

/-- From the write loop to the whole call: the directory is created and the workbook
saved only when the loop returned a workbook. -/
theorem run_outcome {W : Type} (rt : Runtime F W) (f : W)
    (out : List (Call F W) × Except String W) (p : String)
    (run : Run F W)
    (hrun : run = match out with
      | (calls, .error e) => { calls := calls, ret := .error e }
      | (calls, .ok w) => saveMerged rt w calls p)
    (h : (∃ (writes : List (String × String × Json F)) (w2 : W),
            out.1 = [] ++ writes.map writeCall
            ∧ applyWrites rt f writes = .ok w2
            ∧ (out.2 = .ok w2 ∨ ∃ msg, out.2 = .error msg))
        ∨ (∃ (init : List (String × String × Json F)) (y : String × String × Json F)
              (w2 : W) (e : String),
            out.1 = [] ++ (init ++ [y]).map writeCall
            ∧ applyWrites rt f init = .ok w2
            ∧ rt.SetCellValue w2 y.1 y.2.1 y.2.2 = .error e
            ∧ out.2 = .error ("failed to set cell " ++ y.2.1 ++ ": " ++ e))) :
    (∃ (init : List (String × String × Json F)) (x : String × String × Json F)
        (w : W) (e : String),
      run.calls = (init ++ [x]).map writeCall
      ∧ applyWrites rt f init = .ok w
      ∧ rt.SetCellValue w x.1 x.2.1 x.2.2 = .error e
      ∧ run.ret = .error ("failed to set cell " ++ x.2.1 ++ ": " ++ e))
    ∨ (∃ (writes : List (String × String × Json F)) (w : W),
        applyWrites rt f writes = .ok w
        ∧ ((run.calls = writes.map writeCall ∧ ∃ msg, run.ret = .error msg)
          ∨ (run.calls = writes.map writeCall ++ [.MkdirAll "exports"]
              ∧ ∃ msg, run.ret = .error msg)
          ∨ (∃ path, run.calls = writes.map writeCall ++ [.MkdirAll "exports", .SaveAs w path]))) := by
  obtain ⟨cs, r⟩ := out
  simp only [List.nil_append] at h
  cases r with
  | error e0 =>
    simp only [] at hrun
    subst hrun
    rcases h with ⟨writes, w2, h1, h2, _⟩ | ⟨init, y, w2, e, h1, h2, h3, h4⟩
    · right
      exact ⟨writes, w2, h2, Or.inl ⟨h1, e0, rfl⟩⟩
    · left
      exact ⟨init, y, w2, e, h1, h2, h3, by rw [Except.error.inj h4]⟩
  | ok w =>
    simp only [] at hrun
    subst hrun
    rcases h with ⟨writes, w2, h1, h2, h3⟩ | ⟨_, _, _, _, _, _, _, h4⟩
    · have hw : w2 = w := by
        rcases h3 with h3 | ⟨msg, h3⟩
        · exact (Except.ok.inj h3).symm
        · cases h3
      subst hw
      subst h1
      right
      refine ⟨writes, w2, h2, ?_⟩
      unfold saveMerged
      cases hm : rt.MkdirAll "exports" with
      | error e => exact Or.inr (Or.inl ⟨rfl, _, rfl⟩)
      | ok u =>
        cases hs : rt.SaveAs w2 p with
        | error e => exact Or.inr (Or.inr ⟨p, rfl⟩)
        | ok u2 => exact Or.inr (Or.inr ⟨p, rfl⟩)
    · cases h4


theorem MergeDataToTemplate_outcome {W : Type} (rt : Runtime F W) (templatePath : String)
    (mergeData : GoMap (Json F)) (f : W) (hopen : rt.OpenFile templatePath = .ok f) :
    (∃ (init : List (String × String × Json F)) (x : String × String × Json F)
        (w : W) (e : String),
      (MergeDataToTemplate rt templatePath mergeData).calls = (init ++ [x]).map writeCall
      ∧ applyWrites rt f init = .ok w
      ∧ rt.SetCellValue w x.1 x.2.1 x.2.2 = .error e
      ∧ (MergeDataToTemplate rt templatePath mergeData).ret
          = .error ("failed to set cell " ++ x.2.1 ++ ": " ++ e))
    ∨ (∃ (writes : List (String × String × Json F)) (w : W),
        applyWrites rt f writes = .ok w
        ∧ (((MergeDataToTemplate rt templatePath mergeData).calls = writes.map writeCall
              ∧ ∃ msg, (MergeDataToTemplate rt templatePath mergeData).ret = .error msg)
          ∨ ((MergeDataToTemplate rt templatePath mergeData).calls
                = writes.map writeCall ++ [.MkdirAll "exports"]
              ∧ ∃ msg, (MergeDataToTemplate rt templatePath mergeData).ret = .error msg)
          ∨ (∃ path, (MergeDataToTemplate rt templatePath mergeData).calls
                = writes.map writeCall ++ [.MkdirAll "exports", .SaveAs w path]))) := by
  have hnil : ∀ msg : String,
      (∃ (writes : List (String × String × Json F)) (w2 : W),
            (([], .error msg) : List (Call F W) × Except String W).1
              = [] ++ writes.map writeCall
            ∧ applyWrites rt f writes = .ok w2
            ∧ ((([], .error msg) : List (Call F W) × Except String W).2 = .ok w2
              ∨ ∃ m, (([], .error msg) : List (Call F W) × Except String W).2 = .error m))
        ∨ (∃ (init : List (String × String × Json F)) (y : String × String × Json F)
              (w2 : W) (e : String),
            (([], .error msg) : List (Call F W) × Except String W).1
              = [] ++ (init ++ [y]).map writeCall
            ∧ applyWrites rt f init = .ok w2
            ∧ rt.SetCellValue w2 y.1 y.2.1 y.2.2 = .error e
            ∧ (([], .error msg) : List (Call F W) × Except String W).2
                = .error ("failed to set cell " ++ y.2.1 ++ ": " ++ e)) :=
    fun msg => Or.inl ⟨[], f, rfl, rfl, Or.inr ⟨msg, rfl⟩⟩
  unfold MergeDataToTemplate
  simp only [hopen]
  split
  · split
    · split
      · split
        · exact run_outcome rt f _ _ _ rfl (mergeLoop_outcome rt _ _ _ _ 0 f [])
        · exact run_outcome rt f _ "" _ rfl (hnil _)
      · exact run_outcome rt f _ "" _ rfl (hnil _)
    · exact run_outcome rt f _ "" _ rfl (hnil _)
  · exact run_outcome rt f _ "" _ rfl (hnil _)


/-- C17: for both merge operations, a call on a template that opens ends in one of
two ways.  Either a cell write failed: then that write is the last call made (no
later write is attempted, no directory is created, the workbook is not saved) and
the call returns the write error.  Or every write of the call succeeded: only then
may MkdirAll and SaveAs follow, and SaveAs is given the workbook that results from
all the writes. -/
theorem merge_write_failure_aborts {W : Type} (rt : Runtime F W) (templatePath : String)
    (mergeData : GoMap (Json F)) (f : W) (hopen : rt.OpenFile templatePath = .ok f)
    (run : Run F W)
    (hrun : run = MergeDataToTemplate rt templatePath mergeData
      ∨ run = MergeMultipleColumnsToTemplate rt templatePath mergeData) :
    (∃ (init : List (String × String × Json F)) (x : String × String × Json F)
        (w : W) (e : String),
      run.calls = (init ++ [x]).map writeCall
      ∧ applyWrites rt f init = .ok w
      ∧ rt.SetCellValue w x.1 x.2.1 x.2.2 = .error e
      ∧ run.ret = .error ("failed to set cell " ++ x.2.1 ++ ": " ++ e))
    ∨ (∃ (writes : List (String × String × Json F)) (w : W),
        applyWrites rt f writes = .ok w
        ∧ ((run.calls = writes.map writeCall ∧ ∃ msg, run.ret = .error msg)
          ∨ (run.calls = writes.map writeCall ++ [.MkdirAll "exports"]
              ∧ ∃ msg, run.ret = .error msg)
          ∨ (∃ path, run.calls = writes.map writeCall ++ [.MkdirAll "exports", .SaveAs w path]))) := by
  rcases hrun with hrun | hrun
  · rw [hrun]
    exact MergeDataToTemplate_outcome rt templatePath mergeData f hopen
  · rw [hrun]
    unfold MergeMultipleColumnsToTemplate
    simp only [hopen]
    split
    · split
      · exact run_outcome rt f _ _ _ rfl (columnLoop_outcome rt _ _ f [])
      · exact MergeDataToTemplate_outcome rt templatePath mergeData f hopen
    · exact run_outcome rt f ([], .error "template sheet not specified") "" _ rfl
        (Or.inl ⟨[], f, rfl, rfl, Or.inr ⟨_, rfl⟩⟩)

theorem merge_write_failure_aborts_witness :
    lockedRuntime.OpenFile "template.xlsx" = .ok templateBook
    ∧ (MergeDataToTemplate lockedRuntime "template.xlsx" singleMergeData).calls
        = [.SetCellValue "Sheet1" "L11" (.num (.fin 7 0)),
           .SetCellValue "Sheet1" "L12" (.num (.fin 9 0))]
    ∧ (MergeDataToTemplate lockedRuntime "template.xlsx" singleMergeData).ret
        = .error "failed to set cell L12: cell is locked"
    ∧ (MergeMultipleColumnsToTemplate lockedRuntime "template.xlsx" explicitMergeData).calls
        = [.SetCellValue "Sheet1" "L11" (.num (.fin 7 0)),
           .SetCellValue "Sheet1" "L12" (.num (.fin 9 0))]
    ∧ (MergeMultipleColumnsToTemplate lockedRuntime "template.xlsx" explicitMergeData).ret
        = .error "failed to set cell L12: cell is locked"
    ∧ ((∃ (init : List (String × String × Json Exact)) (x : String × String × Json Exact)
          (w : SampleBook) (e : String),
        (MergeMultipleColumnsToTemplate lockedRuntime "template.xlsx" explicitMergeData).calls
          = (init ++ [x]).map writeCall
        ∧ applyWrites lockedRuntime templateBook init = .ok w
        ∧ lockedRuntime.SetCellValue w x.1 x.2.1 x.2.2 = .error e
        ∧ (MergeMultipleColumnsToTemplate lockedRuntime "template.xlsx" explicitMergeData).ret
            = .error ("failed to set cell " ++ x.2.1 ++ ": " ++ e))
      ∨ (∃ (writes : List (String × String × Json Exact)) (w : SampleBook),
          applyWrites lockedRuntime templateBook writes = .ok w
          ∧ (((MergeMultipleColumnsToTemplate lockedRuntime "template.xlsx"
                  explicitMergeData).calls = writes.map writeCall
                ∧ ∃ msg, (MergeMultipleColumnsToTemplate lockedRuntime "template.xlsx"
                  explicitMergeData).ret = .error msg)
            ∨ ((MergeMultipleColumnsToTemplate lockedRuntime "template.xlsx"
                  explicitMergeData).calls = writes.map writeCall ++ [.MkdirAll "exports"]
                ∧ ∃ msg, (MergeMultipleColumnsToTemplate lockedRuntime "template.xlsx"
                  explicitMergeData).ret = .error msg)
            ∨ (∃ path, (MergeMultipleColumnsToTemplate lockedRuntime "template.xlsx"
                  explicitMergeData).calls
                  = writes.map writeCall ++ [.MkdirAll "exports", .SaveAs w path])))) :=
  ⟨rfl, rfl, rfl, rfl, rfl,
    merge_write_failure_aborts (F := Exact) lockedRuntime "template.xlsx" explicitMergeData
      templateBook rfl _ (Or.inr rfl)⟩


/-! ## Merging into a template: addressing in a multi-target merge -/

theorem multiLoop_ok {W : Type} (rt : Runtime F W) (templateSheet targetColumn : String) :
    ∀ (entries : List (Json F)) (i : Nat) (w : W) (calls cs : List (Call F W)) (w2 : W),
      multiLoop rt templateSheet targetColumn entries i w calls = (cs, .ok w2) →
      cs = calls ++ (explicitWrites templateSheet targetColumn entries).map writeCall
      ∧ applyWrites rt w (explicitWrites templateSheet targetColumn entries) = .ok w2
      ∧ ∀ e ∈ entries, lacksTargetRow e = false := by
  intro entries
  induction entries with
  | nil =>
    intro i w calls cs w2 h
    simp only [multiLoop, Prod.mk.injEq, Except.ok.injEq] at h
    simp [explicitWrites, applyWrites, h.1, h.2]
  | cons e rest ih =>
    intro i w calls cs w2 h
    rw [multiLoop_cons] at h
    cases hv : entryValue e with
    | none =>
      rw [hv] at h
      simp only [] at h
      obtain ⟨h1, h2, h3⟩ := ih _ _ _ _ _ h
      simp only [explicitWrites, hv]
      refine ⟨h1, h2, ?_⟩
      intro e2 he2
      rcases List.mem_cons.mp he2 with heq | hmem
      · subst heq
        simp [lacksTargetRow, hv]
      · exact h3 e2 hmem
    | some value =>
      rw [hv] at h
      simp only [] at h
      cases ht : entryTargetRow e with
      | none =>
        rw [ht] at h
        simp at h
      | some targetRow =>
        rw [ht] at h
        simp only [] at h
        cases hw : rt.SetCellValue w templateSheet
            (targetColumn ++ toString (GoFloat64.toInt targetRow)) value with
        | error err =>
          rw [hw] at h
          simp at h
        | ok w3 =>
          rw [hw] at h
          simp only [] at h
          obtain ⟨h1, h2, h3⟩ := ih _ _ _ _ _ h
          simp only [explicitWrites, hv, ht, applyWrites, hw, List.map_cons]
          refine ⟨?_, h2, ?_⟩
          · rw [h1]
            simp [writeCall]
          · intro e2 he2
            rcases List.mem_cons.mp he2 with heq | hmem
            · subst heq
              simp [lacksTargetRow, ht]
            · exact h3 e2 hmem

theorem multiLoop_total {W : Type} (rt : Runtime F W) (templateSheet targetColumn : String)
    (htotal : ∀ w sheet cell v, ∃ w2, rt.SetCellValue w sheet cell v = .ok w2) :
    ∀ (entries : List (Json F)) (i : Nat) (w : W) (calls : List (Call F W)),
      (∀ e ∈ entries, lacksTargetRow e = false) →
      ∃ cs w2, multiLoop rt templateSheet targetColumn entries i w calls = (cs, .ok w2) := by
  intro entries
  induction entries with
  | nil => intro i w calls _; exact ⟨_, _, rfl⟩
  | cons e rest ih =>
    intro i w calls hno
    have hrest : ∀ e2 ∈ rest, lacksTargetRow e2 = false :=
      fun e2 h2 => hno e2 (List.mem_cons_of_mem _ h2)
    rw [multiLoop_cons]
    cases hv : entryValue e with
    | none =>
      simp only []
      exact ih _ _ _ hrest
    | some value =>
      simp only []
      cases ht : entryTargetRow e with
      | none =>
        have h := hno e (List.mem_cons_self _ _)
        simp [lacksTargetRow, hv, ht] at h
      | some targetRow =>
        simp only []
        obtain ⟨w3, hw⟩ := htotal w templateSheet
          (targetColumn ++ toString (GoFloat64.toInt targetRow)) value
        rw [hw]
        simp only []
        exact ih _ _ _ hrest

theorem columnLoop_ok {W : Type} (rt : Runtime F W) (templateSheet : String) :
    ∀ (targets : List (Json F)) (w : W) (calls cs : List (Call F W)) (w2 : W),
      columnLoop rt templateSheet targets w calls = (cs, .ok w2) →
      cs = calls ++ (multiTargetWrites templateSheet targets).map writeCall
      ∧ applyWrites rt w (multiTargetWrites templateSheet targets) = .ok w2
      ∧ ∀ t ∈ targets, ∀ target, targetOf t = some target →
          ∀ e ∈ target.2, lacksTargetRow e = false := by
  intro targets
  induction targets with
  | nil =>
    intro w calls cs w2 h
    simp only [columnLoop, Prod.mk.injEq, Except.ok.injEq] at h
    simp [multiTargetWrites, applyWrites, h.1, h.2]
  | cons t rest ih =>
    intro w calls cs w2 h
    rw [columnLoop_cons] at h
    cases htarget : targetOf t with
    | none =>
      rw [htarget] at h
      simp only [] at h
      obtain ⟨h1, h2, h3⟩ := ih _ _ _ _ h
      simp only [multiTargetWrites, htarget]
      refine ⟨h1, h2, ?_⟩
      intro t2 ht2 target ht e he
      rcases List.mem_cons.mp ht2 with heq | hmem
      · subst heq
        rw [htarget] at ht
        cases ht
      · exact h3 t2 hmem target ht e he
    | some target =>
      rw [htarget] at h
      simp only [] at h
      cases hloop : multiLoop rt templateSheet target.1 target.2 0 w calls with
      | mk cs1 r =>
        rw [hloop] at h
        cases r with
        | error err => simp at h
        | ok w3 =>
          simp only [] at h
          obtain ⟨m1, m2, m3⟩ := multiLoop_ok rt templateSheet target.1 target.2 0 w calls cs1 w3 hloop
          obtain ⟨h1, h2, h3⟩ := ih _ _ _ _ h
          simp only [multiTargetWrites, htarget]
          refine ⟨?_, ?_, ?_⟩
          · rw [h1, m1]
            simp
          · rw [applyWrites_append rt _ _ w w3 m2]
            exact h2
          · intro t2 ht2 target2 ht e he
            rcases List.mem_cons.mp ht2 with heq | hmem
            · subst heq
              rw [htarget] at ht
              cases ht
              exact m3 e he
            · exact h3 t2 hmem target2 ht e he

theorem columnLoop_total {W : Type} (rt : Runtime F W) (templateSheet : String)
    (htotal : ∀ w sheet cell v, ∃ w2, rt.SetCellValue w sheet cell v = .ok w2) :
    ∀ (targets : List (Json F)) (w : W) (calls : List (Call F W)),
      (∀ t ∈ targets, ∀ target, targetOf t = some target →
        ∀ e ∈ target.2, lacksTargetRow e = false) →
      ∃ cs w2, columnLoop rt templateSheet targets w calls = (cs, .ok w2) := by
  intro targets
  induction targets with
  | nil => intro w calls _; exact ⟨_, _, rfl⟩
  | cons t rest ih =>
    intro w calls hno
    have hrest : ∀ t2 ∈ rest, ∀ target, targetOf t2 = some target →
        ∀ e ∈ target.2, lacksTargetRow e = false :=
      fun t2 h2 => hno t2 (List.mem_cons_of_mem _ h2)
    rw [columnLoop_cons]
    cases htarget : targetOf t with
    | none =>
      simp only []
      exact ih _ _ hrest
    | some target =>
      simp only []
      obtain ⟨cs1, w3, hloop⟩ := multiLoop_total rt templateSheet target.1 htotal target.2 0 w calls
        (hno t (List.mem_cons_self _ _) target htarget)
      rw [hloop]
      simp only []
      exact ih _ _ hrest


/-- C18 (amended): in a multi-target merge (a payload whose `mergeData` is a list of
targets) every MergeTarget is merged with explicit addressing: a call that returns
a path wrote, target after target and entry after entry, each value to the row its
entry carries in the target column, then saved the resulting workbook, and no
value-carrying entry lacked its target row; with a runtime whose calls succeed and
no such entry the call does return a path.  A target with a value-carrying entry
that carries no target row is not merged with implicit addressing: the call
returns an error.  Implicit addressing (the value at index i goes to row
startRow + i) is what the single-target merge does, which the multi-target
operation becomes only when the payload has no list of targets. -/
theorem MergeMultipleColumnsToTemplate_addressing {W : Type} (rt : Runtime F W)
    (templatePath : String) (mergeData : GoMap (Json F)) (f : W) (templateSheet : String)
    (hopen : rt.OpenFile templatePath = .ok f)
    (hts : mergeData.get "templateSheet" = some (.str templateSheet)) :
    (∀ targets : List (Json F), mergeData.get "mergeData" = some (.arr targets) →
      (∀ path, (MergeMultipleColumnsToTemplate rt templatePath mergeData).ret = .ok path →
        (∀ t ∈ targets, ∀ target, targetOf t = some target →
          ∀ e ∈ target.2, lacksTargetRow e = false)
        ∧ ∃ w : W,
            (MergeMultipleColumnsToTemplate rt templatePath mergeData).calls
              = (multiTargetWrites templateSheet targets).map writeCall
                ++ [.MkdirAll "exports", .SaveAs w path]
            ∧ applyWrites rt f (multiTargetWrites templateSheet targets) = .ok w)
      ∧ ((∃ t ∈ targets, ∃ target, targetOf t = some target
            ∧ ∃ e ∈ target.2, lacksTargetRow e = true) →
          ∃ msg, (MergeMultipleColumnsToTemplate rt templatePath mergeData).ret = .error msg)
      ∧ ((∀ w sheet cell v, ∃ w2, rt.SetCellValue w sheet cell v = .ok w2) →
          (∀ p, rt.MkdirAll p = .ok ()) → (∀ w p, rt.SaveAs w p = .ok ()) →
          (∀ t ∈ targets, ∀ target, targetOf t = some target →
            ∀ e ∈ target.2, lacksTargetRow e = false) →
          ∃ path, (MergeMultipleColumnsToTemplate rt templatePath mergeData).ret = .ok path))
    ∧ ((∀ targets : List (Json F), mergeData.get "mergeData" ≠ some (.arr targets)) →
        MergeMultipleColumnsToTemplate rt templatePath mergeData
          = MergeDataToTemplate rt templatePath mergeData) := by
  constructor
  · intro targets hmd
    rw [MergeMultipleColumnsToTemplate_eq rt templatePath mergeData f templateSheet targets
      hopen hts hmd]
    refine ⟨?_, ?_, ?_⟩
    · intro path hret
      cases hloop : columnLoop rt templateSheet targets f [] with
      | mk cs r =>
        rw [hloop] at hret
        cases r with
        | error err => cases hret
        | ok w =>
          simp only [] at hret ⊢
          obtain ⟨h1, h2, h3⟩ := columnLoop_ok rt templateSheet targets f [] cs w hloop
          obtain ⟨hp, hc⟩ := saveMerged_ok rt w cs _ path hret
          refine ⟨h3, w, ?_, h2⟩
          rw [hc, h1, hp]
          simp
    · intro hlack
      obtain ⟨msg, hmsg⟩ := (columnLoop_spec rt templateSheet targets f []).2.2.2 hlack
      cases hloop : columnLoop rt templateSheet targets f [] with
      | mk cs r =>
        rw [hloop] at hmsg
        simp only [] at hmsg
        subst hmsg
        exact ⟨msg, rfl⟩
    · intro htotal hmk hsave hno
      obtain ⟨cs, w, hloop⟩ := columnLoop_total rt templateSheet htotal targets f [] hno
      rw [hloop]
      exact ⟨_, saveMerged_total rt w cs _ (hmk _) (hsave _ _)⟩
  · intro hno
    unfold MergeMultipleColumnsToTemplate
    simp only [hopen, hts]

theorem MergeMultipleColumnsToTemplate_addressing_witness :
    sampleRuntime.OpenFile "template.xlsx" = .ok templateBook
    ∧ explicitMergeData.get "templateSheet" = some (.str "Sheet1")
    ∧ (MergeMultipleColumnsToTemplate sampleRuntime "template.xlsx" explicitMergeData).ret
        = .ok "exports/merged_multi_1700000000.xlsx"
    ∧ ∃ w : SampleBook,
        (MergeMultipleColumnsToTemplate sampleRuntime "template.xlsx" explicitMergeData).calls
          = [.SetCellValue "Sheet1" "L11" (.num (.fin 7 0)),
             .SetCellValue "Sheet1" "L12" (.num (.fin 9 0)),
             .SetCellValue "Sheet1" "L13" (.num (.fin 11 0)),
             .SetCellValue "Sheet1" "M20" (.num (.fin 5 0)),
             .MkdirAll "exports", .SaveAs w "exports/merged_multi_1700000000.xlsx"]
        ∧ readCell w "Sheet1" "L12" = some "9" ∧ readCell w "Sheet1" "M20" = some "5"
        ∧ readCell w "Sheet1" "L10" = some "Income" := by
  refine ⟨rfl, rfl, rfl, ?_⟩
  obtain ⟨_, w, hcalls, hw⟩ :=
    ((MergeMultipleColumnsToTemplate_addressing (F := Exact) sampleRuntime "template.xlsx"
      explicitMergeData templateBook "Sheet1" rfl rfl).1 _ rfl).1
      "exports/merged_multi_1700000000.xlsx" rfl
  have hw2 : w = [(("Sheet1", "M20"), "5"), (("Sheet1", "L13"), "11"), (("Sheet1", "L12"), "9"),
      (("Sheet1", "L11"), "7"), (("Sheet1", "L10"), "Income"), (("Sheet1", "K11"), "unit"),
      (("Sheet1", "L14"), "total")] := by
    have h3 : applyWrites sampleRuntime templateBook
        (multiTargetWrites "Sheet1" [
          Json.obj [("targetColumn", .str "L"),
            ("calculatedData", .arr [
              .obj [("value", .num (.fin 7 0)), ("targetRow", .num (.fin 11 0))],
              .obj [("value", .num (.fin 9 0)), ("targetRow", .num (.fin 12 0))],
              .obj [("value", .num (.fin 11 0)), ("targetRow", .num (.fin 13 0))]])],
          Json.obj [("targetColumn", .str "M"),
            ("calculatedData", .arr [
              .obj [("value", .num (.fin 5 0)), ("targetRow", .num (.fin 20 0))]])]])
        = .ok [(("Sheet1", "M20"), "5"), (("Sheet1", "L13"), "11"), (("Sheet1", "L12"), "9"),
          (("Sheet1", "L11"), "7"), (("Sheet1", "L10"), "Income"), (("Sheet1", "K11"), "unit"),
          (("Sheet1", "L14"), "total")] := rfl
    rw [h3] at hw
    exact (Except.ok.inj hw).symm
  subst hw2
  exact ⟨_, hcalls, by decide, by decide, by decide⟩

/-- C18 (as stated) fails for a target with implicit addressing: a multi-target
payload whose target gives a start row and the values 7 and 9 without target rows
is not merged into L11 and L12; the call returns the missing-address error, writes
nothing and saves nothing. -/
theorem MergeMultipleColumnsToTemplate_addressing_counterexample :
    sampleRuntime.OpenFile "template.xlsx" = .ok templateBook
    ∧ (MergeMultipleColumnsToTemplate sampleRuntime "template.xlsx" implicitMultiData).ret
        = .error "targetRow not found in calculated data for row 0"
    ∧ (MergeMultipleColumnsToTemplate sampleRuntime "template.xlsx" implicitMultiData).calls
        = [] :=
  ⟨rfl, rfl, rfl⟩


/-! ## Column set of a sheet -/

theorem columnNames_default :
    columnNames 52
      = ["A", "B", "C", "D", "E", "F", "G", "H", "I", "J", "K", "L", "M",
         "N", "O", "P", "Q", "R", "S", "T", "U", "V", "W", "X", "Y", "Z",
         "AA", "AB", "AC", "AD", "AE", "AF", "AG", "AH", "AI", "AJ", "AK", "AL", "AM",
         "AN", "AO", "AP", "AQ", "AR", "AS", "AT", "AU", "AV", "AW", "AX", "AY", "AZ"] := by
  decide

/-- C21: the column set built by `getAllExcelColumns` is never empty: when the
used-column bound of the sheet converts to a column number n >= 1 it is exactly the
n identifiers of the columns 1..n in order, and when the bound does not convert or
is zero it is exactly the 52 identifiers A..AZ. -/
theorem getAllExcelColumns_column_set (f : File) (sheetName : String) :
    getAllExcelColumns f sheetName ≠ []
    ∧ (∀ n : Nat, ColumnNameToNumber (f.GetSheetDimension sheetName) = some n → 1 ≤ n →
        (getAllExcelColumns f sheetName).length = n
        ∧ ∀ i : Nat, i < n →
            ∃ name, ColumnNumberToName ((i : Int) + 1) = some name
              ∧ (getAllExcelColumns f sheetName)[i]? = some name)
    ∧ ((ColumnNameToNumber (f.GetSheetDimension sheetName) = none
          ∨ ColumnNameToNumber (f.GetSheetDimension sheetName) = some 0) →
        getAllExcelColumns f sheetName
          = ["A", "B", "C", "D", "E", "F", "G", "H", "I", "J", "K", "L", "M",
             "N", "O", "P", "Q", "R", "S", "T", "U", "V", "W", "X", "Y", "Z",
             "AA", "AB", "AC", "AD", "AE", "AF", "AG", "AH", "AI", "AJ", "AK", "AL", "AM",
             "AN", "AO", "AP", "AQ", "AR", "AS", "AT", "AU", "AV", "AW", "AX", "AY",
             "AZ"]) := by
  refine ⟨?_, ?_, ?_⟩
  · obtain ⟨m, h1, _, hm⟩ := getAllExcelColumns_eq f sheetName
    intro hnil
    have hlen : (getAllExcelColumns f sheetName).length = m := by
      rw [hm, columnNames_length]
    rw [hnil] at hlen
    simp only [List.length_nil] at hlen
    omega
  · intro n hn h1
    have hle := ColumnNameToNumber_le _ n hn
    have hcols : getAllExcelColumns f sheetName = columnNames n := by
      unfold getAllExcelColumns
      simp only [columnNames_length, hn]
      have h0 : n ≠ 0 := by omega
      simp [h0]
    rw [hcols]
    refine ⟨columnNames_length n, ?_⟩
    intro i hi
    obtain ⟨name, hname, _⟩ := name_of_number (i + 1) (by omega) (by omega)
    have hcast : ((i + 1 : Nat) : Int) = (i : Int) + 1 := by push_cast; rfl
    rw [hcast] at hname
    refine ⟨name, hname, ?_⟩
    unfold columnNames
    rw [List.getElem?_map, List.getElem?_range hi]
    simp [hname]
  · intro h
    rw [← columnNames_default]
    unfold getAllExcelColumns
    rcases h with h | h
    · simp [h, columnNames_length]
    · simp [h, columnNames_length]

theorem getAllExcelColumns_column_set_witness :
    ColumnNameToNumber ((sampleFile salesRows "C").GetSheetDimension "Sheet1") = some 3
    ∧ (getAllExcelColumns (sampleFile salesRows "C") "Sheet1").length = 3
    ∧ getAllExcelColumns (sampleFile salesRows "C") "Sheet1" = ["A", "B", "C"]
    ∧ ColumnNameToNumber ((sampleFile salesRows "A1:B3").GetSheetDimension "Sheet1") = none
    ∧ (getAllExcelColumns (sampleFile salesRows "A1:B3") "Sheet1").length = 52 := by
  obtain ⟨_, hn, _⟩ := getAllExcelColumns_column_set (sampleFile salesRows "C") "Sheet1"
  obtain ⟨_, _, hd⟩ := getAllExcelColumns_column_set (sampleFile salesRows "A1:B3") "Sheet1"
  refine ⟨by decide, (hn 3 (by decide) (by decide)).1, by decide, by decide, ?_⟩
  rw [hd (Or.inl (by decide))]
  rfl


/-! ## Row-wise calculation: an operation outside the supported set -/

theorem buildFormula_unknown (operation : String) (sourceColumns : List String)
    (h1 : operation ≠ "add") (h2 : operation ≠ "subtract") (h3 : operation ≠ "multiply")
    (h4 : operation ≠ "divide") (h5 : operation ≠ "copy") :
    buildFormula operation sourceColumns = some "" := by
  simp [buildFormula, h1, h2, h3, h4, h5]

theorem calculate_unknown (operation : String) (v : F) (tail : List F)
    (h1 : operation ≠ "add") (h2 : operation ≠ "subtract") (h3 : operation ≠ "multiply")
    (h4 : operation ≠ "divide") : calculate operation (v :: tail) = v := by
  have hstep : ∀ (a x : F), applyOperation operation a x = a := by
    intro a x
    simp [applyOperation, h1, h2, h3, h4]
  unfold calculate
  simp only []
  induction tail with
  | nil => rfl
  | cons x more ih => rw [List.foldl_cons, hstep, ih]

theorem foldl_valuesStep_prefix (row : List String) :
    ∀ (cols : List String) (acc : List F),
      ∃ tail, cols.foldl (valuesStep row) acc = acc ++ tail := by
  intro cols
  induction cols with
  | nil => intro acc; exact ⟨[], by simp⟩
  | cons c rest ih =>
    intro acc
    rw [List.foldl_cons]
    cases hc : columnIndex c with
    | none =>
      have hstep : valuesStep row acc c = acc := by simp [valuesStep, hc]
      rw [hstep]
      exact ih acc
    | some idx =>
      have hstep : valuesStep row acc c = acc ++ [sourceValue row idx] := by
        simp [valuesStep, hc]
      obtain ⟨tail, ht⟩ := ih (acc ++ [sourceValue row idx])
      exact ⟨sourceValue row idx :: tail, by rw [hstep, ht]; simp⟩

/-- The computed value stored by the entry of a row under an operation that the
fold does not know: the resolved value of the first source column. -/
theorem numericRow_unknown (req : RowCalculationRequest) (rowIndex : Nat) (row : List String)
    (h1 : req.Operation ≠ "add") (h2 : req.Operation ≠ "subtract")
    (h3 : req.Operation ≠ "multiply") (h4 : req.Operation ≠ "divide") :
    (∀ first rest, req.SourceColumns = first :: rest → columnIndex first ≠ none →
        "calculated_value" ∉ rest →
        (numericRow req rowIndex row : Row F).get "calculated_value"
          = some (.float (contribution row first)))
    ∧ (req.SourceColumns = [] →
        (numericRow req rowIndex row : Row F).get "calculated_value"
          = some (.float GoFloat64.zero)) := by
  constructor
  · intro first rest hsrc hfirst hkey
    obtain ⟨idx, hidx⟩ := Option.ne_none_iff_exists'.mp hfirst
    have hne : "calculated_value" ≠ first := by
      intro h
      rw [← h] at hfirst
      exact hfirst (by decide)
    have hnot : "calculated_value" ∉ req.SourceColumns := by
      rw [hsrc]
      simp only [List.mem_cons, not_or]
      exact ⟨hne, hkey⟩
    obtain ⟨tail, htail⟩ := foldl_valuesStep_prefix (F := F) row rest [sourceValue row idx]
    have hvalues : req.SourceColumns.foldl (valuesStep row) ([] : List F)
        = contribution row first :: tail := by
      rw [hsrc, List.foldl_cons]
      have hstep : valuesStep row ([] : List F) first = [sourceValue row idx] := by
        simp [valuesStep, hidx]
      rw [hstep, htail, contribution_eq_sourceValue row first idx hidx]
      rfl
    unfold numericRow
    simp only []
    rw [echoSources_get_other _ _ _ _ hnot, newRowResult_calculated, hvalues,
      calculate_unknown req.Operation _ tail h1 h2 h3 h4]
  · intro hsrc
    unfold numericRow
    simp only []
    rw [hsrc]
    simp only [List.foldl_nil, echoSources]
    rw [newRowResult_calculated]
    rfl

/-- C22: `CalculateRowWise` does not reject an operation string outside add,
subtract, multiply, divide, copy: for every such string and every valid start row
of a readable sheet it returns a result with an empty Formula and one entry per row
of the range, and the calculated_value of each row is the resolved value of the
first source column (the number in its cell, 0 when the cell is absent, blank or
not numeric): no fold step is applied to the further columns.  Here the first
source column is a valid column identifier and no further source identifier is the
key `calculated_value` itself; with no source column at all the value is 0. -/
theorem CalculateRowWise_unknown_operation (disk : Disk) (filePath : String)
    (req : RowCalculationRequest) (f : File) (rows : List (List String))
    (hopen : disk filePath = .ok f) (hrows : f.GetRows req.SheetName = .ok rows)
    (h0 : 0 ≤ req.StartRow) (h1 : req.StartRow < (rows.length : Int))
    (hop : req.Operation ≠ "add" ∧ req.Operation ≠ "subtract" ∧ req.Operation ≠ "multiply"
      ∧ req.Operation ≠ "divide" ∧ req.Operation ≠ "copy") :
    ∃ res : RowCalculationResult F, CalculateRowWise disk filePath req = .ok res
      ∧ res.Formula = ""
      ∧ (res.Results.length : Int) = resolveEndRow rows.length req - req.StartRow + 1
      ∧ ∀ (k : Nat) (row : List String),
          req.StartRow + (k : Int) ≤ resolveEndRow rows.length req →
          rows[req.StartRow.toNat + k]? = some row →
          ∃ entry : Row F, res.Results[k]? = some entry
            ∧ (∀ first rest, req.SourceColumns = first :: rest → columnIndex first ≠ none →
                "calculated_value" ∉ rest →
                entry.get "calculated_value" = some (.float (contribution row first)))
            ∧ (req.SourceColumns = [] →
                entry.get "calculated_value" = some (.float GoFloat64.zero)) := by
  obtain ⟨o1, o2, o3, o4, o5⟩ := hop
  have hrange : ¬ (req.StartRow < 0 ∨ req.StartRow ≥ (rows.length : Int)) := by omega
  obtain ⟨hlo, hhi⟩ := resolveEndRow_bounds rows.length req h1
  obtain ⟨_, _, hok⟩ := CalculateRowWise_cases (F := F) disk filePath req f rows hopen hrows
  obtain ⟨res, hres, _, _, hformula, _, _, _, hresults, _⟩ :=
    hok hrange "" (buildFormula_unknown req.Operation req.SourceColumns o1 o2 o3 o4 o5)
  have hidx : ∀ i ∈ List.range' req.StartRow.toNat
      (resolveEndRow rows.length req + 1 - req.StartRow).toNat, i < rows.length := by
    intro i hi
    rw [List.mem_range'_1] at hi
    omega
  refine ⟨res, hres, hformula, ?_, ?_⟩
  · rw [hresults, rowLoop_numeric rows req o5 _ [] hidx, List.nil_append]
    simp only [List.length_map, List.length_range']
    omega
  · intro k row hk hrow
    have hklt : k < (resolveEndRow rows.length req + 1 - req.StartRow).toNat := by omega
    have hlt : req.StartRow.toNat + k < rows.length := by
      by_contra hge
      rw [List.getElem?_eq_none (by omega)] at hrow
      cases hrow
    have hrowAt : rows.getD (req.StartRow.toNat + k) [] = row := by
      rw [List.getD_eq_getElem _ _ hlt]
      rw [List.getElem?_eq_getElem hlt] at hrow
      exact Option.some.inj hrow
    obtain ⟨g1, g2⟩ := numericRow_unknown (F := F) req (req.StartRow.toNat + k) row o1 o2 o3 o4
    refine ⟨numericRow req (req.StartRow.toNat + k) row, ?_, g1, g2⟩
    rw [hresults, rowLoop_numeric rows req o5 _ [] hidx, List.nil_append,
      range_map_get _ _ _ k hklt, hrowAt]

theorem CalculateRowWise_unknown_operation_witness :
    sampleDisk [["4", "6"], ["x", "2"]] "B" "book.xlsx"
        = .ok (sampleFile [["4", "6"], ["x", "2"]] "B")
    ∧ (sampleFile [["4", "6"], ["x", "2"]] "B").GetRows "Sheet1" = .ok [["4", "6"], ["x", "2"]]
    ∧ ∃ (res : RowCalculationResult Exact) (e0 e1 : Row Exact),
        CalculateRowWise (sampleDisk [["4", "6"], ["x", "2"]] "B") "book.xlsx"
          (sampleRowRequest ["A", "B"] "C" "power" 0) = .ok res
        ∧ res.Formula = ""
        ∧ res.Results[0]? = some e0 ∧ e0.get "calculated_value" = some (.float (.fin 4 0))
        ∧ res.Results[1]? = some e1 ∧ e1.get "calculated_value" = some (.float (.fin 0 0)) := by
  refine ⟨rfl, rfl, ?_⟩
  obtain ⟨res, hres, hformula, _, hall⟩ :=
    CalculateRowWise_unknown_operation (F := Exact) (sampleDisk [["4", "6"], ["x", "2"]] "B")
      "book.xlsx" (sampleRowRequest ["A", "B"] "C" "power" 0)
      (sampleFile [["4", "6"], ["x", "2"]] "B") [["4", "6"], ["x", "2"]] rfl rfl
      (by decide) (by decide) (by decide)
  obtain ⟨e0, he0, hv0, _⟩ := hall 0 ["4", "6"] (by decide) (by decide)
  obtain ⟨e1, he1, hv1, _⟩ := hall 1 ["x", "2"] (by decide) (by decide)
  exact ⟨res, e0, e1, hres, hformula, he0,
    (hv0 "A" ["B"] rfl (by decide) (by decide)).trans (by decide), he1,
    (hv1 "A" ["B"] rfl (by decide) (by decide)).trans (by decide)⟩


/-! ## Exporting a row calculation -/

theorem decodeEntry_get (m : Row F) (k : String) :
    (decodeEntry m).get k = (m.get k).map jsonRoundTrip := by
  induction m with
  | nil => rfl
  | cons p rest ih =>
    obtain ⟨k1, v1⟩ := p
    by_cases h : k1 = k
    · simp [decodeEntry, GoMap.entries, GoMap.get, h]
    · have ih2 : GoMap.get (List.map (fun kv => (kv.1, jsonRoundTrip kv.2)) rest) k
          = (GoMap.get rest k).map jsonRoundTrip := ih
      simp [decodeEntry, GoMap.entries, GoMap.get, h, ih2]

/-- A key that holds a number (an `int` or a `float64`) holds a `float64` after the
JSON round trip. -/
theorem decodeEntry_number (m : Row F) (k : String) (v : Value F) (hv : m.get k = some v)
    (hnum : ∀ s, v ≠ .str s) : ∃ x, (decodeEntry m).get k = some (.float x) := by
  rw [decodeEntry_get, hv]
  cases v with
  | str s => exact absurd rfl (hnum s)
  | float x => exact ⟨x, rfl⟩
  | int n => exact ⟨GoFloat64.ofInt n, rfl⟩

theorem set_number (m : Row F) (key k : String) (y : Value F) (hy : ∀ s, y ≠ .str s)
    (h : ∃ v, m.get key = some v ∧ ∀ s, v ≠ .str s) :
    ∃ v, (m.set k y).get key = some v ∧ ∀ s, v ≠ .str s := by
  by_cases hk : key = k
  · rw [hk, GoMap.get_set_self]
    exact ⟨y, rfl, hy⟩
  · rw [GoMap.get_set_other _ _ _ _ hk]
    exact h

theorem echoSources_number (key : String) :
    ∀ (cols : List String) (vals : List F) (m : Row F),
      (∃ v, m.get key = some v ∧ ∀ s, v ≠ .str s) →
      ∃ v, (echoSources cols vals m).get key = some v ∧ ∀ s, v ≠ .str s := by
  intro cols
  induction cols with
  | nil => intro vals m h; simpa [echoSources] using h
  | cons c rest ih =>
    intro vals m h
    cases vals with
    | nil => simpa [echoSources] using h
    | cons x xs =>
      simp only [echoSources]
      exact ih xs _ (set_number m key c (.float x) (fun s hs => by cases hs) h)

/-- The entry of a row for a numeric operation holds numbers under `row_number` and
under `calculated_value`, whatever the source and target columns are. -/
theorem numericRow_number (req : RowCalculationRequest) (rowIndex : Nat) (row : List String)
    (key : String) (hkey : key = "row_number" ∨ key = "calculated_value") :
    ∃ v, (numericRow req rowIndex row : Row F).get key = some v ∧ ∀ s, v ≠ .str s := by
  unfold numericRow
  simp only []
  apply echoSources_number
  unfold newRowResult
  apply set_number _ _ _ _ (fun s hs => by cases hs)
  rcases hkey with hkey | hkey
  · apply set_number _ _ _ _ (fun s hs => by cases hs)
    rw [hkey, GoMap.get_set_self]
    exact ⟨_, rfl, fun s hs => by cases hs⟩
  · rw [hkey, GoMap.get_set_self]
    exact ⟨_, rfl, fun s hs => by cases hs⟩

theorem exportWrites_get (sheetName targetColumn : String) :
    ∀ (entries : List (Row F)),
      (∀ e ∈ entries, ∃ rn cv, e.get "row_number" = some (.float rn)
        ∧ e.get "calculated_value" = some (.float cv)) →
      (exportWrites sheetName targetColumn entries).length = entries.length
      ∧ ∀ (i : Nat) (e : Row F), entries[i]? = some e →
          ∃ rn cv, e.get "row_number" = some (.float rn)
            ∧ e.get "calculated_value" = some (.float cv)
            ∧ (exportWrites sheetName targetColumn entries)[i]?
                = some (sheetName, targetColumn ++ toString (GoFloat64.toInt rn), .num cv) := by
  intro entries
  induction entries with
  | nil =>
    intro _
    refine ⟨rfl, ?_⟩
    intro i e h
    cases h
  | cons e0 rest ih =>
    intro hall
    obtain ⟨rn, cv, h1, h2⟩ := hall e0 (List.mem_cons_self _ _)
    obtain ⟨ihlen, ihget⟩ := ih (fun e he => hall e (List.mem_cons_of_mem _ he))
    have hw : exportWrites sheetName targetColumn (e0 :: rest)
        = (sheetName, targetColumn ++ toString (GoFloat64.toInt rn), .num cv)
          :: exportWrites sheetName targetColumn rest := by
      simp only [exportWrites, h1, h2]
    rw [hw]
    refine ⟨by simp [ihlen], ?_⟩
    intro i e hi
    cases i with
    | zero =>
      simp only [List.getElem?_cons_zero, Option.some.injEq] at hi
      subst hi
      exact ⟨rn, cv, h1, h2, List.getElem?_cons_zero⟩
    | succ j =>
      simp only [List.getElem?_cons_succ] at hi ⊢
      exact ihget j e hi

/-- The export loop over entries whose two keys hold `float64` values: it does not
panic, its writes are the ones asked for, and it ends well when writes cannot
fail. -/
theorem exportLoop_numbers {W : Type} (rt : Runtime F W) (sheetName targetColumn : String) :
    ∀ (entries : List (Row F)),
      (∀ e ∈ entries, ∃ rn cv, e.get "row_number" = some (.float rn)
        ∧ e.get "calculated_value" = some (.float cv)) →
      ∀ (w : W) (calls : List (Call F W)),
        (∀ msg, (exportLoop rt sheetName targetColumn entries w calls).2 ≠ .panic msg)
        ∧ (∀ w2, (exportLoop rt sheetName targetColumn entries w calls).2 = .ok w2 →
            (exportLoop rt sheetName targetColumn entries w calls).1
              = calls ++ (exportWrites sheetName targetColumn entries).map writeCall
            ∧ applyWrites rt w (exportWrites sheetName targetColumn entries) = .ok w2)
        ∧ ((∀ w sheet cell v, ∃ w2, rt.SetCellValue w sheet cell v = .ok w2) →
            ∃ w2, (exportLoop rt sheetName targetColumn entries w calls).2 = .ok w2) := by
  intro entries
  induction entries with
  | nil =>
    intro _ w calls
    refine ⟨fun msg h => (by cases h), ?_, fun _ => ⟨w, rfl⟩⟩
    intro w2 h
    simp only [exportLoop, Outcome.ok.injEq] at h
    simp [exportLoop, exportWrites, applyWrites, h]
  | cons e0 rest ih =>
    intro hall w calls
    obtain ⟨rn, cv, h1, h2⟩ := hall e0 (List.mem_cons_self _ _)
    have hrest := ih (fun e he => hall e (List.mem_cons_of_mem _ he))
    have hw : exportWrites sheetName targetColumn (e0 :: rest)
        = (sheetName, targetColumn ++ toString (GoFloat64.toInt rn), .num cv)
          :: exportWrites sheetName targetColumn rest := by
      simp only [exportWrites, h1, h2]
    cases hs : rt.SetCellValue w sheetName
        (targetColumn ++ toString (GoFloat64.toInt rn)) (.num cv) with
    | error err =>
      simp only [exportLoop, h1, h2, hs]
      refine ⟨fun msg h => (by cases h), fun w2 h => (by cases h), ?_⟩
      intro htotal
      obtain ⟨w3, hok⟩ := htotal w sheetName
        (targetColumn ++ toString (GoFloat64.toInt rn)) (.num cv)
      rw [hs] at hok
      cases hok
    | ok w3 =>
      simp only [exportLoop, h1, h2, hs]
      obtain ⟨g1, g2, g3⟩ := hrest w3
        (calls ++ [.SetCellValue sheetName
          (targetColumn ++ toString (GoFloat64.toInt rn)) (.num cv)])
      refine ⟨g1, ?_, g3⟩
      intro w2 h
      obtain ⟨c1, c2⟩ := g2 w2 h
      rw [hw]
      refine ⟨?_, ?_⟩
      · rw [c1]
        simp [writeCall]
      · simp only [applyWrites, hs]
        exact c2


theorem ExportRowCalculationToTemplate_eq {W : Type} (rt : Runtime F W)
    (calculationResult : RowCalculationResult F) (templatePath : String) (f : W)
    (sheetName : String) (more : List String)
    (hopen : rt.OpenFile
      (if templatePath = "" then "templates/FileMauImportThuNhap.xlsx" else templatePath)
        = .ok f)
    (hsheets : rt.GetSheetList f = sheetName :: more) :
    ExportRowCalculationToTemplate rt calculationResult templatePath
      = match exportLoop rt sheetName calculationResult.TargetColumn
          calculationResult.Results f [] with
        | (calls, .error e) => (calls, .error e)
        | (calls, .panic e) => (calls, .panic e)
        | (calls, .ok w) =>
          match rt.MkdirAll "exports" with
          | .error e =>
            (calls ++ [.MkdirAll "exports"],
              .error ("failed to create exports directory: " ++ e))
          | .ok _ =>
            match rt.SaveAs w ("exports/calculated_template_" ++ toString rt.Unix ++ ".xlsx") with
            | .error e =>
              (calls ++ [.MkdirAll "exports",
                  .SaveAs w ("exports/calculated_template_" ++ toString rt.Unix ++ ".xlsx")],
                .error ("failed to save template file: " ++ e))
            | .ok _ =>
              (calls ++ [.MkdirAll "exports",
                  .SaveAs w ("exports/calculated_template_" ++ toString rt.Unix ++ ".xlsx")],
                .ok ("exports/calculated_template_" ++ toString rt.Unix ++ ".xlsx")) := by
  unfold ExportRowCalculationToTemplate
  simp only [hopen, hsheets]

/-- An export does not panic when every entry holds `float64` values under its two
keys. -/
theorem ExportRowCalculationToTemplate_no_panic {W : Type} (rt : Runtime F W)
    (calculationResult : RowCalculationResult F) (templatePath : String)
    (hall : ∀ e ∈ calculationResult.Results, ∃ rn cv, e.get "row_number" = some (.float rn)
      ∧ e.get "calculated_value" = some (.float cv)) (msg : String) :
    (ExportRowCalculationToTemplate rt calculationResult templatePath).2 ≠ .panic msg := by
  cases ho : rt.OpenFile
      (if templatePath = "" then "templates/FileMauImportThuNhap.xlsx" else templatePath) with
  | error e =>
    unfold ExportRowCalculationToTemplate
    simp only [ho]
    intro h
    cases h
  | ok f =>
    cases hs : rt.GetSheetList f with
    | nil =>
      unfold ExportRowCalculationToTemplate
      simp only [ho, hs]
      intro h
      cases h
    | cons sheetName more =>
      rw [ExportRowCalculationToTemplate_eq rt calculationResult templatePath f sheetName more
        ho hs]
      have hl := (exportLoop_numbers rt sheetName calculationResult.TargetColumn
        calculationResult.Results hall f []).1
      cases hloop : exportLoop rt sheetName calculationResult.TargetColumn
          calculationResult.Results f [] with
      | mk calls r =>
        rw [hloop] at hl
        cases r with
        | error e => intro h; cases h
        | panic e => exact absurd rfl (hl e)
        | ok w =>
          simp only []
          cases rt.MkdirAll "exports" with
          | error e => intro h; cases h
          | ok u =>
            simp only []
            cases rt.SaveAs w ("exports/calculated_template_" ++ toString rt.Unix ++ ".xlsx") with
            | error e => intro h; cases h
            | ok u2 => intro h; cases h

/-- An export whose entries hold `float64` values under their two keys: a call that
returns a path made exactly the writes asked for, then saved the workbook; with a
runtime whose calls succeed it does return a path. -/
theorem ExportRowCalculationToTemplate_writes {W : Type} (rt : Runtime F W)
    (calculationResult : RowCalculationResult F) (templatePath : String) (f : W)
    (sheetName : String) (more : List String)
    (hopen : rt.OpenFile
      (if templatePath = "" then "templates/FileMauImportThuNhap.xlsx" else templatePath)
        = .ok f)
    (hsheets : rt.GetSheetList f = sheetName :: more)
    (hall : ∀ e ∈ calculationResult.Results, ∃ rn cv, e.get "row_number" = some (.float rn)
      ∧ e.get "calculated_value" = some (.float cv)) :
    (∀ path, (ExportRowCalculationToTemplate rt calculationResult templatePath).2 = .ok path →
      ∃ w : W,
        (ExportRowCalculationToTemplate rt calculationResult templatePath).1
          = (exportWrites sheetName calculationResult.TargetColumn
                calculationResult.Results).map writeCall
            ++ [.MkdirAll "exports", .SaveAs w path]
        ∧ applyWrites rt f (exportWrites sheetName calculationResult.TargetColumn
            calculationResult.Results) = .ok w)
    ∧ ((∀ w sheet cell v, ∃ w2, rt.SetCellValue w sheet cell v = .ok w2) →
        (∀ p, rt.MkdirAll p = .ok ()) → (∀ w p, rt.SaveAs w p = .ok ()) →
        ∃ path, (ExportRowCalculationToTemplate rt calculationResult templatePath).2
          = .ok path) := by
  rw [ExportRowCalculationToTemplate_eq rt calculationResult templatePath f sheetName more
    hopen hsheets]
  obtain ⟨_, hok, htot⟩ := exportLoop_numbers rt sheetName calculationResult.TargetColumn
    calculationResult.Results hall f []
  cases hloop : exportLoop rt sheetName calculationResult.TargetColumn
      calculationResult.Results f [] with
  | mk calls r =>
    rw [hloop] at hok htot
    cases r with
    | error e =>
      refine ⟨fun path h => (by cases h), ?_⟩
      intro htotal _ _
      obtain ⟨w2, h2⟩ := htot htotal
      cases h2
    | panic e =>
      refine ⟨fun path h => (by cases h), ?_⟩
      intro htotal _ _
      obtain ⟨w2, h2⟩ := htot htotal
      cases h2
    | ok w =>
      obtain ⟨c1, c2⟩ := hok w rfl
      simp only [List.nil_append] at c1
      simp only []
      constructor
      · intro path hpath
        cases hm : rt.MkdirAll "exports" with
        | error e =>
          rw [hm] at hpath
          cases hpath
        | ok u =>
          rw [hm] at hpath
          simp only [] at hpath ⊢
          cases hs : rt.SaveAs w ("exports/calculated_template_" ++ toString rt.Unix ++ ".xlsx") with
          | error e =>
            rw [hs] at hpath
            cases hpath
          | ok u2 =>
            rw [hs] at hpath
            simp only [Outcome.ok.injEq] at hpath
            subst hpath
            exact ⟨w, by rw [c1], c2⟩
      · intro _ hmk hsave
        rw [hmk "exports"]
        simp only []
        rw [hsave w _]
        exact ⟨_, rfl⟩


theorem exportLoop_text_panics {W : Type} (rt : Runtime F W) (sheetName targetColumn : String)
    (e : Row F) (rest : List (Row F)) (w : W) (calls : List (Call F W)) (s : String)
    (hcv : e.get "calculated_value" = some (.str s))
    (hrn : (∃ x, e.get "row_number" = some (.float x))
      ∨ (∃ s2, e.get "row_number" = some (.str s2))) :
    exportLoop rt sheetName targetColumn (e :: rest) w calls
      = (calls, .panic "interface conversion: interface \x7b\x7d is string, not float64") := by
  rcases hrn with ⟨x, hx⟩ | ⟨s2, hs2⟩
  · simp only [exportLoop, hx, hcv]
    rfl
  · simp only [exportLoop, hs2]
    rfl

/-- The entry of a row for the copy operation, after the JSON round trip: the
copied text under `calculated_value`, and a number or the copied text under
`row_number`. -/
theorem copyEntry_decoded (rowIndex : Nat) (targetColumn source s : String)
    (hsource : columnIndex source ≠ none) :
    (decodeEntry ((newRowResult rowIndex targetColumn (.str s : Value F)).set source
        (.str s))).get "calculated_value" = some (.str s)
    ∧ ((∃ x, (decodeEntry ((newRowResult rowIndex targetColumn (.str s : Value F)).set source
          (.str s))).get "row_number" = some (.float x))
      ∨ (∃ s2, (decodeEntry ((newRowResult rowIndex targetColumn (.str s : Value F)).set source
          (.str s))).get "row_number" = some (.str s2))) := by
  have hne : "row_number" ≠ source := by
    intro h
    rw [← h] at hsource
    exact hsource (by decide)
  constructor
  · rw [decodeEntry_get, (copyEntry_get rowIndex targetColumn source (.str s) hsource).2.1]
    rfl
  · rw [decodeEntry_get, GoMap.get_set_other _ _ _ _ hne]
    by_cases ht : targetColumn = "row_number"
    · right
      refine ⟨s, ?_⟩
      unfold newRowResult
      rw [ht, GoMap.get_set_self]
      rfl
    · left
      refine ⟨GoFloat64.ofInt ((rowIndex : Int) + 1), ?_⟩
      rw [newRowResult_row_number _ _ _ ht]
      rfl


/-- C23: the type assertions of `ExportRowCalculationToTemplate` on a result of
`CalculateRowWise` that went through JSON.  For every operation other than copy
the assertions on row_number and calculated_value succeed (no panic), and a call
on a template that opens and has a sheet writes, entry after entry, the
calculated_value of each entry to cell `<TargetColumn><row_number>` of the first
sheet, then saves; with a runtime whose calls succeed it returns the path.  For
copy with a valid source column the first entry already holds text under
calculated_value, and the call panics on the assertion before any write. -/
theorem ExportRowCalculationToTemplate_assertions {W : Type} (disk : Disk) (filePath : String)
    (req : RowCalculationRequest) (res : RowCalculationResult F)
    (hres : CalculateRowWise disk filePath req = .ok res)
    (rt : Runtime F W) (templatePath : String) :
    (req.Operation ≠ "copy" →
      (∀ msg, (ExportRowCalculationToTemplate rt (decodeResult res) templatePath).2
          ≠ .panic msg)
      ∧ ∀ (f : W) (sheetName : String) (more : List String),
          rt.OpenFile
            (if templatePath = "" then "templates/FileMauImportThuNhap.xlsx" else templatePath)
              = .ok f →
          rt.GetSheetList f = sheetName :: more →
          (exportWrites sheetName res.TargetColumn (decodeResult res).Results).length
              = res.Results.length
          ∧ (∀ (i : Nat) (e : Row F), (decodeResult res).Results[i]? = some e →
              ∃ rn cv, e.get "row_number" = some (.float rn)
                ∧ e.get "calculated_value" = some (.float cv)
                ∧ (exportWrites sheetName res.TargetColumn (decodeResult res).Results)[i]?
                    = some (sheetName, res.TargetColumn ++ toString (GoFloat64.toInt rn),
                        .num cv))
          ∧ (∀ path,
              (ExportRowCalculationToTemplate rt (decodeResult res) templatePath).2 = .ok path →
              ∃ w : W,
                (ExportRowCalculationToTemplate rt (decodeResult res) templatePath).1
                  = (exportWrites sheetName res.TargetColumn
                        (decodeResult res).Results).map writeCall
                    ++ [.MkdirAll "exports", .SaveAs w path]
                ∧ applyWrites rt f (exportWrites sheetName res.TargetColumn
                    (decodeResult res).Results) = .ok w)
          ∧ ((∀ w sheet cell v, ∃ w2, rt.SetCellValue w sheet cell v = .ok w2) →
              (∀ p, rt.MkdirAll p = .ok ()) → (∀ w p, rt.SaveAs w p = .ok ()) →
              ∃ path, (ExportRowCalculationToTemplate rt (decodeResult res) templatePath).2
                = .ok path))
    ∧ (req.Operation = "copy" →
        ∀ idx, columnIndex (req.SourceColumns.headD "") = some idx →
        ∀ (f : W) (sheetName : String) (more : List String),
          rt.OpenFile
            (if templatePath = "" then "templates/FileMauImportThuNhap.xlsx" else templatePath)
              = .ok f →
          rt.GetSheetList f = sheetName :: more →
          ExportRowCalculationToTemplate rt (decodeResult res) templatePath
            = ([], .panic
                "interface conversion: interface \x7b\x7d is string, not float64")) := by
  obtain ⟨f0, rows, hopen0, hrows0, hgood, formula, hform⟩ :=
    CalculateRowWise_ok_readable disk filePath req res hres
  obtain ⟨_, _, hok⟩ := CalculateRowWise_cases (F := F) disk filePath req f0 rows hopen0 hrows0
  obtain ⟨res2, hres2, _, _, _, _, _, _, hresults, _⟩ := hok hgood formula hform
  rw [hres] at hres2
  have hsame : res2 = res := by
    cases hres2
    rfl
  subst hsame
  have h1 : req.StartRow < (rows.length : Int) := by omega
  obtain ⟨hlo, hhi⟩ := resolveEndRow_bounds rows.length req h1
  have hidx : ∀ i ∈ List.range' req.StartRow.toNat
      (resolveEndRow rows.length req + 1 - req.StartRow).toNat, i < rows.length := by
    intro i hi
    rw [List.mem_range'_1] at hi
    omega
  constructor
  · intro hop
    rw [rowLoop_numeric rows req hop _ [] hidx, List.nil_append] at hresults
    have hall : ∀ e ∈ (decodeResult res2).Results,
        ∃ rn cv, e.get "row_number" = some (.float rn)
          ∧ e.get "calculated_value" = some (.float cv) := by
      intro e he
      have he2 : e ∈ res2.Results.map decodeEntry := he
      rw [hresults, List.map_map, List.mem_map] at he2
      obtain ⟨i, _, hi⟩ := he2
      subst hi
      simp only [Function.comp]
      obtain ⟨v1, g1, n1⟩ := numericRow_number (F := F) req i (rows.getD i []) "row_number"
        (Or.inl rfl)
      obtain ⟨v2, g2, n2⟩ := numericRow_number (F := F) req i (rows.getD i [])
        "calculated_value" (Or.inr rfl)
      obtain ⟨rn, hrn⟩ := decodeEntry_number _ _ v1 g1 n1
      obtain ⟨cv, hcv⟩ := decodeEntry_number _ _ v2 g2 n2
      exact ⟨rn, cv, hrn, hcv⟩
    refine ⟨fun msg =>
      ExportRowCalculationToTemplate_no_panic rt (decodeResult res2) templatePath hall msg, ?_⟩
    intro f sheetName more hopen hsheets
    obtain ⟨hlen, hget⟩ := exportWrites_get (F := F) sheetName res2.TargetColumn
      (decodeResult res2).Results hall
    obtain ⟨hw, htot⟩ := ExportRowCalculationToTemplate_writes rt (decodeResult res2)
      templatePath f sheetName more hopen hsheets hall
    refine ⟨?_, hget, hw, htot⟩
    rw [hlen]
    exact List.length_map _ _
  · intro hop idx hci f sheetName more hopen hsheets
    rw [rowLoop_copy rows req hop idx hci _ [] hidx, List.nil_append] at hresults
    obtain ⟨m, hm⟩ : ∃ m, (resolveEndRow rows.length req + 1 - req.StartRow).toNat = m + 1 :=
      ⟨(resolveEndRow rows.length req + 1 - req.StartRow).toNat - 1, by omega⟩
    rw [hm, List.range'_succ, List.map_cons] at hresults
    have hsource : columnIndex (req.SourceColumns.headD "") ≠ none := by
      rw [hci]
      exact Option.some_ne_none _
    obtain ⟨hcv, hrn⟩ := copyEntry_decoded (F := F) req.StartRow.toNat req.TargetColumn
      (req.SourceColumns.headD "") (((rows.getD req.StartRow.toNat [])[idx]?).getD "") hsource
    rw [ExportRowCalculationToTemplate_eq rt (decodeResult res2) templatePath f sheetName more
      hopen hsheets]
    have hdec : (decodeResult res2).Results = res2.Results.map decodeEntry := rfl
    rw [hdec, hresults, List.map_cons,
      exportLoop_text_panics rt sheetName _ _ _ f [] _ hcv hrn]


theorem ExportRowCalculationToTemplate_assertions_witness :
    (CalculateRowWise (sampleDisk [["1", "2"]] "B") "book.xlsx"
        (sampleRowRequest ["A", "B"] "C" "add" 0) = .ok sampleAddResult
      ∧ (ExportRowCalculationToTemplate sampleRuntime (decodeResult sampleAddResult)
          "template.xlsx").2 = .ok "exports/calculated_template_1700000000.xlsx"
      ∧ ∃ w : SampleBook,
          (ExportRowCalculationToTemplate sampleRuntime (decodeResult sampleAddResult)
            "template.xlsx").1
            = [.SetCellValue "Sheet1" "C1" (.num (.fin 3 0)), .MkdirAll "exports",
               .SaveAs w "exports/calculated_template_1700000000.xlsx"]
          ∧ readCell w "Sheet1" "C1" = some "3")
    ∧ (CalculateRowWise (sampleDisk [["abc", "7"]] "B") "book.xlsx"
        (sampleRowRequest ["A"] "C" "copy" 0) = .ok sampleCopyResult
      ∧ ExportRowCalculationToTemplate sampleRuntime (decodeResult sampleCopyResult)
          "template.xlsx"
        = ([], .panic "interface conversion: interface \x7b\x7d is string, not float64")) := by
  have hadd : CalculateRowWise (sampleDisk [["1", "2"]] "B") "book.xlsx"
      (sampleRowRequest ["A", "B"] "C" "add" 0) = .ok sampleAddResult := rfl
  have hcopy : CalculateRowWise (sampleDisk [["abc", "7"]] "B") "book.xlsx"
      (sampleRowRequest ["A"] "C" "copy" 0) = .ok sampleCopyResult := rfl
  refine ⟨⟨hadd, rfl, ?_⟩, hcopy, ?_⟩
  · obtain ⟨_, _, hw, _⟩ :=
      ((ExportRowCalculationToTemplate_assertions (F := Exact) _ _ _ sampleAddResult hadd
        sampleRuntime "template.xlsx").1 (by decide)).2 templateBook "Sheet1" [] rfl rfl
    obtain ⟨w, hcalls, happly⟩ := hw "exports/calculated_template_1700000000.xlsx" rfl
    have hw2 : w = [(("Sheet1", "C1"), "3"), (("Sheet1", "L10"), "Income"),
        (("Sheet1", "K11"), "unit"), (("Sheet1", "L14"), "total")] := by
      have h3 : applyWrites sampleRuntime templateBook
          (exportWrites "Sheet1" sampleAddResult.TargetColumn
            (decodeResult sampleAddResult).Results)
          = .ok [(("Sheet1", "C1"), "3"), (("Sheet1", "L10"), "Income"),
              (("Sheet1", "K11"), "unit"), (("Sheet1", "L14"), "total")] := rfl
      rw [h3] at happly
      exact (Except.ok.inj happly).symm
    subst hw2
    exact ⟨_, hcalls, by decide⟩
  · exact (ExportRowCalculationToTemplate_assertions (F := Exact) _ _ _ sampleCopyResult hcopy
      sampleRuntime "template.xlsx").2 rfl 0 (by decide) templateBook "Sheet1" [] rfl rfl

end ExcelService
